import Mathlib

/-!
# Orzion Pro front end (`script.js`): the chat-send action and its streaming consumer

A shallow embedding of `UIManager.sendMessage`, `UIManager.handleStreamingResponse` and
`AppState.stopGeneration`, together with the parts of the ECMAScript library they rely on
(`String.prototype.split`, `startsWith`, `slice`, `trim`, `JSON.parse`, property reads,
`ToBoolean`, and the string concatenation performed by `+=`).

Conventions of the embedding:

* a JavaScript string is the list of its UTF-16 code units (`JSString`);
* a chunk is the string returned by `decoder.decode(value)` for one `reader.read()`; the
  body of a response is the list of its chunks followed by the way the stream ends;
* what the code does to the page, the console and the network is recorded as the sequence
  of the calls it makes (`Effect`); `displayMessage`, `renderMarkdown`,
  `renderMarkdownRealTime`, `scrollToBottom`, `showError` and `saveChatToServer` are
  collaborators that return normally, except that `marked.parse`, inside `renderMarkdown`,
  rejects an argument that is not a string;
* values that come from the surroundings (`new Date()`, the settlement of `fetch`, the
  message texts of errors raised by the engine) are inputs (`SendEnv`);
* resource limits of the engine (call-stack depth, heap) are not modelled.

The file has three parts: the embedding, the lemmas, and the properties of the
specification, each named after the claim it settles (`C1_...`, `C2_...`).
-/

namespace Orzion

/-! ## Strings -/

/-- A JavaScript string: its UTF-16 code units. -/
abbrev JSString := List Nat

/-- The code units of a Lean string (a character outside the BMP gives a surrogate pair). -/
def utf16 (s : String) : JSString :=
  s.toList.flatMap fun c =>
    if c.toNat < 65536 then [c.toNat]
    else [55296 + (c.toNat - 65536) / 1024, 56320 + (c.toNat - 65536) % 1024]

/-- The string `"data: "` tested by `line.startsWith('data: ')`. -/
def dataPrefix : JSString := [100, 97, 116, 97, 58, 32]

/-- The separator of `chunk.split('\n')`. -/
def newline : Nat := 10

/-- The call `s.split('\n')`: the pieces between line feeds; always at least one piece,
the last one being what follows the last line feed (empty when the string ends with a line
feed). -/
def splitLines : JSString → List JSString
  | [] => [[]]
  | c :: rest =>
    if c = newline then [] :: splitLines rest
    else
      match splitLines rest with
      | [] => [[c]]
      | l :: ls => (c :: l) :: ls

/-- The call `line.startsWith(p)`. -/
def startsWith (p line : JSString) : Bool := p.isPrefixOf line

/-- The call `line.slice(n)` for a non-negative `n`. -/
def slice (n : Nat) (line : JSString) : JSString := line.drop n

/-! ## JSON values -/

/-- A JSON number as written: its value is `± mantissa * 10 ^ exponent`. -/
structure JsonNumber where
  negative : Bool
  mantissa : Nat
  exponent : Int
  deriving DecidableEq, Repr

/-- The values `JSON.parse` can return. An object keeps its members in source order. -/
inductive JsonValue where
  | null
  | bool (b : Bool)
  | number (n : JsonNumber)
  | string (s : JSString)
  | array (items : List JsonValue)
  | object (members : List (JSString × JsonValue))
  deriving Repr

mutual

/-- Structural equality of JSON values. -/
def JsonValue.beq : JsonValue → JsonValue → Bool
  | .null, .null => true
  | .bool a, .bool b => decide (a = b)
  | .number a, .number b => decide (a = b)
  | .string a, .string b => decide (a = b)
  | .array a, .array b => beqItems a b
  | .object a, .object b => beqMembers a b
  | _, _ => false

/-- Structural equality of lists of JSON values. -/
def beqItems : List JsonValue → List JsonValue → Bool
  | [], [] => true
  | a :: as, b :: bs => JsonValue.beq a b && beqItems as bs
  | _, _ => false

/-- Structural equality of member lists. -/
def beqMembers : List (JSString × JsonValue) → List (JSString × JsonValue) → Bool
  | [], [] => true
  | (k, a) :: as, (l, b) :: bs => decide (k = l) && JsonValue.beq a b && beqMembers as bs
  | _, _ => false

end

mutual

/-- Soundness of `beq`. -/
theorem JsonValue.beq_eq : ∀ a b : JsonValue, JsonValue.beq a b = true → a = b
  | .null, b => by cases b <;> simp [JsonValue.beq]
  | .bool a, b => by cases b <;> simp [JsonValue.beq]
  | .number a, b => by cases b <;> simp [JsonValue.beq]
  | .string a, b => by cases b <;> simp [JsonValue.beq]
  | .array a, b => by
    cases b <;> simp [JsonValue.beq]
    exact beqItems_eq a _
  | .object a, b => by
    cases b <;> simp [JsonValue.beq]
    exact beqMembers_eq a _

/-- Soundness of `beqItems`. -/
theorem beqItems_eq : ∀ a b : List JsonValue, beqItems a b = true → a = b
  | [], b => by cases b <;> simp [beqItems]
  | a :: as, b => by
    cases b with
    | nil => simp [beqItems]
    | cons b bs =>
      simp only [beqItems, Bool.and_eq_true, List.cons.injEq]
      exact fun h => ⟨JsonValue.beq_eq a b h.1, beqItems_eq as bs h.2⟩

/-- Soundness of `beqMembers`. -/
theorem beqMembers_eq : ∀ a b : List (JSString × JsonValue), beqMembers a b = true → a = b
  | [], b => by cases b <;> simp [beqMembers]
  | (k, a) :: as, b => by
    cases b with
    | nil => simp [beqMembers]
    | cons b bs =>
      obtain ⟨l, b⟩ := b
      simp only [beqMembers, Bool.and_eq_true, decide_eq_true_eq, List.cons.injEq, Prod.mk.injEq]
      exact fun h => ⟨⟨h.1.1, JsonValue.beq_eq a b h.1.2⟩, beqMembers_eq as bs h.2⟩

end

mutual

/-- Reflexivity of `beq`. -/
theorem JsonValue.beq_refl : ∀ a : JsonValue, JsonValue.beq a a = true
  | .null => by simp [JsonValue.beq]
  | .bool a => by simp [JsonValue.beq]
  | .number a => by simp [JsonValue.beq]
  | .string a => by simp [JsonValue.beq]
  | .array a => by simp only [JsonValue.beq]; exact beqItems_refl a
  | .object a => by simp only [JsonValue.beq]; exact beqMembers_refl a

/-- Reflexivity of `beqItems`. -/
theorem beqItems_refl : ∀ a : List JsonValue, beqItems a a = true
  | [] => by simp [beqItems]
  | a :: as => by simp only [beqItems, Bool.and_eq_true]; exact ⟨JsonValue.beq_refl a, beqItems_refl as⟩

/-- Reflexivity of `beqMembers`. -/
theorem beqMembers_refl : ∀ a : List (JSString × JsonValue), beqMembers a a = true
  | [] => by simp [beqMembers]
  | (k, a) :: as => by
    simp only [beqMembers, Bool.and_eq_true, decide_eq_true_eq, true_and]
    exact ⟨JsonValue.beq_refl a, beqMembers_refl as⟩

end

/-- Equality of JSON values is decidable. -/
instance : DecidableEq JsonValue := fun a b =>
  if h : JsonValue.beq a b = true then isTrue (JsonValue.beq_eq a b h)
  else isFalse fun e => h (e ▸ JsonValue.beq_refl a)

/-! ## Number values (IEEE 754 binary64) -/

/-- Numerator and denominator of the magnitude `mantissa * 10 ^ exponent`. -/
def JsonNumber.magnitude (x : JsonNumber) : Nat × Nat :=
  if 0 ≤ x.exponent then (x.mantissa * 10 ^ x.exponent.toNat, 1)
  else (x.mantissa, 10 ^ (-x.exponent).toNat)

/-- The integer `e` with `2 ^ e ≤ num / den < 2 ^ (e + 1)`, for positive `num` and `den`. -/
def floorLog2 (num den : Nat) : Int :=
  let l : Int := (Nat.log2 num : Int) - (Nat.log2 den : Int)
  if (if 0 ≤ l then den * 2 ^ l.toNat ≤ num else den ≤ num * 2 ^ (-l).toNat) then l else l - 1

/-- The integer nearest to `a / b`, a tie going to the even one. -/
def roundHalfEven (a b : Nat) : Nat :=
  let q := a / b
  let r := a % b
  if 2 * r < b then q
  else if b < 2 * r then q + 1
  else if q % 2 = 0 then q else q + 1

/-- The double nearest to `num / den` (`num`, `den` positive), as `(f, p)` standing for
`f * 2 ^ p` with `f < 2 ^ 53` and `-1074 ≤ p`; `none` is `Infinity`, `f = 0` is zero. -/
def toDouble (num den : Nat) : Option (Nat × Int) :=
  let p : Int := max (floorLog2 num den - 52) (-1074)
  let f := if 0 ≤ p then roundHalfEven num (den * 2 ^ p.toNat)
           else roundHalfEven (num * 2 ^ (-p).toNat) den
  let fp : Nat × Int := if f = 2 ^ 53 then (2 ^ 52, p + 1) else (f, p)
  if 971 < fp.2 then none else some fp

/-- The digits `s` and the decimal exponent `n` of `Number::toString` for the positive double
`f * 2 ^ p`, tried with `k` digits: `s * 10 ^ (n - k)` must round to the double, and of two
candidates the nearer one (the even one on a tie) is taken. -/
def shortestWith (f : Nat) (p : Int) (k : Nat) : Option (Nat × Int) :=
  -- the double and the two midpoints to its neighbours, in units of `1 / den`, times four
  let unit : Nat := if 2 ≤ p then 2 ^ (p - 2).toNat else 1
  let den : Nat := if 2 ≤ p then 1 else 2 ^ (2 - p).toNat
  let v := 4 * f * unit
  let lo := (4 * f - (if f = 2 ^ 52 ∧ -1074 < p then 1 else 2)) * unit
  let hi := (4 * f + 2) * unit
  let closed : Bool := f % 2 = 0
  -- `10 ^ (n0 - 1) ≤ v / den < 10 ^ n0`
  let n0 : Int := if den ≤ v then (Nat.log 10 (v / den) : Int) + 1
                  else 1 - (Nat.clog 10 ((den + v - 1) / v) : Int)
  let t : Int := n0 - k
  let a : Nat := if 0 ≤ t then 10 ^ t.toNat else 1
  let b : Nat := if 0 ≤ t then 1 else 10 ^ (-t).toNat
  -- a candidate `c` stands for `c * a / b`
  let s1 := (v * b) / (den * a)
  let s2 := s1 + 1
  let inside (c : Nat) : Bool :=
    if closed then lo * b ≤ c * a * den ∧ c * a * den ≤ hi * b
    else lo * b < c * a * den ∧ c * a * den < hi * b
  let d1 := v * b - s1 * a * den
  let d2 := s2 * a * den - v * b
  let pick (c : Nat) : Option (Nat × Int) :=
    if c = 10 ^ k then some (10 ^ (k - 1), n0 + 1) else some (c, n0)
  if 10 ^ (k - 1) ≤ s1 ∧ inside s1 ∧ inside s2 then
    if d1 < d2 then pick s1 else if d2 < d1 then pick s2
    else if s1 % 2 = 0 then pick s1 else pick s2
  else if 10 ^ (k - 1) ≤ s1 ∧ inside s1 then pick s1
  else if inside s2 then pick s2
  else none

/-- The least number of digits `k` (at most 17) that identifies the double, with its
digits and exponent `(k, s, n)`. -/
def shortest (f : Nat) (p : Int) : Nat × Nat × Int :=
  match (List.range 17).findSome? fun i => (shortestWith f p (i + 1)).map fun sn => (i + 1, sn) with
  | some r => r
  | none => (17, f, 0)

/-- The decimal digits of a natural number, as code units. -/
def decimalDigits (n : Nat) : JSString := (Nat.toDigits 10 n).map Char.toNat

/-- The text of `Number::toString` for digits `s` (`k` of them) and exponent `n`. -/
def formatNumber (k s : Nat) (n : Int) : JSString :=
  let ds := decimalDigits s
  if (k : Int) ≤ n ∧ n ≤ 21 then ds ++ List.replicate (n - k).toNat 48
  else if 0 < n ∧ n ≤ 21 then ds.take n.toNat ++ [46] ++ ds.drop n.toNat
  else if -6 < n ∧ n ≤ 0 then [48, 46] ++ List.replicate (-n).toNat 48 ++ ds
  else
    let e := n - 1
    let tail := [101, if 0 ≤ e then 43 else 45] ++ decimalDigits e.natAbs
    if k = 1 then ds ++ tail else ds.take 1 ++ [46] ++ ds.drop 1 ++ tail

/-- The double of a JSON number with a non-zero mantissa, as for `toDouble`. A magnitude
of at least `10 ^ 310` is `Infinity` and one below `10 ^ (-330)` is zero; these two cases
are decided from the number of digits, without computing the power of ten. -/
def JsonNumber.toDouble (x : JsonNumber) : Option (Nat × Int) :=
  let digits : Int := Nat.log 10 x.mantissa + 1
  if 310 < x.exponent + digits then none
  else if x.exponent + digits < -330 then some (0, -1074)
  else Orzion.toDouble x.magnitude.1 x.magnitude.2

/-- The operation `ToBoolean` on the Number value of a JSON number: false exactly for zero. -/
def numberToBoolean (x : JsonNumber) : Bool :=
  if x.mantissa = 0 then false
  else
    match x.toDouble with
    | none => true
    | some fp => fp.1 ≠ 0

/-- The operation `Number::toString` on the Number value of a JSON number. -/
def numberToString (x : JsonNumber) : JSString :=
  if x.mantissa = 0 then [48]
  else
    match x.toDouble with
    | none => (if x.negative then [45] else []) ++ utf16 "Infinity"
    | some fp =>
      if fp.1 = 0 then [48]
      else
        let r := shortest fp.1 fp.2
        (if x.negative then [45] else []) ++ formatNumber r.1 r.2.1 r.2.2

/-! ## `JSON.parse` -/

/-- JSON white space: space, tab, line feed, carriage return. -/
def isWhitespace (c : Nat) : Bool := c = 32 || c = 9 || c = 10 || c = 13

/-- The input without its leading white space. -/
def skipWhitespace : JSString → JSString
  | [] => []
  | c :: rest => if isWhitespace c then skipWhitespace rest else c :: rest

/-- A decimal digit `0`..`9`. -/
def isDigit (c : Nat) : Bool := 48 ≤ c && c ≤ 57

/-- The value of a run of decimal digits. -/
def digitsValue (ds : JSString) : Nat := ds.foldl (fun acc c => 10 * acc + (c - 48)) 0

/-- The value of a hexadecimal digit. -/
def hexValue (c : Nat) : Option Nat :=
  if 48 ≤ c ∧ c ≤ 57 then some (c - 48)
  else if 97 ≤ c ∧ c ≤ 102 then some (c - 87)
  else if 65 ≤ c ∧ c ≤ 70 then some (c - 55)
  else none

/-- The code unit of the four hexadecimal digits of a `\u` escape. -/
def hex4 (a b c d : Nat) : Option Nat :=
  match hexValue a, hexValue b, hexValue c, hexValue d with
  | some x, some y, some z, some w => some (((x * 16 + y) * 16 + z) * 16 + w)
  | _, _, _, _ => none

/-- The code unit a single-character escape stands for (`\"`, `\\`, `\/`, `\b`, `\f`, `\n`,
`\r`, `\t`). -/
def escapeValue (e : Nat) : Option Nat :=
  if e = 34 then some 34
  else if e = 92 then some 92
  else if e = 47 then some 47
  else if e = 98 then some 8
  else if e = 102 then some 12
  else if e = 110 then some 10
  else if e = 114 then some 13
  else if e = 116 then some 9
  else none

/-- A JSON string after its opening quote: its code units and the input after the closing
quote. Control characters below U+0020 and unknown escapes are syntax errors. -/
def parseString : JSString → Option (JSString × JSString)
  | [] => none
  | c :: rest =>
    if c = 34 then some ([], rest)
    else if c = 92 then
      match rest with
      | [] => none
      | e :: rest2 =>
        if e = 117 then
          match rest2 with
          | h1 :: h2 :: h3 :: h4 :: rest3 =>
            match hex4 h1 h2 h3 h4 with
            | some u => (parseString rest3).map fun r => (u :: r.1, r.2)
            | none => none
          | _ => none
        else
          match escapeValue e with
          | some u => (parseString rest2).map fun r => (u :: r.1, r.2)
          | none => none
    else if c < 32 then none
    else (parseString rest).map fun r => (c :: r.1, r.2)

/-- The integer part `0 | [1-9][0-9]*` of a number: its digits and the input after them. -/
def parseIntegerPart : JSString → Option (JSString × JSString)
  | [] => none
  | c :: r =>
    if c = 48 then some ([c], r)
    else if isDigit c then some (c :: r.takeWhile isDigit, r.dropWhile isDigit)
    else none

/-- The optional fraction `. [0-9]+` of a number: its digits and the input after it. -/
def parseFraction : JSString → Option (JSString × JSString)
  | [] => some ([], [])
  | d :: r =>
    if d = 46 then
      if (r.takeWhile isDigit).isEmpty then none
      else some (r.takeWhile isDigit, r.dropWhile isDigit)
    else some ([], d :: r)

/-- The optional exponent `[eE] [+-]? [0-9]+` of a number: its value and the input after
it. -/
def parseExponent : JSString → Option (Int × JSString)
  | [] => some (0, [])
  | e :: r =>
    if e = 101 ∨ e = 69 then
      let digits := if r.head? = some 45 ∨ r.head? = some 43 then r.drop 1 else r
      if (digits.takeWhile isDigit).isEmpty then none
      else
        let value : Int := digitsValue (digits.takeWhile isDigit)
        some (if r.head? = some 45 then -value else value, digits.dropWhile isDigit)
    else some (0, e :: r)

/-- A JSON number `-? (0 | [1-9][0-9]*) (. [0-9]+)? ([eE] [+-]? [0-9]+)?` at the head of the
input, and the input after it. -/
def parseNumber (input : JSString) : Option (JsonNumber × JSString) :=
  let negative : Bool := input.head? = some 45
  match parseIntegerPart (if negative then input.drop 1 else input) with
  | none => none
  | some (intDigits, s2) =>
    match parseFraction s2 with
    | none => none
    | some (fracDigits, s3) =>
      match parseExponent s3 with
      | none => none
      | some (exponent, s4) =>
        some (⟨negative, digitsValue (intDigits ++ fracDigits),
          exponent - (fracDigits.length : Int)⟩, s4)

/-- The outcome of a parser that recurses on a fuel counter. -/
inductive Parsed (α : Type) where
  | ok (value : α) (rest : JSString)
  | syntaxError
  | fuelExhausted
  deriving Repr

mutual

/-- A JSON value, after optional white space, at the head of the input. -/
def parseValue : Nat → JSString → Parsed JsonValue
  | 0, _ => .fuelExhausted
  | fuel + 1, input =>
    match skipWhitespace input with
    | [] => .syntaxError
    | c :: rest =>
      if c = 110 then
        if [117, 108, 108].isPrefixOf rest then .ok .null (rest.drop 3) else .syntaxError
      else if c = 116 then
        if [114, 117, 101].isPrefixOf rest then .ok (.bool true) (rest.drop 3) else .syntaxError
      else if c = 102 then
        if [97, 108, 115, 101].isPrefixOf rest then .ok (.bool false) (rest.drop 4)
        else .syntaxError
      else if c = 34 then
        match parseString rest with
        | some (s, rest2) => .ok (.string s) rest2
        | none => .syntaxError
      else if c = 91 then
        match skipWhitespace rest with
        | [] => .syntaxError
        | d :: rest2 =>
          if d = 93 then .ok (.array []) rest2
          else
            match parseElements fuel rest with
            | .ok items rest3 => .ok (.array items) rest3
            | .syntaxError => .syntaxError
            | .fuelExhausted => .fuelExhausted
      else if c = 123 then
        match skipWhitespace rest with
        | [] => .syntaxError
        | d :: rest2 =>
          if d = 125 then .ok (.object []) rest2
          else
            match parseMembers fuel rest with
            | .ok members rest3 => .ok (.object members) rest3
            | .syntaxError => .syntaxError
            | .fuelExhausted => .fuelExhausted
      else
        match parseNumber (c :: rest) with
        | some (n, rest2) => .ok (.number n) rest2
        | none => .syntaxError

/-- The elements of a non-empty array, up to and including the closing bracket. -/
def parseElements : Nat → JSString → Parsed (List JsonValue)
  | 0, _ => .fuelExhausted
  | fuel + 1, input =>
    match parseValue fuel input with
    | .ok v rest =>
      match skipWhitespace rest with
      | [] => .syntaxError
      | c :: rest2 =>
        if c = 44 then
          match parseElements fuel rest2 with
          | .ok vs rest3 => .ok (v :: vs) rest3
          | .syntaxError => .syntaxError
          | .fuelExhausted => .fuelExhausted
        else if c = 93 then .ok [v] rest2
        else .syntaxError
    | .syntaxError => .syntaxError
    | .fuelExhausted => .fuelExhausted

/-- The members of a non-empty object, up to and including the closing brace. -/
def parseMembers : Nat → JSString → Parsed (List (JSString × JsonValue))
  | 0, _ => .fuelExhausted
  | fuel + 1, input =>
    match skipWhitespace input with
    | [] => .syntaxError
    | q :: rest =>
      if q = 34 then
        match parseString rest with
        | none => .syntaxError
        | some (key, rest2) =>
          match skipWhitespace rest2 with
          | [] => .syntaxError
          | colon :: rest3 =>
            if colon = 58 then
              match parseValue fuel rest3 with
              | .ok v rest4 =>
                match skipWhitespace rest4 with
                | [] => .syntaxError
                | c :: rest5 =>
                  if c = 44 then
                    match parseMembers fuel rest5 with
                    | .ok ms rest6 => .ok ((key, v) :: ms) rest6
                    | .syntaxError => .syntaxError
                    | .fuelExhausted => .fuelExhausted
                  else if c = 125 then .ok [(key, v)] rest5
                  else .syntaxError
              | .syntaxError => .syntaxError
              | .fuelExhausted => .fuelExhausted
            else .syntaxError
      else .syntaxError

end

/-- The call `JSON.parse(text)`: the value, or `none` when a `SyntaxError` is thrown. The fuel
`2 * text.length + 1` is never used up (`parseValue_fuel` below). -/
def JSON.parse (text : JSString) : Option JsonValue :=
  match parseValue (2 * text.length + 1) text with
  | .ok v rest => if (skipWhitespace rest).isEmpty then some v else none
  | _ => none

/-! ## Property reads and coercions -/

/-- The completion of an expression: a value, or an exception thrown by the engine. -/
inductive Completion (α : Type) where
  | normal (value : α)
  | throw
  deriving Repr, DecidableEq

/-- The value of an expression: `none` is `undefined`. -/
abbrev JSValue := Option JsonValue

/-- The own property `key` of an object made by `JSON.parse`; of members with the same key
the last one counts. -/
def ownProperty (key : JSString) : List (JSString × JsonValue) → JSValue
  | [] => none
  | (k, v) :: rest =>
    match ownProperty key rest with
    | some w => some w
    | none => if k = key then some v else none

/-- The property names the code reads with dot notation. None of them is an array index,
`length`, or a property of `Object.prototype`, `Array.prototype` or `String.prototype`. -/
inductive PropertyName where
  | choices
  | delta
  | content
  | message
  deriving DecidableEq, Repr

/-- The text of a property name. -/
def PropertyName.text : PropertyName → JSString
  | .choices => [99, 104, 111, 105, 99, 101, 115]
  | .delta => [100, 101, 108, 116, 97]
  | .content => [99, 111, 110, 116, 101, 110, 116]
  | .message => [109, 101, 115, 115, 97, 103, 101]

/-- The property read `v.name`: a `TypeError` on `undefined` and `null`, the own property of an object, and
`undefined` on a boolean, number, string or array. -/
def getNamed (name : PropertyName) : JSValue → Completion JSValue
  | none => .throw
  | some .null => .throw
  | some (.object members) => .normal (ownProperty name.text members)
  | some _ => .normal none

/-- The property read `v[0]`: a `TypeError` on `undefined` and `null`, the first element of an array, the first
code unit of a string, the own property `"0"` of an object, `undefined` otherwise. -/
def getIndex0 : JSValue → Completion JSValue
  | none => .throw
  | some .null => .throw
  | some (.array items) => .normal items.head?
  | some (.string s) => .normal (s.head?.map fun c => .string [c])
  | some (.object members) => .normal (ownProperty [48] members)
  | some _ => .normal none

/-- The operation `ToBoolean`. -/
def toBoolean : JSValue → Bool
  | none => false
  | some .null => false
  | some (.bool b) => b
  | some (.number n) => numberToBoolean n
  | some (.string s) => !s.isEmpty
  | some (.array _) => true
  | some (.object _) => true

mutual

/-- The conversion `ToString(ToPrimitive(v))` as performed by `text += v`. An object that has an own
property `toString` (never callable in a JSON value) cannot be converted: `TypeError`. -/
def toStringValue : JsonValue → Completion JSString
  | .null => .normal [110, 117, 108, 108]
  | .bool b => .normal (if b then [116, 114, 117, 101] else [102, 97, 108, 115, 101])
  | .number n => .normal (numberToString n)
  | .string s => .normal s
  | .array items => joinItems items
  | .object members =>
    if (ownProperty [116, 111, 83, 116, 114, 105, 110, 103] members).isSome then .throw
    else .normal [91, 111, 98, 106, 101, 99, 116, 32, 79, 98, 106, 101, 99, 116, 93]

/-- The method `Array.prototype.join` with the separator `","`: `null` elements give the empty string. -/
def joinItems : List JsonValue → Completion JSString
  | [] => .normal []
  | v :: rest =>
    let first : Completion JSString :=
      match v with
      | .null => .normal []
      | w => toStringValue w
    match first, joinItems rest with
    | .normal a, .normal b => .normal (if rest.isEmpty then a else a ++ [44] ++ b)
    | _, _ => .throw

end

/-! ## Data model -/

/-- The `role` of a chat message. -/
inductive Role where
  | user
  | assistant
  deriving DecidableEq, Repr

/-- An exception value, with the two properties the code inspects. -/
structure JSError where
  name : JSString
  message : JSString
  deriving DecidableEq, Repr

/-- A message of the transcript `{ role, content, timestamp }`. -/
structure ChatMessage where
  role : Role
  content : JSValue
  timestamp : Nat
  deriving DecidableEq, Repr

/-- The body of the request to `/chat`. -/
structure ChatRequest where
  prompt : JSString
  modelName : JSString
  stream : Bool
  tools : List JSString
  username : Option JSString
  chatHistory : List ChatMessage
  deriving DecidableEq, Repr

/-- The `chatData` handed to `saveChatToServer`. -/
structure ChatData where
  id : Option JSString
  title : JSString
  messages : List ChatMessage
  username : Option JSString
  deriving DecidableEq, Repr

/-- The calls by which the code acts on the page, the console and the network, in the
order they are made. `displayMessage` stands for the whole call (creating the message
element, rendering its content, appending it and scrolling). -/
inductive Effect where
  | hideWelcomeScreen
  | displayMessage (message : ChatMessage)
  | autoResizeTextarea
  | chatRequest (body : ChatRequest)
  | renderMarkdownRealTime (content : JSString)
  | pacingDelay
  | scrollToBottom
  | renderMarkdown (content : JSString)
  | consoleError (error : JSError)
  | showError (message : JSString) (type : JSString)
  | saveChatToServer (chatData : ChatData)
  deriving DecidableEq, Repr

/-! ## `UIManager.handleStreamingResponse` -/

/-- How the body stream ends: `reader.read()` resolves with `done`, or rejects. -/
inductive StreamEnd where
  | done
  | failed (error : JSError)
  deriving DecidableEq, Repr

/-- What `reader.read()` delivers: the decoded text of each chunk, then the end. -/
structure BodyStream where
  chunks : List JSString
  ending : StreamEnd
  deriving DecidableEq, Repr

/-- The value of `data.choices[0].delta.content`. -/
def readDeltaContent (data : JsonValue) : Completion JSValue :=
  match getNamed .choices (some data) with
  | .throw => .throw
  | .normal choices =>
    match getIndex0 choices with
    | .throw => .throw
    | .normal first =>
      match getNamed .delta first with
      | .throw => .throw
      | .normal delta => getNamed .content delta

/-- The value of the condition `data.choices && data.choices[0].delta.content`. -/
def deltaCondition (data : JsonValue) : Completion JSValue :=
  match getNamed .choices (some data) with
  | .throw => .throw
  | .normal choices => if toBoolean choices then readDeltaContent data else .normal choices

/-- The body of the `for` loop for one line: the text that
`botMessage.content += newContent` appends, or `none` when the line is skipped (no
`data: ` prefix, the condition is falsy, or an exception reaches the inner `catch`). -/
def lineFragment (line : JSString) : Option JSString :=
  if startsWith dataPrefix line then
    match JSON.parse (slice 6 line) with
    | none => none
    | some data =>
      match deltaCondition data with
      | .throw => none
      | .normal condition =>
        if toBoolean condition then
          match readDeltaContent data with
          | .normal (some newContent) =>
            match toStringValue newContent with
            | .normal text => some text
            | .throw => none
          | _ => none
        else none
  else none

/-- The variables of `handleStreamingResponse` and the effects made so far. -/
structure StreamState where
  content : JSString
  tempContent : JSString
  effects : List Effect
  deriving DecidableEq, Repr

/-- One iteration of `for (const line of lines)`. -/
def processLine (st : StreamState) (line : JSString) : StreamState :=
  match lineFragment line with
  | none => st
  | some newContent =>
    { content := st.content ++ newContent
      tempContent := st.tempContent ++ newContent
      effects := st.effects ++
        [.renderMarkdownRealTime (st.content ++ newContent), .pacingDelay, .scrollToBottom] }

/-- One iteration of the `while` loop whose read delivered `chunk`. -/
def processChunk (st : StreamState) (chunk : JSString) : StreamState :=
  (splitLines chunk).foldl processLine st

/-- The `catch` of the read loop: the rejection of `reader.read()` is logged. -/
def endOfStream (st : StreamState) : StreamEnd → StreamState
  | .done => st
  | .failed error => { st with effects := st.effects ++ [.consoleError error] }

/-- The call `handleStreamingResponse(response, botMessage)` run to its end on a response
whose body is a stream that delivers `body.chunks` and then ends; `content` is the string
`botMessage.content` at the call and `timestamp` the time stamp of the message. The call
returns normally whatever the stream does: the rejection of a read is caught inside it. (On
a response whose body is `null` the call throws at `response.body.getReader()`, before its
`try`; `sendMessageTry` holds that case.) -/
def handleStreamingResponse (body : BodyStream) (timestamp : Nat) (content : JSString) :
    StreamState :=
  let shown : StreamState :=
    { content := content
      tempContent := []
      effects := [.displayMessage ⟨.assistant, some (.string content), timestamp⟩] }
  let read := endOfStream (body.chunks.foldl processChunk shown) body.ending
  { read with effects := read.effects ++ [.renderMarkdown read.content] }

/-! ## Application state -/

/-- The fields of `AppState`. `streamController` holds the identity of the current
`AbortController`, or `none` for `null`. -/
structure AppState where
  currentUser : Option JSString
  currentChatId : Option JSString
  chatHistory : List ChatMessage
  userMemory : List JSValue
  isTyping : Bool
  isStreaming : Bool
  activeTools : List JSString
  welcomeShown : Bool
  currentTheme : JSString
  currentPersonality : JSString
  isFirstTime : Bool
  personalities : JSValue
  welcomeMessages : JSValue
  currentWelcomeMessage : JSValue
  streamController : Option Nat
  isGenerating : Bool
  deriving DecidableEq, Repr

/-- The page elements the chat-send action reads and writes: the value of the message
input and of the model select, whether the welcome screen exists and is displayed, whether
the send button is disabled, whether the stop button (when the page has one) is displayed,
and whether the typing indicator has the class `show`. -/
structure UIState where
  messageInput : JSString
  modelSelect : JSString
  welcomeScreenShown : Bool
  sendDisabled : Bool
  stopButton : Option Bool
  typingIndicator : Bool
  deriving DecidableEq, Repr

/-- Everything the code can change: the application state, the page, the abort
controllers that have been aborted, and the effects made so far. -/
structure World where
  app : AppState
  ui : UIState
  aborted : List Nat
  effects : List Effect
  deriving DecidableEq, Repr

/-- One more effect. -/
def World.emit (w : World) (e : Effect) : World := { w with effects := w.effects ++ [e] }

/-- The method `UIManager.setTypingState(isTyping)`. -/
def setTypingState (isTyping : Bool) (w : World) : World :=
  { w with
    app := { w.app with isTyping := isTyping }
    ui := { w.ui with
      sendDisabled := isTyping
      stopButton := w.ui.stopButton.map fun _ => isTyping
      typingIndicator := isTyping } }

/-- The method `AppState.stopGeneration()`. -/
def AppState.stopGeneration (w : World) : World :=
  let w1 : World :=
    match w.app.streamController with
    | some controller =>
      { w with aborted := controller :: w.aborted, app := { w.app with streamController := none } }
    | none => w
  setTypingState false { w1 with app := { w1.app with isGenerating := false } }

/-- The method `UIManager.stopGeneration()`, the handler of the stop button. -/
def UIManager.stopGeneration (w : World) : World :=
  (AppState.stopGeneration w).emit
    (.showError (utf16 "Generación detenida por el usuario") (utf16 "info"))

/-- The method `AppState.generateChatTitle()`; `substring` is not a function of a content that is not
a string, so the call throws a `TypeError` then. -/
def generateChatTitle (app : AppState) : Completion JSString :=
  match app.chatHistory with
  | [] => .normal (utf16 "Nuevo Chat")
  | firstMessage :: _ =>
    match firstMessage.content with
    | some (.string c) => .normal (c.take 50 ++ if 50 < c.length then utf16 "..." else [])
    | _ => .throw

/-- The method `AppState.saveCurrentChat()`. -/
def saveCurrentChat (w : World) : Completion World :=
  if 0 < w.app.chatHistory.length then
    match generateChatTitle w.app with
    | .throw => .throw
    | .normal title =>
      .normal (w.emit (.saveChatToServer
        { id := w.app.currentChatId
          title := title
          messages := w.app.chatHistory
          username := w.app.currentUser }))
  else .normal w

/-! ## `UIManager.sendMessage` -/

/-- Code units removed by `String.prototype.trim`: white space and line terminators. -/
def isTrimSpace (c : Nat) : Bool :=
  c = 9 || c = 10 || c = 11 || c = 12 || c = 13 || c = 32 || c = 160 || c = 5760 ||
  (8192 ≤ c && c ≤ 8202) || c = 8232 || c = 8233 || c = 8239 || c = 8287 || c = 12288 ||
  c = 65279

/-- The call `s.trim()`. -/
def trim (s : JSString) : JSString :=
  ((s.dropWhile isTrimSpace).reverse.dropWhile isTrimSpace).reverse

/-- The response of `fetch`. Its `body` is `none` when `response.body` is `null`, as it is
for a reply that has no body (status 204 or 205 among the OK ones). -/
structure Response where
  ok : Bool
  status : Nat
  body : Option BodyStream
  deriving DecidableEq, Repr

/-- What the surroundings contribute to one execution of `sendMessage`: the two values of
`new Date()`, the identity of the new `AbortController`, the settlement of `fetch`
(a rejection or a response), and the engine-specific message texts of the `TypeError` of a
property read on `undefined` or `null`, of the `SyntaxError` of `response.json()`, and of
the `Error` with which `marked.parse` rejects an argument that is not a string. -/
structure SendEnv where
  userTimestamp : Nat
  botTimestamp : Nat
  controller : Nat
  fetchResult : Except JSError Response
  typeErrorMessage : JSString
  syntaxErrorMessage : JSString
  renderErrorMessage : JSString

/-- The error thrown for a response that is not OK. -/
def httpError (status : Nat) : JSError :=
  ⟨utf16 "Error", utf16 "Error HTTP: " ++ decimalDigits status⟩

/-- The call `response.json()`: the rejection of the body stream, or `JSON.parse` of the whole
text; a `null` body is read as the empty text. -/
def responseJson (body : Option BodyStream) (syntaxErrorMessage : JSString) :
    Except JSError JsonValue :=
  match body with
  | none =>
    match JSON.parse [] with
    | some data => .ok data
    | none => .error ⟨utf16 "SyntaxError", syntaxErrorMessage⟩
  | some stream =>
    match stream.ending with
    | .failed error => .error error
    | .done =>
      match JSON.parse stream.chunks.flatten with
      | some data => .ok data
      | none => .error ⟨utf16 "SyntaxError", syntaxErrorMessage⟩

/-- The value of `data.choices[0].message.content`. -/
def readMessageContent (data : JsonValue) : Completion JSValue :=
  match getNamed .choices (some data) with
  | .throw => .throw
  | .normal choices =>
    match getIndex0 choices with
    | .throw => .throw
    | .normal first =>
      match getNamed .message first with
      | .throw => .throw
      | .normal message => getNamed .content message

/-- The list with its last element replaced by `f` of it. -/
def updateLast {α : Type} (f : α → α) : List α → List α
  | [] => []
  | [a] => [f a]
  | a :: b :: rest => a :: updateLast f (b :: rest)

/-- The call `appState.chatHistory.push(message)`. -/
def World.pushMessage (w : World) (message : ChatMessage) : World :=
  { w with app := { w.app with chatHistory := w.app.chatHistory ++ [message] } }

/-- An assignment to `messageInput.value`. -/
def World.setMessageInput (w : World) (value : JSString) : World :=
  { w with ui := { w.ui with messageInput := value } }

/-- An assignment to `appState.isGenerating`. -/
def World.setGenerating (w : World) (isGenerating : Bool) : World :=
  { w with app := { w.app with isGenerating := isGenerating } }

/-- An assignment to `appState.streamController`. -/
def World.setController (w : World) (controller : Option Nat) : World :=
  { w with app := { w.app with streamController := controller } }

/-- An assignment to `botMessage.content`, the message being the last of the transcript. -/
def setBotContent (content : JSValue) (w : World) : World :=
  { w with app := { w.app with
      chatHistory := updateLast (fun m => { m with content := content }) w.app.chatHistory } }

/-- The part of `sendMessage` from its guard up to the call of `fetch`: the user message is pushed and
displayed, the input cleared, the typing state set, the controller created and the request
issued. -/
def sendMessageStart (env : SendEnv) (w : World) : World :=
  let message := trim w.ui.messageInput
  let w1 := if w.ui.welcomeScreenShown then w.emit .hideWelcomeScreen else w
  let userMessage : ChatMessage := ⟨.user, some (.string message), env.userTimestamp⟩
  let w2 := (w1.pushMessage userMessage).emit (.displayMessage userMessage)
  let w3 := (w2.setMessageInput []).emit .autoResizeTextarea
  let w4 := (setTypingState true w3).setGenerating true
  (w4.setController (some env.controller)).emit
    (.chatRequest
      { prompt := message
        modelName := w4.ui.modelSelect
        stream := w4.app.isStreaming
        tools := w4.app.activeTools
        username := w4.app.currentUser
        chatHistory := w4.app.chatHistory })

/-- The `try` block of `sendMessage` after `fetch` has settled: the world it leaves and the
exception that reaches the `catch`, if any. On the streaming path a response without a body
makes `handleStreamingResponse` throw a `TypeError` at `response.body.getReader()`, after it
has displayed the message. -/
def sendMessageTry (env : SendEnv) (w : World) : World × Option JSError :=
  match env.fetchResult with
  | .error error => (w, some error)
  | .ok response =>
    if !response.ok then (w, some (httpError response.status))
    else
      let botMessage : ChatMessage := ⟨.assistant, some (.string []), env.botTimestamp⟩
      let w1 := w.pushMessage botMessage
      if w1.app.isStreaming then
        match response.body with
        | none =>
          (w1.emit (.displayMessage botMessage), some ⟨utf16 "TypeError", env.typeErrorMessage⟩)
        | some body =>
          let st := handleStreamingResponse body env.botTimestamp []
          (setBotContent (some (.string st.content))
            { w1 with effects := w1.effects ++ st.effects }, none)
      else
        match responseJson response.body env.syntaxErrorMessage with
        | .error error => (w1, some error)
        | .ok data =>
          match readMessageContent data with
          | .throw => (w1, some ⟨utf16 "TypeError", env.typeErrorMessage⟩)
          | .normal content =>
            let w2 := setBotContent content w1
            match content with
            | some (.string _) =>
              (w2.emit (.displayMessage { botMessage with content := content }), none)
            | _ => (w2, some ⟨utf16 "Error", env.renderErrorMessage⟩)

/-- The `catch` block of `sendMessage`. -/
def sendMessageCatch (w : World) : Option JSError → World
  | some error =>
    if error.name ≠ utf16 "AbortError" then
      w.emit (.showError (utf16 "Error: " ++ error.message) (utf16 "error"))
    else w
  | none => w

/-- The outcome of `sendMessage`: the world, and the exception with which the returned
promise rejects, if any. -/
structure SendResult where
  world : World
  rejected : Option JSError
  deriving DecidableEq, Repr

/-- The `finally` block of `sendMessage`. -/
def sendMessageFinally (env : SendEnv) (w : World) : SendResult :=
  let w1 := ((setTypingState false w).setGenerating false).setController none
  match saveCurrentChat w1 with
  | .normal w2 => ⟨w2, none⟩
  | .throw => ⟨w1, some ⟨utf16 "TypeError", env.typeErrorMessage⟩⟩

/-- The method `UIManager.sendMessage()` run to its end, nothing else touching the state while it is
suspended. -/
def sendMessage (env : SendEnv) (w : World) : SendResult :=
  if (trim w.ui.messageInput).isEmpty || w.app.isTyping then ⟨w, none⟩
  else
    let tried := sendMessageTry env (sendMessageStart env w)
    sendMessageFinally env (sendMessageCatch tried.1 tried.2)

/-! ## The streaming loop with its suspension points

`handleStreamingResponse` is suspended at `await reader.read()` and at the pacing delay
`await new Promise(resolve => setTimeout(resolve, CONFIG.TYPING_SPEED))`. While it is
suspended a handler such as `stopGeneration` can run. Aborting the controller whose signal
was given to `fetch` errors the body stream: the pending and every later `read()` rejects
with an `AbortError`. The pacing timer is not tied to the signal. -/

/-- Where `handleStreamingResponse` is suspended: at a read, or at the pacing delay with
the lines of the current chunk that the `for` loop has not visited yet. -/
inductive StreamPhase where
  | awaitingRead
  | awaitingDelay (pending : List JSString)
  | returned
  deriving DecidableEq, Repr

/-- A call of `handleStreamingResponse` in progress: its variables and effects, the chunks
the network has not delivered yet and how the stream ends, the controller of the request,
the message text of the `AbortError` of an aborted read, and the state of the application. -/
structure Session where
  phase : StreamPhase
  stream : StreamState
  unread : List JSString
  ending : StreamEnd
  controller : Nat
  abortMessage : JSString
  world : World
  deriving DecidableEq, Repr

/-- The `for` loop from the given lines up to its next pacing delay (`some` of the lines
left) or to its end (`none`). -/
def runLines (st : StreamState) : List JSString → StreamState × Option (List JSString)
  | [] => (st, none)
  | line :: rest =>
    match lineFragment line with
    | none => runLines st rest
    | some newContent =>
      ({ content := st.content ++ newContent
         tempContent := st.tempContent ++ newContent
         effects := st.effects ++ [.renderMarkdownRealTime (st.content ++ newContent), .pacingDelay] },
       some rest)

/-- The session after the `for` loop has run on from the given lines. -/
def Session.continueLines (s : Session) (lines : List JSString) : Session :=
  match runLines s.stream lines with
  | (st, some rest) => { s with stream := st, phase := .awaitingDelay rest }
  | (st, none) => { s with stream := st, phase := .awaitingRead }

/-- The end of the call: the `catch` logs a rejected read, then the final render. -/
def Session.finish (s : Session) (ending : StreamEnd) : Session :=
  let st := endOfStream s.stream ending
  { s with
    stream := { st with effects := st.effects ++ [.renderMarkdown st.content] }
    phase := .returned }

/-- The awaited promise settles and the call runs to its next suspension point. -/
def Session.resume (s : Session) : Session :=
  match s.phase with
  | .returned => s
  | .awaitingDelay pending =>
    Session.continueLines
      { s with stream := { s.stream with effects := s.stream.effects ++ [.scrollToBottom] } }
      pending
  | .awaitingRead =>
    if s.controller ∈ s.world.aborted then
      s.finish (.failed ⟨utf16 "AbortError", s.abortMessage⟩)
    else
      match s.unread with
      | chunk :: more => Session.continueLines { s with unread := more } (splitLines chunk)
      | [] => s.finish s.ending

/-- The user stops the generation while the call is suspended. -/
def Session.stop (s : Session) : Session :=
  { s with world := AppState.stopGeneration s.world }

/-- The session at the first `reader.read()` of `handleStreamingResponse`. -/
def Session.start (body : BodyStream) (timestamp : Nat) (content : JSString) (controller : Nat)
    (abortMessage : JSString) (w : World) : Session :=
  { phase := .awaitingRead
    stream :=
      { content := content
        tempContent := []
        effects := [.displayMessage ⟨.assistant, some (.string content), timestamp⟩] }
    unread := body.chunks
    ending := body.ending
    controller := controller
    abortMessage := abortMessage
    world := w }

/-- What happens to a suspended session: its promise settles, or the user stops it. -/
inductive Action where
  | resume
  | stop
  deriving DecidableEq, Repr

/-- One action. -/
def Session.step (s : Session) : Action → Session
  | .resume => s.resume
  | .stop => s.stop

/-- A sequence of actions. -/
def Session.run (s : Session) (actions : List Action) : Session :=
  actions.foldl Session.step s

/-! ## Derived notions used to state the properties -/

/-- The fragments appended while one chunk is processed. -/
def chunkFragments (chunk : JSString) : List JSString :=
  (splitLines chunk).filterMap lineFragment

/-- The fragments appended while a sequence of chunks is processed, in order. -/
def extractedFragments (chunks : List JSString) : List JSString :=
  chunks.flatMap chunkFragments

/-- The texts passed to `renderMarkdownRealTime`, in order. -/
def realTimeRenders (effects : List Effect) : List JSString :=
  effects.filterMap fun e =>
    match e with
    | .renderMarkdownRealTime content => some content
    | _ => none

/-- A chunk that ends with a line feed. -/
def endsWithNewline (chunk : JSString) : Bool := chunk.getLast? = some newline

/-- Every chunk but the last is empty or ends with a line feed. -/
def cutsAfterNewlines : List JSString → Bool
  | [] => true
  | [_] => true
  | chunk :: rest => (chunk.isEmpty || endsWithNewline chunk) && cutsAfterNewlines rest

/-- The update of `processLine` for an appended fragment. -/
def appendFragment (st : StreamState) (newContent : JSString) : StreamState :=
  { content := st.content ++ newContent
    tempContent := st.tempContent ++ newContent
    effects := st.effects ++
      [.renderMarkdownRealTime (st.content ++ newContent), .pacingDelay, .scrollToBottom] }

/-- The texts `content ++ f1`, `content ++ f1 ++ f2`, ... -/
def prefixTexts (content : JSString) : List JSString → List JSString
  | [] => []
  | f :: rest => (content ++ f) :: prefixTexts (content ++ f) rest

/-- The state of `handleStreamingResponse` after `displayMessage`. -/
def shownState (timestamp : Nat) (content : JSString) : StreamState :=
  { content := content
    tempContent := []
    effects := [.displayMessage ⟨.assistant, some (.string content), timestamp⟩] }

/-- The pieces of `chunk.split('\n')` that are terminated by a line feed. -/
def completeLines (chunk : JSString) : List JSString := (splitLines chunk).dropLast

/-- The last piece of `chunk.split('\n')`: what follows the last line feed of the chunk. -/
def trailingPiece (chunk : JSString) : JSString := (splitLines chunk).getLastD []

/-- Element 0 of a JSON value: the first element of an array, the first code unit of a
string, the member `"0"` of an object. -/
def firstOf : JsonValue → Option JsonValue
  | .array items => items.head?
  | .string s => s.head?.map fun c => .string [c]
  | .object members => ownProperty [48] members
  | _ => none

/-- The member of an object with the given name. -/
def memberOf (name : PropertyName) : JsonValue → Option JsonValue
  | .object members => ownProperty name.text members
  | _ => none

/-- The JSON value found at `choices[0].<field>.content`, if the document has one. -/
def contentAt (field : PropertyName) (data : JsonValue) : Option JsonValue :=
  (memberOf .choices data).bind fun choices =>
    (firstOf choices).bind fun first =>
      (memberOf field first).bind fun inner => memberOf .content inner

/-- The effects that show the assistant message: its `displayMessage`, the incremental
renders and the final render. -/
def assistantRenders (effects : List Effect) : List Effect :=
  effects.filter fun e =>
    match e with
    | .displayMessage message => message.role = .assistant
    | .renderMarkdownRealTime _ => true
    | .renderMarkdown _ => true
    | _ => false

/-- The effects of `sendMessage` up to the call of `fetch`. -/
def startEffects (env : SendEnv) (w : World) : List Effect :=
  (if w.ui.welcomeScreenShown then [Effect.hideWelcomeScreen] else []) ++
    [.displayMessage ⟨.user, some (.string (trim w.ui.messageInput)), env.userTimestamp⟩,
     .autoResizeTextarea,
     .chatRequest
      { prompt := trim w.ui.messageInput
        modelName := w.ui.modelSelect
        stream := w.app.isStreaming
        tools := w.app.activeTools
        username := w.app.currentUser
        chatHistory := w.app.chatHistory ++
          [⟨.user, some (.string (trim w.ui.messageInput)), env.userTimestamp⟩] }]

/-- An idle application (the state made by the constructor of `AppState`, streaming
switched off) whose message input holds ` Hi there `. -/
def singleShotWorld : World :=
  { app :=
      { currentUser := none, currentChatId := none, chatHistory := [], userMemory := [],
        isTyping := false, isStreaming := false, activeTools := [], welcomeShown := false,
        currentTheme := utf16 "light", currentPersonality := utf16 "professional",
        isFirstTime := true, personalities := some (.object []),
        welcomeMessages := some (.array []), currentWelcomeMessage := some .null,
        streamController := none, isGenerating := false }
    ui :=
      { messageInput := utf16 " Hi there ", modelSelect := utf16 "orzion", welcomeScreenShown := true,
        sendDisabled := false, stopButton := some false, typingIndicator := false }
    aborted := []
    effects := [] }

/-- An OK response with the body `{"choices":[{"message":{"content":"Hi"}}]}`. -/
def singleShotEnv : SendEnv :=
  { userTimestamp := 1
    botTimestamp := 2
    controller := 0
    fetchResult := .ok
      { ok := true, status := 200,
        body := some ⟨[utf16 "\x7b\"choices\":[\x7b\"message\":\x7b\"content\":\"Hi\"\x7d\x7d]\x7d"],
          .done⟩ }
    typeErrorMessage := utf16 "Cannot read properties of undefined"
    syntaxErrorMessage := utf16 "Unexpected token"
    renderErrorMessage := utf16 "marked(): input parameter is undefined or null" }

/-- The notifications made with `showError`: message and type. -/
def shownErrors (effects : List Effect) : List (JSString × JSString) :=
  effects.filterMap fun e =>
    match e with
    | .showError message type => some (message, type)
    | _ => none

/-- The fragments of the lines that the `for` loop of a suspended call has not visited. -/
def Session.pendingFragments (s : Session) : List JSString :=
  match s.phase with
  | .awaitingDelay pending => pending.filterMap lineFragment
  | _ => []

/-- What is true of a call that has returned after the user stopped it in state `s`. -/
def StoppedOutcome (s r : Session) (fragments : List JSString) : Prop :=
  r.phase = .returned ∧
  r.unread = s.unread ∧
  r.world = s.world ∧
  r.stream.content = s.stream.content ++ fragments.flatten ∧
  realTimeRenders r.stream.effects =
    realTimeRenders s.stream.effects ++ prefixTexts s.stream.content fragments ∧
  r.stream.effects.getLast? = some (.renderMarkdown r.stream.content) ∧
  shownErrors r.stream.effects = shownErrors s.stream.effects

/-- The line `data: {"choices":[{"delta":{"content":"<text>"}}]}`, without a line feed. -/
def frameLine (text : String) : JSString :=
  utf16 "data: \x7b\"choices\":[\x7b\"delta\":\x7b\"content\":\"" ++ utf16 text ++
    utf16 "\"\x7d\x7d]\x7d"

/-- The application in the middle of a streaming `sendMessage`: the request of
`singleShotEnv` has been issued from the idle state with streaming switched on, and the
empty assistant message has been pushed. -/
def streamingWorld : World :=
  (sendMessageStart singleShotEnv
    { singleShotWorld with app := { singleShotWorld.app with isStreaming := true } }).pushMessage
    ⟨.assistant, some (.string []), 2⟩

/-- A call of `handleStreamingResponse` at its first read; the first chunk holds the three
frames `He`, `llo`, `!`, the second chunk the frame `?`. -/
def threeFrameSession : Session :=
  Session.start
    ⟨[frameLine "He" ++ [newline] ++ frameLine "llo" ++ [newline] ++ frameLine "!" ++ [newline],
      frameLine "?" ++ [newline]], .done⟩
    2 [] 0 (utf16 "The user aborted a request.") streamingWorld

/-- The parser did not run out of fuel, and what it left is shorter than `n`. -/
def Parsed.Bounded {α : Type} (n : Nat) : Parsed α → Prop
  | .ok _ rest => rest.length < n
  | .syntaxError => True
  | .fuelExhausted => False

/-- The state of the loop at a pacing delay, once `scrollToBottom` has run. -/
def afterDelay (st : StreamState) : StreamState :=
  { st with effects := st.effects ++ [.scrollToBottom] }

/-- The effects `sendMessage` has added to those of the world it started from. -/
def newEffects (env : SendEnv) (w : World) : List Effect :=
  (sendMessage env w).world.effects.drop w.effects.length

/-- The exception that reaches the `catch` block of `sendMessage`, if any. -/
def caughtError (env : SendEnv) (w : World) : Option JSError :=
  (sendMessageTry env (sendMessageStart env w)).2

/-- The notification the `catch` block makes for the exception it receives. -/
def catchReport : Option JSError → List (JSString × JSString)
  | some error =>
    if error.name ≠ utf16 "AbortError" then [(utf16 "Error: " ++ error.message, utf16 "error")]
    else []
  | none => []

/-- The user message that `sendMessage` pushes. -/
def userMessage (env : SendEnv) (w : World) : ChatMessage :=
  ⟨.user, some (.string (trim w.ui.messageInput)), env.userTimestamp⟩

/-- The texts passed to the final `renderMarkdown` of the assistant message, in order. -/
def finalRenders (effects : List Effect) : List JSString :=
  effects.filterMap fun e =>
    match e with
    | .renderMarkdown content => some content
    | _ => none

/-- The final render has been made, once and of the content, exactly when the call has
returned. -/
def Session.RendersOnReturn (s : Session) : Prop :=
  finalRenders s.stream.effects = if s.phase = .returned then [s.stream.content] else []

/-- The application after the single-shot exchange of `singleShotEnv` has ended. -/
def endedWorld : World := (sendMessage singleShotEnv singleShotWorld).world

/-- The calls that `handleStreamingResponse` can make on `response.body` and on the reader
it gets from it. -/
inductive ReaderCall where
  | getReader
  | read
  | releaseLock
  | cancel
  deriving DecidableEq, Repr

/-- The calls of `reader.read()` in the `while` loop: one for each chunk delivered, and the
one that reports the end of the stream or rejects, after which the loop is left. -/
def readLoopCalls : List JSString → List ReaderCall
  | [] => [.read]
  | _ :: more => .read :: readLoopCalls more

/-- The calls that `handleStreamingResponse` makes on the body and its reader, in order:
`response.body.getReader()`, then the reads of the loop. The function holds no other use
of `reader`. -/
def readerCalls (body : BodyStream) : List ReaderCall :=
  .getReader :: readLoopCalls body.chunks

/-- Whether the stream is locked to a reader after the given calls: `getReader` locks it,
and of the methods of the reader only `releaseLock` unlocks it. -/
def lockedAfter (calls : List ReaderCall) : Bool :=
  calls.foldl
    (fun locked call =>
      match call with
      | .getReader => true
      | .releaseLock => false
      | _ => locked)
    false

/-- The list with the element at the given position replaced by `f` of it. -/
def updateAt {α : Type} (f : α → α) : Nat → List α → List α
  | _, [] => []
  | 0, a :: rest => f a :: rest
  | n + 1, a :: rest => a :: updateAt f n rest

/-- An assignment to `botMessage.content`, the message being the element of the transcript at
the given position. -/
def World.setContentAt (w : World) (index : Nat) (content : JSValue) : World :=
  { w with app := { w.app with
      chatHistory := updateAt (fun m => { m with content := content }) index w.app.chatHistory } }

/-- Where an execution of `sendMessage` is suspended: at `await fetch(...)`, at
`await response.json()`, or inside `await this.handleStreamingResponse(...)`; or it has
ended, its promise fulfilled or rejected. Once `botMessage` has been pushed the phase
records its position in the transcript. -/
inductive SendPhase where
  | awaitingFetch
  | awaitingJson (body : Option BodyStream) (botIndex : Nat)
  | streaming (session : Session) (botIndex : Nat)
  | finished (rejected : Option JSError)

/-- An execution of `sendMessage` in progress: what its surroundings contribute, the message
text of the `AbortError` of an aborted request, and where it is suspended. -/
structure SendTask where
  env : SendEnv
  abortMessage : JSString
  phase : SendPhase

/-- Whether the execution has not ended yet. -/
def SendTask.isActive (task : SendTask) : Bool :=
  match task.phase with
  | .finished _ => false
  | _ => true

/-- The `catch` and `finally` blocks, reached with the exception thrown in the `try` block,
if any; the execution ends. -/
def SendTask.finish (task : SendTask) (w : World) (thrown : Option JSError) : World × SendTask :=
  let result := sendMessageFinally task.env (sendMessageCatch w thrown)
  (result.world, { task with phase := .finished result.rejected })

/-- The promise of `fetch` settles: it rejects with an `AbortError` when the controller of
the request has been aborted, and else as the network decides. With an OK response the
assistant message is pushed, and the execution goes on to the first read of
`handleStreamingResponse` or to `response.json()`. -/
def SendTask.afterFetch (task : SendTask) (w : World) : World × SendTask :=
  if task.env.controller ∈ w.aborted then
    task.finish w (some ⟨utf16 "AbortError", task.abortMessage⟩)
  else
    match task.env.fetchResult with
    | .error error => task.finish w (some error)
    | .ok response =>
      if !response.ok then task.finish w (some (httpError response.status))
      else
        let botMessage : ChatMessage := ⟨.assistant, some (.string []), task.env.botTimestamp⟩
        let botIndex := w.app.chatHistory.length
        let w1 := w.pushMessage botMessage
        if w1.app.isStreaming then
          match response.body with
          | none =>
            task.finish (w1.emit (.displayMessage botMessage))
              (some ⟨utf16 "TypeError", task.env.typeErrorMessage⟩)
          | some body =>
            let session := Session.start body task.env.botTimestamp []
              task.env.controller task.abortMessage w1
            ({ w1 with effects := w1.effects ++ session.stream.effects },
              { task with phase := .streaming session botIndex })
        else (w1, { task with phase := .awaitingJson response.body botIndex })

/-- The promise of `response.json()` settles, and the rest of the `try` block runs. -/
def SendTask.afterJson (task : SendTask) (w : World) (body : Option BodyStream)
    (botIndex : Nat) :
    World × SendTask :=
  if task.env.controller ∈ w.aborted then
    task.finish w (some ⟨utf16 "AbortError", task.abortMessage⟩)
  else
    match responseJson body task.env.syntaxErrorMessage with
    | .error error => task.finish w (some error)
    | .ok data =>
      match readMessageContent data with
      | .throw => task.finish w (some ⟨utf16 "TypeError", task.env.typeErrorMessage⟩)
      | .normal content =>
        let w1 := w.setContentAt botIndex content
        match content with
        | some (.string _) =>
          task.finish
            (w1.emit (.displayMessage ⟨.assistant, content, task.env.botTimestamp⟩)) none
        | _ => task.finish w1 (some ⟨utf16 "Error", task.env.renderErrorMessage⟩)

/-- The promise awaited inside `handleStreamingResponse` settles: the call runs to its next
suspension point in the current state of the application, its new effects are made and
`botMessage.content` has its new value; when the call returns, so does the `try` block. -/
def SendTask.afterStream (task : SendTask) (w : World) (session : Session) (botIndex : Nat) :
    World × SendTask :=
  let resumed := Session.resume { session with world := w }
  let w1 := World.setContentAt
    { w with effects := w.effects ++ resumed.stream.effects.drop session.stream.effects.length }
    botIndex (some (.string resumed.stream.content))
  match resumed.phase with
  | .returned => task.finish w1 none
  | _ => (w1, { task with phase := .streaming resumed botIndex })

/-- The promise the execution awaits settles, and it runs to its next suspension point. -/
def SendTask.settle (task : SendTask) (w : World) : World × SendTask :=
  match task.phase with
  | .awaitingFetch => task.afterFetch w
  | .awaitingJson body botIndex => task.afterJson w body botIndex
  | .streaming session botIndex => task.afterStream w session botIndex
  | .finished _ => (w, task)

/-- The application together with the executions of `sendMessage` started so far. -/
structure Machine where
  world : World
  tasks : List SendTask

/-- What can happen between two suspension points: the user edits the message input, the
send button calls `sendMessage`, the promise awaited by one of the executions settles, or
the stop button calls `stopGeneration`. -/
inductive Event where
  | input (value : JSString)
  | send (env : SendEnv) (abortMessage : JSString)
  | settle (task : Nat)
  | stop

/-- One event. A call of `sendMessage` runs from its guard to `await fetch(...)`. -/
def Machine.step (m : Machine) : Event → Machine
  | .input value => { m with world := m.world.setMessageInput value }
  | .send env abortMessage =>
    if (trim m.world.ui.messageInput).isEmpty || m.world.app.isTyping then m
    else
      { world := sendMessageStart env m.world
        tasks := m.tasks ++ [⟨env, abortMessage, .awaitingFetch⟩] }
  | .settle index =>
    match m.tasks[index]? with
    | none => m
    | some task => { world := (task.settle m.world).1, tasks := m.tasks.set index (task.settle m.world).2 }
  | .stop => { m with world := UIManager.stopGeneration m.world }

/-- A sequence of events. -/
def Machine.run (m : Machine) (events : List Event) : Machine :=
  events.foldl Machine.step m

/-- Which of the executions started so far have not ended. -/
def Machine.active (m : Machine) : List Bool := m.tasks.map SendTask.isActive

/-- The idle application of `singleShotWorld` with streaming switched on and the welcome
screen gone. -/
def idleStreamingWorld : World :=
  { singleShotWorld with
    app := { singleShotWorld.app with isStreaming := true }
    ui := { singleShotWorld.ui with welcomeScreenShown := false } }

/-- A request answered with the stream of `threeFrameSession`. -/
def firstEnv : SendEnv :=
  { singleShotEnv with
    fetchResult := .ok
      { ok := true, status := 200,
        body := some
          ⟨[frameLine "He" ++ [newline] ++ frameLine "llo" ++ [newline] ++ frameLine "!" ++
              [newline],
            frameLine "?" ++ [newline]], .done⟩ } }

/-- A later request, with a controller of its own. -/
def secondEnv : SendEnv :=
  { singleShotEnv with userTimestamp := 3, botTimestamp := 4, controller := 1 }

/-- The user sends a message, the response starts to stream and its first chunk is read;
during the pacing delay after the first fragment the user stops the generation, types
another message and sends it. -/
def overlapEvents : List Event :=
  [.send firstEnv (utf16 "The user aborted a request."), .settle 0, .settle 0, .stop,
   .input (utf16 "again"), .send secondEnv (utf16 "The user aborted a request.")]

/-- The pending promises of the stopped execution settle until it has ended. -/
def drainEvents : List Event := [.settle 0, .settle 0, .settle 0, .settle 0]

/-- The number of executions of `sendMessage` in progress. -/
def Machine.activeCount (m : Machine) : Nat := m.tasks.countP SendTask.isActive

/-- Whether the event is a stop. -/
def Event.isStop : Event → Bool
  | .stop => true
  | _ => false

/-- At most one execution is in progress, and while one is the typing state is set. -/
def Machine.Exclusive (m : Machine) : Prop :=
  m.activeCount = 0 ∨ (m.activeCount = 1 ∧ m.world.app.isTyping = true)

/-- The bodies of the requests to the chat endpoint, in order. -/
def chatRequests (effects : List Effect) : List ChatRequest :=
  effects.filterMap fun e =>
    match e with
    | .chatRequest body => some body
    | _ => none

/-- A value passed to the console after its label. -/
inductive Logged where
  | text (value : JSString)
  | number (value : Nat)
  | json (value : JsonValue)
  | error (value : JSError)
  deriving DecidableEq, Repr

/-- The calls by which `handleRegister` acts on the event, the page, the console, the
network and the application state, in the order they are made. The argument of `showError`
is the value passed, which for a server error is the `detail` of the response. -/
inductive AuthEffect where
  | preventDefault
  | showError (message : JsonValue)
  | consoleLog (label : JSString) (value : Logged)
  | consoleError (label : JSString) (value : Logged)
  | registerRequest (username password : JSString)
  | setUser (username : JSString)
  | showChatScreen
  deriving DecidableEq, Repr

/-- The response of the registration request: `response.json()` rejects or gives a value. -/
structure AuthResponse where
  ok : Bool
  status : Nat
  json : Except JSError JsonValue

/-- What the surroundings contribute to one execution of `handleRegister`: the settlement of
`fetch`, and the message text of the `TypeError` of a property read on `null`. -/
structure RegisterEnv where
  fetchResult : Except JSError AuthResponse
  typeErrorMessage : JSString

/-- The property read `error.detail` on a value made by `JSON.parse`. -/
def getDetail : JsonValue → Completion JSValue
  | .null => .throw
  | .object members => .normal (ownProperty (utf16 "detail") members)
  | _ => .normal none

/-- The `catch` block of `handleRegister`. -/
def connectionError (error : JSError) : List AuthEffect :=
  [.consoleError (utf16 "Error de conexión:") (.error error),
   .showError (.string (utf16 "Error de conexión. Verifica tu internet."))]

/-- The `try` block of `handleRegister` from the settlement of `fetch` on, with its
`catch`. -/
def registerResponse (env : RegisterEnv) (username : JSString) : List AuthEffect :=
  match env.fetchResult with
  | .error error => connectionError error
  | .ok response =>
    [.consoleLog (utf16 "Respuesta del servidor:") (.number response.status)] ++
      if response.ok then
        match response.json with
        | .error error => connectionError error
        | .ok data =>
          [.consoleLog (utf16 "Registro exitoso:") (.json data), .setUser username,
           .showChatScreen]
      else
        match response.json with
        | .error error => connectionError error
        | .ok error =>
          [.consoleError (utf16 "Error de registro:") (.json error)] ++
            match getDetail error with
            | .throw => connectionError ⟨utf16 "TypeError", env.typeErrorMessage⟩
            | .normal detail =>
              [.showError
                (match detail with
                 | some value =>
                   if toBoolean (some value) then value else .string (utf16 "Error de registro")
                 | none => .string (utf16 "Error de registro"))]

/-- The method `UIManager.handleRegister(e)`, given the values of the inputs
`registerUsername` and `registerPassword`. -/
def handleRegister (env : RegisterEnv) (usernameValue passwordValue : JSString) :
    List AuthEffect :=
  let username := trim usernameValue
  let password := passwordValue
  [.preventDefault] ++
    if username.isEmpty || password.isEmpty then
      [.showError (.string (utf16 "Por favor complete todos los campos"))]
    else if username.length < 3 then
      [.showError (.string (utf16 "El username debe tener al menos 3 caracteres"))]
    else if password.length < 4 then
      [.showError (.string (utf16 "La contraseña debe tener al menos 4 caracteres"))]
    else
      [.consoleLog (utf16 "Intentando registro para usuario:") (.text username),
       .registerRequest username password] ++ registerResponse env username

/-- The registration requests sent: user name and password. -/
def registerRequests (effects : List AuthEffect) : List (JSString × JSString) :=
  effects.filterMap fun e =>
    match e with
    | .registerRequest username password => some (username, password)
    | _ => none

/-- The user names given to `appState.setUser`. -/
def usersSet (effects : List AuthEffect) : List JSString :=
  effects.filterMap fun e =>
    match e with
    | .setUser username => some username
    | _ => none

/-- A server answer that accepts the registration. -/
def acceptingEnv : RegisterEnv :=
  { fetchResult := .ok { ok := true, status := 200, json := .ok (.object []) }
    typeErrorMessage := utf16 "Cannot read properties of null" }

/-- The canonical form of a code unit under the flag `i` of a regular expression without the
flag `u`, restricted to what matters for an ASCII pattern: an ASCII lower-case letter becomes
its upper-case letter, and no code unit from 128 on becomes an ASCII one. -/
def canonicalize (c : Nat) : Nat := if 97 ≤ c ∧ c ≤ 122 then c - 32 else c

/-- Whether the ASCII text `word` matches at the start of `s`, case ignored. -/
def matchesAt (word s : JSString) : Bool :=
  (word.map canonicalize).isPrefixOf (s.map canonicalize)

/-- Whether the ASCII text `word` matches somewhere in `s`, case ignored. -/
def occursIn (word s : JSString) : Bool := s.tails.any (matchesAt word)

/-- The code units that `.` does not match: the line terminators. -/
def isLineTerminator (c : Nat) : Bool := c = 10 || c = 13 || c = 8232 || c = 8233

/-- The word characters of `\b`: letters, digits and the underscore; no code unit at the
edge of the text. -/
def isWordChar : Option Nat → Bool
  | some c => (48 ≤ c && c ≤ 57) || (65 ≤ c && c ≤ 90) || c = 95 || (97 ≤ c && c ≤ 122)
  | none => false

/-- The assertion `\b` between the code unit before a position and the one after it. -/
def wordBoundary (before after : Option Nat) : Bool := isWordChar before != isWordChar after

/-- The pattern `.*word` at the start of `s`. -/
def aheadOnLine (word : JSString) : JSString → Bool
  | [] => matchesAt word []
  | c :: rest =>
    matchesAt word (c :: rest) || (!isLineTerminator c && aheadOnLine word rest)

/-- The pattern `.*\bword\b` at the start of `s`, the code unit before `s` being `before`. -/
def wordAheadOnLine (word : JSString) : Option Nat → JSString → Bool
  | before, [] =>
    wordBoundary before none && matchesAt word [] &&
      wordBoundary (([] : JSString).drop (word.length - 1)).head? none
  | before, c :: rest =>
    (wordBoundary before (some c) && matchesAt word (c :: rest) &&
      wordBoundary ((c :: rest).drop (word.length - 1)).head?
        ((c :: rest).drop word.length).head?) ||
    (!isLineTerminator c && wordAheadOnLine word (some c) rest)

/-- Whether `test` holds at some position of the text, given the code unit before the
position and the text from the position on. -/
def atSomePosition (test : Option Nat → JSString → Bool) : Option Nat → JSString → Bool
  | before, [] => test before []
  | before, c :: rest => test before (c :: rest) || atSomePosition test (some c) rest

/-- The test of
`/Android|webOS|iPhone|iPad|iPod|BlackBerry|IEMobile|Opera Mini/i`. -/
def mobilePattern (userAgent : JSString) : Bool :=
  occursIn (utf16 "Android") userAgent || occursIn (utf16 "webOS") userAgent ||
  occursIn (utf16 "iPhone") userAgent || occursIn (utf16 "iPad") userAgent ||
  occursIn (utf16 "iPod") userAgent || occursIn (utf16 "BlackBerry") userAgent ||
  occursIn (utf16 "IEMobile") userAgent || occursIn (utf16 "Opera Mini") userAgent

/-- The test of
`/iPad|Android(?=.*Tablet)|(?=.*\bTablet\b)(?=.*\bFirefox\b)|Kindle|Silk|PlayBook/i`. -/
def tabletPattern (userAgent : JSString) : Bool :=
  occursIn (utf16 "iPad") userAgent ||
  userAgent.tails.any
    (fun s => matchesAt (utf16 "Android") s && aheadOnLine (utf16 "Tablet") (s.drop 7)) ||
  atSomePosition
    (fun before s =>
      wordAheadOnLine (utf16 "Tablet") before s && wordAheadOnLine (utf16 "Firefox") before s)
    none userAgent ||
  occursIn (utf16 "Kindle") userAgent || occursIn (utf16 "Silk") userAgent ||
  occursIn (utf16 "PlayBook") userAgent

/-- What the browser contributes to `DeviceDetector`: the text of
`navigator.userAgent || navigator.vendor || window.opera`, the size of the window, and
whether `'ontouchstart' in window`. -/
structure DeviceEnv where
  userAgent : JSString
  innerWidth : Int
  innerHeight : Int
  touch : Bool
  deriving DecidableEq, Repr

/-- The method `detectMobile()`. -/
def detectMobile (env : DeviceEnv) : Bool :=
  mobilePattern env.userAgent || env.innerWidth ≤ 768 || env.touch

/-- The method `detectTablet()`. -/
def detectTablet (env : DeviceEnv) : Bool :=
  tabletPattern env.userAgent ||
    (env.innerWidth > 768 && env.innerWidth ≤ 1024 && env.touch)

/-- The method `detectDesktop()`. -/
def detectDesktop (env : DeviceEnv) : Bool :=
  !detectMobile env && !detectTablet env && env.innerWidth > 1024

/-- The method `getDeviceType()`, reading the three flags of the detector. -/
def getDeviceType (isMobile isTablet isDesktop : Bool) : JSString :=
  if isMobile && !isTablet then utf16 "mobile"
  else if isTablet then utf16 "tablet"
  else if isDesktop then utf16 "desktop"
  else utf16 "unknown"

/-- The method `getOrientation()`. -/
def getOrientation (env : DeviceEnv) : JSString :=
  if env.innerHeight > env.innerWidth then utf16 "portrait" else utf16 "landscape"

/-- The fields of a `DeviceDetector`. -/
structure DeviceDetector where
  userAgent : JSString
  isDesktop : Bool
  isMobile : Bool
  isTablet : Bool
  deviceType : JSString
  orientation : JSString
  deriving DecidableEq, Repr

/-- The assignments of the constructor of `DeviceDetector`. -/
def DeviceDetector.new (env : DeviceEnv) : DeviceDetector :=
  let isDesktop := detectDesktop env
  let isMobile := detectMobile env
  let isTablet := detectTablet env
  { userAgent := env.userAgent
    isDesktop := isDesktop
    isMobile := isMobile
    isTablet := isTablet
    deviceType := getDeviceType isMobile isTablet isDesktop
    orientation := getOrientation env }

/-- The idle application of `idleStreamingWorld` answered with status 204 and no body. -/
def bodilessEnv : SendEnv :=
  { singleShotEnv with
    fetchResult := .ok { ok := true, status := 204, body := none }
    typeErrorMessage := utf16 "Cannot read properties of null (reading 'getReader')" }

/-- The position of `botMessage` in the transcript, once the execution has pushed it. -/
def SendTask.botIndex? (task : SendTask) : Option Nat :=
  match task.phase with
  | .awaitingJson _ botIndex => some botIndex
  | .streaming _ botIndex => some botIndex
  | _ => none

/-- The message object of every execution in progress is in the transcript. -/
def Machine.WellIndexed (m : Machine) : Prop :=
  ∀ task ∈ m.tasks, ∀ botIndex, task.botIndex? = some botIndex →
    botIndex < m.world.app.chatHistory.length

/-- The first execution of the run `overlapEvents`, suspended at a pacing delay. -/
def overlapTask : SendTask :=
  ((Machine.run ⟨idleStreamingWorld, []⟩ overlapEvents).tasks[0]?).getD
    ⟨firstEnv, [], .awaitingFetch⟩

/-- The streaming call of `overlapTask`. -/
def overlapSession : Session :=
  match overlapTask.phase with
  | .streaming session _ => session
  | _ => threeFrameSession

/-- The state of the UTF-8 decoder of the Encoding Standard: the code point under
construction, the bytes seen and needed for it, and the bounds of the next byte. -/
structure Utf8State where
  codePoint : Nat
  bytesSeen : Nat
  bytesNeeded : Nat
  lowerBoundary : Nat
  upperBoundary : Nat
  deriving DecidableEq, Repr

/-- The state of a new decoder, and of a decoder between two code points. -/
def Utf8State.initial : Utf8State := ⟨0, 0, 0, 128, 191⟩

/-- A byte read while no code point is under construction: the code points output and the
next state. A byte that cannot start a sequence gives U+FFFD. -/
def utf8Lead (byte : Nat) : List Nat × Utf8State :=
  if byte ≤ 127 then ([byte], .initial)
  else if 194 ≤ byte ∧ byte ≤ 223 then ([], ⟨byte % 32, 0, 1, 128, 191⟩)
  else if 224 ≤ byte ∧ byte ≤ 239 then
    ([], ⟨byte % 16, 0, 2, if byte = 224 then 160 else 128, if byte = 237 then 159 else 191⟩)
  else if 240 ≤ byte ∧ byte ≤ 244 then
    ([], ⟨byte % 8, 0, 3, if byte = 240 then 144 else 128, if byte = 244 then 143 else 191⟩)
  else ([65533], .initial)

/-- One byte: the code points output and the next state. A byte outside the bounds ends the
sequence with U+FFFD and is then read again as the start of a sequence. -/
def utf8Step (st : Utf8State) (byte : Nat) : List Nat × Utf8State :=
  if st.bytesNeeded = 0 then utf8Lead byte
  else if byte < st.lowerBoundary ∨ st.upperBoundary < byte then
    (65533 :: (utf8Lead byte).1, (utf8Lead byte).2)
  else if st.bytesSeen + 1 = st.bytesNeeded then
    ([st.codePoint * 64 + byte % 64], .initial)
  else ([], ⟨st.codePoint * 64 + byte % 64, st.bytesSeen + 1, st.bytesNeeded, 128, 191⟩)

/-- The code points decoded from the bytes, the decoder being in state `st`; a sequence cut
by the end of the input gives U+FFFD. -/
def utf8Decode : Utf8State → List Nat → List Nat
  | st, [] => if st.bytesNeeded = 0 then [] else [65533]
  | st, byte :: rest => (utf8Step st byte).1 ++ utf8Decode (utf8Step st byte).2 rest

/-- The UTF-16 code units of a code point. -/
def codeUnits (codePoint : Nat) : JSString :=
  if codePoint < 65536 then [codePoint]
  else [55296 + (codePoint - 65536) / 1024, 56320 + (codePoint - 65536) % 1024]

/-- The call `decoder.decode(value)` of a `new TextDecoder()`, made without the `stream`
option: every call starts a new UTF-8 decoder, replaces malformed sequences by U+FFFD, and
drops a byte order mark U+FEFF that starts its output. -/
def TextDecoder.decode (value : List Nat) : JSString :=
  match utf8Decode .initial value with
  | 65279 :: rest => rest.flatMap codeUnits
  | codePoints => codePoints.flatMap codeUnits

/-- The body stream whose reads deliver the given byte sequences, each decoded by its own
call of `decoder.decode(value)`. -/
def decodedBody (reads : List (List Nat)) (ending : StreamEnd) : BodyStream :=
  ⟨reads.map TextDecoder.decode, ending⟩

/-- The bytes of a byte order mark in UTF-8. -/
def byteOrderMark : List Nat := [239, 187, 191]

/-! ## Lemmas -/

/-! ### Splitting a chunk into lines -/
/-- A split always gives at least one piece. -/
theorem splitLines_ne_nil (s : JSString) : splitLines s ≠ [] := by
  induction s with
  | nil => simp [splitLines]
  | cons c rest ih =>
    unfold splitLines
    split
    · simp
    · split <;> simp

/-- A code unit other than the line feed joins the first piece of what follows. -/
theorem splitLines_cons_ne (c : Nat) (rest : JSString) (h : c ≠ newline) :
    splitLines (c :: rest) =
      (c :: (splitLines rest).headD []) :: (splitLines rest).tail := by
  have hne := splitLines_ne_nil rest
  rw [splitLines]
  simp only [h, if_false]
  cases hs : splitLines rest with
  | nil => exact absurd hs hne
  | cons l ls => simp

/-- Splitting distributes over a line feed. -/
theorem splitLines_append_newline (a b : JSString) :
    splitLines (a ++ newline :: b) = splitLines a ++ splitLines b := by
  induction a with
  | nil => simp [splitLines]
  | cons c rest ih =>
    by_cases hc : c = newline
    · subst hc
      simp [splitLines, ih]
    · rw [List.cons_append, splitLines_cons_ne c _ hc, splitLines_cons_ne c _ hc, ih]
      have hne := splitLines_ne_nil rest
      cases hs : splitLines rest with
      | nil => exact absurd hs hne
      | cons l ls => simp

/-- The empty line yields no fragment. -/
theorem lineFragment_nil : lineFragment [] = none := by
  decide

/-! ### The read loop as a fold over the extracted fragments -/
/-- One line either leaves the state alone or appends its fragment. -/
theorem processLine_eq (st : StreamState) (line : JSString) :
    processLine st line = (lineFragment line).elim st (appendFragment st) := by
  unfold processLine
  cases lineFragment line <;> rfl

/-- Processing lines is appending their fragments in order. -/
theorem foldl_processLine (lines : List JSString) (st : StreamState) :
    lines.foldl processLine st = (lines.filterMap lineFragment).foldl appendFragment st := by
  induction lines generalizing st with
  | nil => rfl
  | cons line rest ih =>
    rw [List.foldl_cons, ih, processLine_eq]
    cases h : lineFragment line with
    | none => simp [List.filterMap_cons, h]
    | some f => simp [List.filterMap_cons, h]

/-- Processing a chunk is appending the fragments of its lines. -/
theorem processChunk_eq (st : StreamState) (chunk : JSString) :
    processChunk st chunk = (chunkFragments chunk).foldl appendFragment st :=
  foldl_processLine _ st

/-- Processing chunks is appending the extracted fragments. -/
theorem foldl_processChunk (chunks : List JSString) (st : StreamState) :
    chunks.foldl processChunk st = (extractedFragments chunks).foldl appendFragment st := by
  induction chunks generalizing st with
  | nil => rfl
  | cons chunk rest ih =>
    rw [List.foldl_cons, ih, processChunk_eq]
    simp [extractedFragments, List.flatMap_cons, List.foldl_append]

/-- Appending fragments extends the content by their concatenation. -/
theorem appendFragments_content (frags : List JSString) (st : StreamState) :
    (frags.foldl appendFragment st).content = st.content ++ frags.flatten := by
  induction frags generalizing st with
  | nil => simp
  | cons f rest ih => simp [ih, appendFragment]

/-- Appending fragments extends `tempContent` by their concatenation. -/
theorem appendFragments_tempContent (frags : List JSString) (st : StreamState) :
    (frags.foldl appendFragment st).tempContent = st.tempContent ++ frags.flatten := by
  induction frags generalizing st with
  | nil => simp
  | cons f rest ih => simp [ih, appendFragment]

/-- Each appended fragment adds one incremental render, of the text so far. -/
theorem appendFragments_renders (frags : List JSString) (st : StreamState) :
    realTimeRenders (frags.foldl appendFragment st).effects =
      realTimeRenders st.effects ++ prefixTexts st.content frags := by
  induction frags generalizing st with
  | nil => simp [prefixTexts]
  | cons f rest ih =>
    rw [List.foldl_cons, ih]
    simp [appendFragment, realTimeRenders, prefixTexts, List.filterMap_append]

/-- There is one text per fragment. -/
theorem prefixTexts_length (content : JSString) (frags : List JSString) :
    (prefixTexts content frags).length = frags.length := by
  induction frags generalizing content with
  | nil => rfl
  | cons f rest ih => simp [prefixTexts, ih]

/-- The text number `k` holds the first `k + 1` fragments. -/
theorem prefixTexts_getElem? (content : JSString) (frags : List JSString) (k : Nat)
    (hk : k < frags.length) :
    (prefixTexts content frags)[k]? = some (content ++ (frags.take (k + 1)).flatten) := by
  induction frags generalizing content k with
  | nil => simp at hk
  | cons f rest ih =>
    cases k with
    | zero => simp [prefixTexts]
    | succ k =>
      simp only [List.length_cons, Nat.add_lt_add_iff_right] at hk
      simp [prefixTexts, ih (content ++ f) k hk, List.take_succ_cons]

/-- A chunk that is empty or ends with a line feed can be joined to the next one. -/
theorem chunkFragments_append (a b : JSString) (h : a.isEmpty || endsWithNewline a) :
    chunkFragments (a ++ b) = chunkFragments a ++ chunkFragments b := by
  cases a using List.reverseRecOn with
  | nil => simp [chunkFragments, splitLines, lineFragment_nil]
  | append_singleton a c =>
    have hc : c = newline := by
      simpa [endsWithNewline] using h
    subst hc
    have h1 : a ++ [newline] ++ b = a ++ newline :: b := by simp
    have h2 : a ++ [newline] = a ++ newline :: [] := rfl
    rw [h1, h2]
    simp [chunkFragments, splitLines_append_newline, splitLines, lineFragment_nil]

/-- Chunks cut after line feeds give the fragments of their concatenation. -/
theorem extractedFragments_flatten (chunks : List JSString) (h : cutsAfterNewlines chunks) :
    extractedFragments chunks = chunkFragments chunks.flatten := by
  induction chunks with
  | nil => simp [extractedFragments, chunkFragments, splitLines, lineFragment_nil]
  | cons c rest ih =>
    cases rest with
    | nil => simp [extractedFragments]
    | cons d rest =>
      simp only [cutsAfterNewlines, Bool.and_eq_true] at h
      have ih' := ih h.2
      simp only [extractedFragments, List.flatMap_cons] at ih' ⊢
      rw [List.flatten_cons, chunkFragments_append c _ h.1, ← ih']

/-- The fragments of two chunk sequences, one after the other. -/
theorem extractedFragments_append (a b : List JSString) :
    extractedFragments (a ++ b) = extractedFragments a ++ extractedFragments b := by
  simp [extractedFragments, List.flatMap_append]

/-- The fragments of a chunk followed by a chunk sequence. -/
theorem extractedFragments_cons (c : JSString) (rest : List JSString) :
    extractedFragments (c :: rest) = chunkFragments c ++ extractedFragments rest := by
  simp [extractedFragments, List.flatMap_cons]

/-- The whole call in terms of the extracted fragments. -/
theorem handleStreamingResponse_eq (body : BodyStream) (timestamp : Nat) (content : JSString) :
    handleStreamingResponse body timestamp content =
      let read := endOfStream
        ((extractedFragments body.chunks).foldl appendFragment (shownState timestamp content))
        body.ending
      { read with effects := read.effects ++ [.renderMarkdown read.content] } := by
  simp only [handleStreamingResponse, foldl_processChunk, shownState]

/-- The end of the stream leaves the content alone. -/
theorem endOfStream_content (st : StreamState) (ending : StreamEnd) :
    (endOfStream st ending).content = st.content := by
  cases ending <;> rfl

/-- The end of the stream adds no incremental render. -/
theorem endOfStream_renders (st : StreamState) (ending : StreamEnd) :
    realTimeRenders (endOfStream st ending).effects = realTimeRenders st.effects := by
  cases ending <;> simp [endOfStream, realTimeRenders, List.filterMap_append]

/-- The content at the end of the call. -/
theorem handleStreamingResponse_content (body : BodyStream) (timestamp : Nat)
    (content : JSString) :
    (handleStreamingResponse body timestamp content).content =
      content ++ (extractedFragments body.chunks).flatten := by
  rw [handleStreamingResponse_eq]
  simp [endOfStream_content, appendFragments_content, shownState]

/-- The incremental renders of the call. -/
theorem handleStreamingResponse_renders (body : BodyStream) (timestamp : Nat)
    (content : JSString) :
    realTimeRenders (handleStreamingResponse body timestamp content).effects =
      prefixTexts content (extractedFragments body.chunks) := by
  rw [handleStreamingResponse_eq]
  simp only []
  rw [show ∀ (l : List Effect) (c : JSString),
      realTimeRenders (l ++ [.renderMarkdown c]) = realTimeRenders l from by
        intro l c; simp [realTimeRenders, List.filterMap_append]]
  rw [endOfStream_renders, appendFragments_renders]
  simp [shownState, realTimeRenders]

/-- The call depends on the chunks only through the extracted fragments. -/
theorem handleStreamingResponse_congr (chunks chunks' : List JSString)
    (h : extractedFragments chunks = extractedFragments chunks') (ending : StreamEnd)
    (timestamp : Nat) (content : JSString) :
    handleStreamingResponse ⟨chunks, ending⟩ timestamp content =
      handleStreamingResponse ⟨chunks', ending⟩ timestamp content := by
  rw [handleStreamingResponse_eq, handleStreamingResponse_eq]
  simp only [h]

/-- The texts, indexed by the number of fragments they hold. -/
theorem prefixTexts_eq_map (content : JSString) (frags : List JSString) :
    prefixTexts content frags =
      (List.range frags.length).map fun k => content ++ (frags.take (k + 1)).flatten := by
  apply List.ext_getElem?
  intro k
  by_cases hk : k < frags.length
  · rw [prefixTexts_getElem? content frags k hk]
    simp [List.getElem?_map, List.getElem?_range hk]
  · have h1 : (prefixTexts content frags)[k]? = none := by
      apply List.getElem?_eq_none
      rw [prefixTexts_length]; omega
    rw [h1]
    symm
    apply List.getElem?_eq_none
    simp; omega

/-- A split is the complete lines followed by the trailing piece. -/
theorem splitLines_eq_complete_trailing (chunk : JSString) :
    splitLines chunk = completeLines chunk ++ [trailingPiece chunk] := by
  have hne := splitLines_ne_nil chunk
  unfold completeLines trailingPiece
  rw [List.getLastD_eq_getLast?, List.getLast?_eq_getLast _ hne]
  simp [List.dropLast_append_getLast]

/-- The fragments of a chunk: those of its complete lines, then that of its trailing piece. -/
theorem chunkFragments_eq_complete_trailing (chunk : JSString) :
    chunkFragments chunk =
      (completeLines chunk).filterMap lineFragment ++
        (lineFragment (trailingPiece chunk)).toList := by
  unfold chunkFragments
  rw [splitLines_eq_complete_trailing chunk, List.filterMap_append]
  cases h : lineFragment (trailingPiece chunk) <;> simp [List.filterMap_cons, h]

/-! ### Lines that yield no fragment -/
/-- A line without the prefix yields no fragment. -/
theorem lineFragment_of_not_prefix (line : JSString) (h : startsWith dataPrefix line = false) :
    lineFragment line = none := by
  simp [lineFragment, h]

/-- A line without a fragment leaves the state alone. -/
theorem processLine_of_none (st : StreamState) (line : JSString) (h : lineFragment line = none) :
    processLine st line = st := by
  simp [processLine, h]

/-- A line without a fragment is passed over by the loop. -/
theorem runLines_of_none (st : StreamState) (line : JSString) (rest : List JSString)
    (h : lineFragment line = none) : runLines st (line :: rest) = runLines st rest := by
  simp [runLines, h]

/-- A property read by name throws or gives the member. -/
theorem getNamed_some (name : PropertyName) (v : JsonValue) :
    getNamed name (some v) = .throw ∨ getNamed name (some v) = .normal (memberOf name v) := by
  cases v <;> simp [getNamed, memberOf]

/-- A read of element 0 throws or gives the first element. -/
theorem getIndex0_some (v : JsonValue) :
    getIndex0 (some v) = .throw ∨ getIndex0 (some v) = .normal (firstOf v) := by
  cases v <;> simp [getIndex0, firstOf]

/-- The chain of reads throws or gives the value at `choices[0].delta.content`. -/
theorem readDeltaContent_cases (data : JsonValue) :
    readDeltaContent data = .throw ∨
      readDeltaContent data = .normal (contentAt .delta data) := by
  unfold readDeltaContent contentAt
  rcases getNamed_some .choices data with h | h <;> rw [h]
  · simp
  · cases hc : memberOf .choices data with
    | none => simp [getIndex0]
    | some choices =>
      rcases getIndex0_some choices with h' | h' <;> simp only [h']
      · simp
      · cases hf : firstOf choices with
        | none => simp [getNamed]
        | some first =>
          rcases getNamed_some .delta first with h'' | h'' <;> simp only [h'']
          · simp
          · cases hd : memberOf .delta first with
            | none => simp [getNamed]
            | some delta =>
              rcases getNamed_some .content delta with h3 | h3 <;> simp [h3, hf, hd]

/-- A line whose remainder is not JSON yields no fragment. -/
theorem lineFragment_of_parse_none (line : JSString)
    (h : JSON.parse (slice 6 line) = none) : lineFragment line = none := by
  unfold lineFragment
  split
  · simp [h]
  · rfl

/-- A frame without a value at `choices[0].delta.content` yields no fragment. -/
theorem lineFragment_of_no_content (line : JSString) (data : JsonValue)
    (hp : JSON.parse (slice 6 line) = some data) (hc : contentAt .delta data = none) :
    lineFragment line = none := by
  unfold lineFragment
  split
  · simp only [hp]
    have hr := readDeltaContent_cases data
    rw [hc] at hr
    unfold deltaCondition
    cases hg : getNamed .choices (some data) with
    | throw => rfl
    | normal choices =>
      simp only []
      by_cases hb : toBoolean choices = true
      · simp only [hb, if_true]
        rcases hr with hr | hr <;> simp [hr, toBoolean]
      · simp [hb]
  · rfl

/-- Removing a line without a fragment keeps the fragments of the chunk. -/
theorem chunkFragments_congr (chunk chunk' : JSString) (pre post : List JSString)
    (line : JSString) (hl : lineFragment line = none)
    (hs : splitLines chunk = pre ++ line :: post) (hs' : splitLines chunk' = pre ++ post) :
    chunkFragments chunk = chunkFragments chunk' := by
  simp [chunkFragments, hs, hs', List.filterMap_append, List.filterMap_cons, hl]

/-- Removing a line without a fragment keeps the outcome of the loop. -/
theorem foldl_processLine_skip (line : JSString) (hl : lineFragment line = none)
    (st : StreamState) (pre post : List JSString) :
    (pre ++ line :: post).foldl processLine st = (pre ++ post).foldl processLine st := by
  rw [List.foldl_append, List.foldl_append, List.foldl_cons, processLine_of_none _ line hl]

/-! ### The stages of `sendMessage` -/
/-- A member that exists is read without a throw. -/
theorem getNamed_of_memberOf (name : PropertyName) (v x : JsonValue)
    (h : memberOf name v = some x) : getNamed name (some v) = .normal (some x) := by
  cases v <;> simp_all [getNamed, memberOf]

/-- An element 0 that exists is read without a throw. -/
theorem getIndex0_of_firstOf (v x : JsonValue) (h : firstOf v = some x) :
    getIndex0 (some v) = .normal (some x) := by
  cases v <;> simp_all [getIndex0, firstOf]

/-- A value at `choices[0].message.content` is what the chain of reads gives. -/
theorem readMessageContent_of_contentAt (data v : JsonValue)
    (h : contentAt .message data = some v) : readMessageContent data = .normal (some v) := by
  unfold contentAt at h
  cases hc : memberOf .choices data with
  | none => simp [hc] at h
  | some choices =>
    rw [hc] at h
    cases hf : firstOf choices with
    | none => simp [hf] at h
    | some first =>
      cases hm : memberOf .message first with
      | none => simp [hf, hm] at h
      | some message =>
        have h' : memberOf .content message = some v := by simpa [hf, hm] using h
        simp [readMessageContent, getNamed_of_memberOf _ _ _ hc, getIndex0_of_firstOf _ _ hf,
          getNamed_of_memberOf _ _ _ hm, getNamed_of_memberOf _ _ _ h']

/-- Updating the last element of a list that ends with `a`. -/
theorem updateLast_append_singleton {α : Type} (f : α → α) (l : List α) (a : α) :
    updateLast f (l ++ [a]) = l ++ [f a] := by
  induction l with
  | nil => rfl
  | cons b rest ih =>
    cases rest with
    | nil => rfl
    | cons c rest => simpa [updateLast] using ih

/-- Saving changes nothing but the effects, to which it adds at most the save request. -/
theorem saveCurrentChat_normal (w w' : World) (h : saveCurrentChat w = .normal w') :
    w'.app = w.app ∧ w'.ui = w.ui ∧ w'.aborted = w.aborted ∧
      ∃ saved, w'.effects = w.effects ++ saved ∧
        ∀ e ∈ saved, ∃ chatData, e = .saveChatToServer chatData := by
  unfold saveCurrentChat at h
  split at h
  · split at h
    · cases h
    · cases h
      exact ⟨rfl, rfl, rfl, _, rfl, by simp⟩
  · cases h
    exact ⟨rfl, rfl, rfl, [], by simp, by simp⟩

/-- The renders of the assistant message in two lists of effects. -/
theorem assistantRenders_append (a b : List Effect) :
    assistantRenders (a ++ b) = assistantRenders a ++ assistantRenders b := by
  simp [assistantRenders, List.filter_append]

/-- A save request is no render. -/
theorem assistantRenders_saved (saved : List Effect)
    (h : ∀ e ∈ saved, ∃ chatData, e = .saveChatToServer chatData) :
    assistantRenders saved = [] := by
  simp only [assistantRenders, List.filter_eq_nil_iff]
  intro e he
  obtain ⟨d, rfl⟩ := h e he
  simp

/-- The effects up to the call of `fetch`. -/
theorem sendMessageStart_effects (env : SendEnv) (w : World) :
    (sendMessageStart env w).effects = w.effects ++ startEffects env w := by
  unfold sendMessageStart startEffects
  by_cases h : w.ui.welcomeScreenShown = true <;>
    simp [h, World.emit, World.pushMessage, World.setMessageInput, World.setGenerating,
      World.setController, setTypingState]

/-- The application state at the call of `fetch`. -/
theorem sendMessageStart_app (env : SendEnv) (w : World) :
    (sendMessageStart env w).app =
      { w.app with
        chatHistory := w.app.chatHistory ++
          [⟨.user, some (.string (trim w.ui.messageInput)), env.userTimestamp⟩]
        isTyping := true
        isGenerating := true
        streamController := some env.controller } := by
  unfold sendMessageStart
  by_cases h : w.ui.welcomeScreenShown = true <;>
    simp [h, World.emit, World.pushMessage, World.setMessageInput, World.setGenerating,
      World.setController, setTypingState]

/-- The page at the call of `fetch`. -/
theorem sendMessageStart_ui (env : SendEnv) (w : World) :
    (sendMessageStart env w).ui =
      { w.ui with
        messageInput := []
        sendDisabled := true
        stopButton := w.ui.stopButton.map fun _ => true
        typingIndicator := true } := by
  unfold sendMessageStart
  by_cases h : w.ui.welcomeScreenShown = true <;>
    simp [h, World.emit, World.pushMessage, World.setMessageInput, World.setGenerating,
      World.setController, setTypingState]

/-- No controller is aborted up to the call of `fetch`. -/
theorem sendMessageStart_aborted (env : SendEnv) (w : World) :
    (sendMessageStart env w).aborted = w.aborted := by
  unfold sendMessageStart
  by_cases h : w.ui.welcomeScreenShown = true <;>
    simp [h, World.emit, World.pushMessage, World.setMessageInput, World.setGenerating,
      World.setController, setTypingState]

/-- Nothing of the assistant message is shown before `fetch`. -/
theorem assistantRenders_startEffects (env : SendEnv) (w : World) :
    assistantRenders (startEffects env w) = [] := by
  unfold startEffects
  by_cases h : w.ui.welcomeScreenShown = true <;> simp [h, assistantRenders]

/-- The `finally` block: the typing state is reset and at most a save request is added. -/
theorem sendMessageFinally_world (env : SendEnv) (w : World) :
    (sendMessageFinally env w).world.app =
      { w.app with isTyping := false, isGenerating := false, streamController := none } ∧
    (sendMessageFinally env w).world.ui =
      { w.ui with
        sendDisabled := false
        stopButton := w.ui.stopButton.map fun _ => false
        typingIndicator := false } ∧
    (sendMessageFinally env w).world.aborted = w.aborted ∧
    ∃ saved, (sendMessageFinally env w).world.effects = w.effects ++ saved ∧
      ∀ e ∈ saved, ∃ chatData, e = .saveChatToServer chatData := by
  unfold sendMessageFinally
  simp only []
  split
  · next w2 hsave =>
    obtain ⟨happ, hui, hab, saved, heff, hsaved⟩ := saveCurrentChat_normal _ _ hsave
    refine ⟨?_, ?_, ?_, saved, ?_, hsaved⟩
    · rw [happ]; simp [World.setController, World.setGenerating, setTypingState]
    · rw [hui]; simp [World.setController, World.setGenerating, setTypingState]
    · rw [hab]; simp [World.setController, World.setGenerating, setTypingState]
    · rw [heff]; simp [World.setController, World.setGenerating, setTypingState]
  · refine ⟨?_, ?_, ?_, [], ?_, by simp⟩ <;>
      simp [World.setController, World.setGenerating, setTypingState]

/-! ### The streaming loop step by step -/
/-- The notifications in two lists of effects. -/
theorem shownErrors_append (a b : List Effect) :
    shownErrors (a ++ b) = shownErrors a ++ shownErrors b := by
  simp [shownErrors, List.filterMap_append]

/-- The incremental renders in two lists of effects. -/
theorem realTimeRenders_append (a b : List Effect) :
    realTimeRenders (a ++ b) = realTimeRenders a ++ realTimeRenders b := by
  simp [realTimeRenders, List.filterMap_append]

/-- A run starts with its first action. -/
theorem Session.run_cons (s : Session) (a : Action) (rest : List Action) :
    s.run (a :: rest) = (s.step a).run rest := rfl

/-- A run of resumptions starts with a resumption. -/
theorem Session.run_resume_succ (s : Session) (n : Nat) :
    s.run (List.replicate (n + 1) .resume) = s.resume.run (List.replicate n .resume) := rfl

/-- A call that has returned stays as it is. -/
theorem Session.run_resume_returned (s : Session) (h : s.phase = .returned) (n : Nat) :
    s.run (List.replicate n .resume) = s := by
  induction n with
  | zero => rfl
  | succ n ih =>
    rw [Session.run_resume_succ]
    have : s.resume = s := by
      simp [Session.resume, h]
    rw [this, ih]

/-- An aborted read ends the call at once. -/
theorem resume_awaitingRead_aborted (s : Session) (hp : s.phase = .awaitingRead)
    (ha : s.controller ∈ s.world.aborted) : StoppedOutcome s s.resume [] := by
  simp [StoppedOutcome, Session.resume, hp, ha, Session.finish, endOfStream, prefixTexts,
    realTimeRenders_append, shownErrors_append, realTimeRenders, shownErrors]

/-- After a stop at a pacing delay, the pending lines are processed to the last and the call returns. -/
theorem drain_pending (pending : List JSString) :
    ∀ (s : Session), s.phase = .awaitingDelay pending → s.controller ∈ s.world.aborted →
      ∀ n, (pending.filterMap lineFragment).length + 2 ≤ n →
        StoppedOutcome s (s.run (List.replicate n .resume)) (pending.filterMap lineFragment) := by
  induction pending with
  | nil =>
    intro s hp ha n hn
    obtain ⟨m, rfl⟩ : ∃ m, n = m + 2 := ⟨n - 2, by omega⟩
    rw [Session.run_resume_succ, Session.run_resume_succ]
    have h1 : (s.resume).phase = .awaitingRead := by
      simp [Session.resume, hp, Session.continueLines, runLines]
    have h1a : (s.resume).controller ∈ (s.resume).world.aborted := by
      simpa [Session.resume, hp, Session.continueLines, runLines] using ha
    have h2 := resume_awaitingRead_aborted _ h1 h1a
    rw [Session.run_resume_returned _ h2.1]
    obtain ⟨q1, q2, q3, q4, q5, q6, q7⟩ := h2
    refine ⟨q1, ?_, ?_, ?_, ?_, q6, ?_⟩
    · rw [q2]; simp [Session.resume, hp, Session.continueLines, runLines]
    · rw [q3]; simp [Session.resume, hp, Session.continueLines, runLines]
    · rw [q4]; simp [Session.resume, hp, Session.continueLines, runLines]
    · rw [q5]
      simp [Session.resume, hp, Session.continueLines, runLines,
        realTimeRenders_append, realTimeRenders, prefixTexts]
    · rw [q7]
      simp [Session.resume, hp, Session.continueLines, runLines,
        shownErrors_append, shownErrors]
  | cons line rest ih =>
    intro s hp ha n hn
    cases hl : lineFragment line with
    | none =>
      simp only [List.filterMap_cons, hl] at hn ⊢
      have hs : s.resume = ({ s with phase := .awaitingDelay rest } : Session).resume := by
        simp [Session.resume, hp, Session.continueLines, runLines, hl]
      obtain ⟨m, rfl⟩ : ∃ m, n = m + 1 := ⟨n - 1, by omega⟩
      have := ih { s with phase := .awaitingDelay rest } rfl ha (m + 1) hn
      rw [Session.run_resume_succ] at this ⊢
      rw [hs]
      exact this
    | some f =>
      simp only [List.filterMap_cons, hl, List.length_cons] at hn ⊢
      obtain ⟨m, rfl⟩ : ∃ m, n = m + 1 := ⟨n - 1, by omega⟩
      rw [Session.run_resume_succ]
      have h1 : (s.resume).phase = .awaitingDelay rest := by
        simp [Session.resume, hp, Session.continueLines, runLines, hl]
      have h1a : (s.resume).controller ∈ (s.resume).world.aborted := by
        simpa [Session.resume, hp, Session.continueLines, runLines, hl] using ha
      obtain ⟨q1, q2, q3, q4, q5, q6, q7⟩ := ih (s.resume) h1 h1a m (by omega)
      refine ⟨q1, ?_, ?_, ?_, ?_, q6, ?_⟩
      · rw [q2]; simp [Session.resume, hp, Session.continueLines, runLines, hl]
      · rw [q3]; simp [Session.resume, hp, Session.continueLines, runLines, hl]
      · rw [q4]; simp [Session.resume, hp, Session.continueLines, runLines, hl]
      · rw [q5]
        simp [Session.resume, hp, Session.continueLines, runLines, hl,
          realTimeRenders_append, realTimeRenders, prefixTexts]
      · rw [q7]
        simp [Session.resume, hp, Session.continueLines, runLines, hl,
          shownErrors_append, shownErrors]

/-- Stopping aborts the controller of the session when it is the current one. -/
theorem stop_aborts (s : Session) (h : s.world.app.streamController = some s.controller) :
    s.stop.controller ∈ s.stop.world.aborted := by
  simp [Session.stop, AppState.stopGeneration, h, setTypingState]

/-- The method `AppState.stopGeneration` shows no notification. -/
theorem shownErrors_stopGeneration (w : World) :
    shownErrors (AppState.stopGeneration w).effects = shownErrors w.effects := by
  unfold AppState.stopGeneration
  cases w.app.streamController <;> simp [setTypingState]

/-- Appending fragments shows no notification. -/
theorem appendFragments_shownErrors (frags : List JSString) (st : StreamState) :
    shownErrors (frags.foldl appendFragment st).effects = shownErrors st.effects := by
  induction frags generalizing st with
  | nil => rfl
  | cons f rest ih =>
    rw [List.foldl_cons, ih]
    simp [appendFragment, shownErrors, List.filterMap_append]

/-- The end of the stream shows no notification. -/
theorem endOfStream_shownErrors (st : StreamState) (ending : StreamEnd) :
    shownErrors (endOfStream st ending).effects = shownErrors st.effects := by
  cases ending <;> simp [endOfStream, shownErrors, List.filterMap_append]

/-- The call shows no notification. -/
theorem handleStreamingResponse_shownErrors (body : BodyStream) (timestamp : Nat)
    (content : JSString) :
    shownErrors (handleStreamingResponse body timestamp content).effects = [] := by
  rw [handleStreamingResponse_eq]
  simp only [shownErrors_append, endOfStream_shownErrors, appendFragments_shownErrors]
  simp [shownState, shownErrors]

/-- A rejected read is logged on the console. -/
theorem handleStreamingResponse_consoleError (chunks : List JSString) (error : JSError)
    (timestamp : Nat) (content : JSString) :
    Effect.consoleError error ∈
      (handleStreamingResponse ⟨chunks, .failed error⟩ timestamp content).effects := by
  simp [handleStreamingResponse, endOfStream]

/-- No notification is shown before `fetch`. -/
theorem shownErrors_startEffects (env : SendEnv) (w : World) :
    shownErrors (startEffects env w) = [] := by
  unfold startEffects
  by_cases h : w.ui.welcomeScreenShown = true <;> simp [h, shownErrors]

/-- A save request is no notification. -/
theorem shownErrors_saved (saved : List Effect)
    (h : ∀ e ∈ saved, ∃ chatData, e = .saveChatToServer chatData) :
    shownErrors saved = [] := by
  simp only [shownErrors, List.filterMap_eq_nil_iff]
  intro e he
  obtain ⟨d, rfl⟩ := h e he
  rfl

/-- The `try` block on the streaming path with an OK response. -/
theorem sendMessageTry_streaming (env : SendEnv) (w : World) (response : Response)
    (body : BodyStream)
    (hstream : w.app.isStreaming = true) (hfetch : env.fetchResult = .ok response)
    (hok : response.ok = true) (hbody : response.body = some body) :
    sendMessageTry env w =
      (setBotContent
        (some (.string (handleStreamingResponse body env.botTimestamp []).content))
        { w.pushMessage ⟨.assistant, some (.string []), env.botTimestamp⟩ with
          effects := w.effects ++
            (handleStreamingResponse body env.botTimestamp []).effects },
        none) := by
  simp [sendMessageTry, hfetch, hok, World.pushMessage, hstream, hbody]

/-- The `try` block on the streaming path with an OK response that has no body: the message
is displayed and the `TypeError` of `response.body.getReader()` reaches the `catch`. -/
theorem sendMessageTry_bodiless (env : SendEnv) (w : World) (response : Response)
    (hstream : w.app.isStreaming = true) (hfetch : env.fetchResult = .ok response)
    (hok : response.ok = true) (hbody : response.body = none) :
    sendMessageTry env w =
      ((w.pushMessage ⟨.assistant, some (.string []), env.botTimestamp⟩).emit
          (.displayMessage ⟨.assistant, some (.string []), env.botTimestamp⟩),
        some ⟨utf16 "TypeError", env.typeErrorMessage⟩) := by
  simp [sendMessageTry, hfetch, hok, World.pushMessage, hstream, hbody]

/-! ### The fuel of the parser -/
/-- Skipping white space does not lengthen the input. -/
theorem skipWhitespace_length (s : JSString) : (skipWhitespace s).length ≤ s.length := by
  induction s with
  | nil => simp [skipWhitespace]
  | cons c rest ih =>
    unfold skipWhitespace
    split
    · exact Nat.le_succ_of_le ih
    · exact Nat.le_refl _

/-- What follows the first code unit after the white space is shorter than the input. -/
theorem skipWhitespace_cons_length (s rest : JSString) (c : Nat)
    (h : skipWhitespace s = c :: rest) : rest.length < s.length := by
  have := skipWhitespace_length s
  rw [h] at this
  simpa using this

/-- A parsed string consumes input, by induction on a bound of the length. -/
theorem parseString_length_aux (n : Nat) :
    ∀ (s v rest : JSString), s.length ≤ n → parseString s = some (v, rest) →
      rest.length < s.length := by
  induction n with
  | zero =>
    intro s v rest hn h
    cases s with
    | nil => simp [parseString] at h
    | cons c t => simp at hn
  | succ n ih =>
    intro s v rest hn h
    cases s with
    | nil => simp [parseString] at h
    | cons c t =>
      simp only [List.length_cons, Nat.add_le_add_iff_right] at hn
      unfold parseString at h
      split at h
      · simp only [Option.some.injEq, Prod.mk.injEq] at h
        rw [← h.2]; simp
      · split at h
        · split at h
          · simp at h
          · next e rest2 =>
            split at h
            · split at h
              · next h1 h2 h3 h4 rest3 =>
                split at h
                · next u hu =>
                  simp only [Option.map_eq_some', Prod.mk.injEq] at h
                  obtain ⟨⟨v', r'⟩, hr, -, rfl⟩ := h
                  have := ih rest3 v' r' (by simp at hn; omega) hr
                  simp at this ⊢; omega
                · simp at h
              · simp at h
            · split at h
              · simp only [Option.map_eq_some', Prod.mk.injEq] at h
                obtain ⟨⟨v', r'⟩, hr, -, rfl⟩ := h
                have := ih rest2 v' r' (by simp at hn; omega) hr
                simp at this ⊢; omega
              · simp at h
        · split at h
          · simp at h
          · simp only [Option.map_eq_some', Prod.mk.injEq] at h
            obtain ⟨⟨v', r'⟩, hr, -, rfl⟩ := h
            have := ih t v' r' hn hr
            simp at this ⊢; omega

/-- A parsed string consumes input. -/
theorem parseString_length (s v rest : JSString) (h : parseString s = some (v, rest)) :
    rest.length < s.length :=
  parseString_length_aux s.length s v rest (Nat.le_refl _) h

/-- Dropping a prefix does not lengthen a list. -/
theorem dropWhile_length_le {α : Type} (p : α → Bool) (l : List α) :
    (l.dropWhile p).length ≤ l.length := by
  induction l with
  | nil => simp
  | cons a t ih =>
    simp only [List.dropWhile_cons]
    split
    · exact Nat.le_succ_of_le ih
    · exact Nat.le_refl _

/-- An integer part consumes input. -/
theorem parseIntegerPart_length (s ds rest : JSString)
    (h : parseIntegerPart s = some (ds, rest)) : rest.length < s.length := by
  cases s with
  | nil => simp [parseIntegerPart] at h
  | cons c r =>
    simp only [parseIntegerPart] at h
    split_ifs at h
    · simp only [Option.some.injEq, Prod.mk.injEq] at h
      rw [← h.2]; simp
    · simp only [Option.some.injEq, Prod.mk.injEq] at h
      rw [← h.2]
      have := dropWhile_length_le isDigit r
      simp only [List.length_cons]; omega

/-- A fraction does not lengthen the input. -/
theorem parseFraction_length (s ds rest : JSString)
    (h : parseFraction s = some (ds, rest)) : rest.length ≤ s.length := by
  cases s with
  | nil =>
    simp only [parseFraction, Option.some.injEq, Prod.mk.injEq] at h
    rw [← h.2]
  | cons d r =>
    simp only [parseFraction] at h
    split_ifs at h
    · simp only [Option.some.injEq, Prod.mk.injEq] at h
      rw [← h.2]
      have := dropWhile_length_le isDigit r
      simp only [List.length_cons]; omega
    · simp only [Option.some.injEq, Prod.mk.injEq] at h
      rw [← h.2]

/-- An exponent does not lengthen the input. -/
theorem parseExponent_length (s rest : JSString) (e : Int)
    (h : parseExponent s = some (e, rest)) : rest.length ≤ s.length := by
  cases s with
  | nil =>
    simp only [parseExponent, Option.some.injEq, Prod.mk.injEq] at h
    rw [← h.2]
  | cons c r =>
    simp only [parseExponent] at h
    have a1 := dropWhile_length_le isDigit (List.drop 1 r)
    have a2 := dropWhile_length_le isDigit r
    have a3 : (List.drop 1 r).length ≤ r.length := by simp
    split_ifs at h <;>
      simp only [Option.some.injEq, Prod.mk.injEq] at h <;>
      rw [← h.2] <;>
      simp only [List.length_cons] <;>
      omega

/-- A parsed number consumes input. -/
theorem parseNumber_length (s rest : JSString) (x : JsonNumber)
    (h : parseNumber s = some (x, rest)) : rest.length < s.length := by
  unfold parseNumber at h
  simp only at h
  split at h
  · simp at h
  · next intDigits s2 hint =>
    split at h
    · simp at h
    · next fracDigits s3 hfrac =>
      split at h
      · simp at h
      · next exponent s4 hexp =>
        simp only [Option.some.injEq, Prod.mk.injEq] at h
        rw [← h.2]
        have h1 := parseIntegerPart_length _ _ _ hint
        have h2 := parseFraction_length _ _ _ hfrac
        have h3 := parseExponent_length _ _ _ hexp
        have h0 : (if (decide (s.head? = some 45)) = true then List.drop 1 s else s).length
            ≤ s.length := by
          split
          · simp
          · exact Nat.le_refl _
        omega

/-- A bound on what is left can be weakened. -/
theorem Parsed.bounded_mono {α : Type} {n m : Nat} (h : n ≤ m) (r : Parsed α)
    (hr : r.Bounded n) : r.Bounded m := by
  cases r with
  | ok v rest => exact Nat.lt_of_lt_of_le hr h
  | syntaxError => trivial
  | fuelExhausted => exact hr

/-- With fuel above twice the length of the input, the three parsers do not run out of fuel and consume input. -/
theorem parse_fuel (fuel : Nat) :
    (∀ input : JSString, 2 * input.length < fuel →
      (parseValue fuel input).Bounded input.length) ∧
    (∀ input : JSString, 2 * input.length + 1 < fuel →
      (parseElements fuel input).Bounded input.length) ∧
    (∀ input : JSString, 2 * input.length + 1 < fuel →
      (parseMembers fuel input).Bounded input.length) := by
  induction fuel with
  | zero => exact ⟨fun _ h => by omega, fun _ h => by omega, fun _ h => by omega⟩
  | succ fuel ih =>
    obtain ⟨ihv, ihe, ihm⟩ := ih
    refine ⟨?_, ?_, ?_⟩
    · intro input hf
      unfold parseValue
      have hws := skipWhitespace_length input
      cases hs : skipWhitespace input with
      | nil => simp [Parsed.Bounded]
      | cons c rest =>
        rw [hs] at hws
        simp only [List.length_cons] at hws
        simp only []
        split_ifs
        · simp only [Parsed.Bounded, List.length_drop]; omega
        · trivial
        · simp only [Parsed.Bounded, List.length_drop]; omega
        · trivial
        · simp only [Parsed.Bounded, List.length_drop]; omega
        · trivial
        · cases hp : parseString rest with
          | none => trivial
          | some r =>
            obtain ⟨v, rest2⟩ := r
            have := parseString_length _ _ _ hp
            simp only [Parsed.Bounded]; omega
        · cases hw : skipWhitespace rest with
          | nil => trivial
          | cons d rest2 =>
            have h2 := skipWhitespace_cons_length _ _ _ hw
            simp only []
            split_ifs
            · simp only [Parsed.Bounded]; omega
            · have h3 := ihe rest (by omega)
              cases he : parseElements fuel rest with
              | ok items rest3 => rw [he] at h3; simp only [Parsed.Bounded] at h3 ⊢; omega
              | syntaxError => trivial
              | fuelExhausted => rw [he] at h3; exact h3
        · cases hw : skipWhitespace rest with
          | nil => trivial
          | cons d rest2 =>
            have h2 := skipWhitespace_cons_length _ _ _ hw
            simp only []
            split_ifs
            · simp only [Parsed.Bounded]; omega
            · have h3 := ihm rest (by omega)
              cases he : parseMembers fuel rest with
              | ok items rest3 => rw [he] at h3; simp only [Parsed.Bounded] at h3 ⊢; omega
              | syntaxError => trivial
              | fuelExhausted => rw [he] at h3; exact h3
        · cases hp : parseNumber (c :: rest) with
          | none => trivial
          | some r =>
            obtain ⟨v, rest2⟩ := r
            have := parseNumber_length _ _ _ hp
            simp only [Parsed.Bounded, List.length_cons] at this ⊢; omega
    · intro input hf
      unfold parseElements
      have h1 := ihv input (by omega)
      cases hv : parseValue fuel input with
      | syntaxError => trivial
      | fuelExhausted => rw [hv] at h1; exact h1
      | ok v rest =>
        rw [hv] at h1
        simp only [Parsed.Bounded] at h1
        simp only []
        cases hw : skipWhitespace rest with
        | nil => trivial
        | cons c rest2 =>
          have h2 := skipWhitespace_cons_length _ _ _ hw
          simp only []
          split_ifs
          · have h3 := ihe rest2 (by omega)
            cases he : parseElements fuel rest2 with
            | ok items rest3 => rw [he] at h3; simp only [Parsed.Bounded] at h3 ⊢; omega
            | syntaxError => trivial
            | fuelExhausted => rw [he] at h3; exact h3
          · simp only [Parsed.Bounded]; omega
          · trivial
    · intro input hf
      unfold parseMembers
      cases hs : skipWhitespace input with
      | nil => trivial
      | cons q rest =>
        have h0 := skipWhitespace_cons_length _ _ _ hs
        simp only []
        split_ifs
        · cases hp : parseString rest with
          | none => trivial
          | some r =>
            obtain ⟨key, rest2⟩ := r
            have hk := parseString_length _ _ _ hp
            simp only []
            cases hw : skipWhitespace rest2 with
            | nil => trivial
            | cons colon rest3 =>
              have h3 := skipWhitespace_cons_length _ _ _ hw
              simp only []
              split_ifs
              · have h4 := ihv rest3 (by omega)
                cases hv : parseValue fuel rest3 with
                | syntaxError => trivial
                | fuelExhausted => rw [hv] at h4; exact h4
                | ok v rest4 =>
                  rw [hv] at h4
                  simp only [Parsed.Bounded] at h4
                  simp only []
                  cases hw2 : skipWhitespace rest4 with
                  | nil => trivial
                  | cons c rest5 =>
                    have h5 := skipWhitespace_cons_length _ _ _ hw2
                    simp only []
                    split_ifs
                    · have h6 := ihm rest5 (by omega)
                      cases he : parseMembers fuel rest5 with
                      | ok ms rest6 =>
                        rw [he] at h6; simp only [Parsed.Bounded] at h6 ⊢; omega
                      | syntaxError => trivial
                      | fuelExhausted => rw [he] at h6; exact h6
                    · simp only [Parsed.Bounded]; omega
                    · trivial
              · trivial
        · trivial

/-- Fuel adequacy: `JSON.parse` never runs out of fuel: when it gives `none`, the text has a syntax error. -/
theorem parseValue_fuel (text : JSString) :
    parseValue (2 * text.length + 1) text ≠ .fuelExhausted := by
  have h := (parse_fuel (2 * text.length + 1)).1 text (by omega)
  intro he
  rw [he] at h
  exact h

/-! ### Agreement of the step-by-step loop with the loop run as a whole -/
/-- The loop up to a pacing delay, and on from it, is the loop over all the lines. -/
theorem runLines_some (lines : List JSString) (st st' : StreamState) (rest : List JSString)
    (h : runLines st lines = (st', some rest)) :
    lines.foldl processLine st = rest.foldl processLine (afterDelay st') := by
  induction lines with
  | nil => simp [runLines] at h
  | cons line more ih =>
    cases hl : lineFragment line with
    | none =>
      rw [runLines_of_none st line more hl] at h
      rw [List.foldl_cons, processLine_of_none st line hl]
      exact ih h
    | some f =>
      simp only [runLines, hl, Prod.mk.injEq, Option.some.injEq] at h
      obtain ⟨h1, h2⟩ := h
      subst h1 h2
      simp [processLine, hl, afterDelay]

/-- The loop that reaches the end of the lines is the loop over all the lines. -/
theorem runLines_none (lines : List JSString) (st st' : StreamState)
    (h : runLines st lines = (st', none)) :
    lines.foldl processLine st = st' := by
  induction lines with
  | nil => simp [runLines] at h; simp [h]
  | cons line more ih =>
    cases hl : lineFragment line with
    | none =>
      rw [runLines_of_none st line more hl] at h
      rw [List.foldl_cons, processLine_of_none st line hl]
      exact ih h
    | some f => simp [runLines, hl] at h

/-- A run of two sequences of actions. -/
theorem Session.run_append (s : Session) (a b : List Action) :
    s.run (a ++ b) = (s.run a).run b := by
  simp [Session.run, List.foldl_append]

/-- A sequence of resumptions splits in two. -/
theorem replicate_resume_add (n m : Nat) :
    List.replicate (n + m) Action.resume =
      List.replicate n Action.resume ++ List.replicate m Action.resume :=
  List.replicate_add n m Action.resume

/-- From a pacing delay, resuming leads to the next read with every pending line
processed. -/
theorem resume_through_lines (pending : List JSString) :
    ∀ s : Session, s.phase = .awaitingDelay pending →
      ∃ n, s.run (List.replicate (n + 1) .resume) =
        { s with
          phase := .awaitingRead
          stream := pending.foldl processLine (afterDelay s.stream) } := by
  induction pending with
  | nil =>
    intro s hp
    exact ⟨0, by simp [Session.run, Session.step, Session.resume, hp, Session.continueLines,
      runLines, afterDelay]⟩
  | cons line rest ih =>
    intro s hp
    cases hl : lineFragment line with
    | none =>
      obtain ⟨n, hn⟩ := ih { s with phase := .awaitingDelay rest } rfl
      refine ⟨n, ?_⟩
      rw [List.foldl_cons, processLine_of_none _ line hl]
      rw [Session.run_resume_succ] at hn ⊢
      have : s.resume = ({ s with phase := .awaitingDelay rest } : Session).resume := by
        simp [Session.resume, hp, Session.continueLines, runLines, hl]
      rw [this, hn]
    | some f =>
      have h1 : s.resume.phase = .awaitingDelay rest := by
        simp [Session.resume, hp, Session.continueLines, runLines, hl]
      obtain ⟨n, hn⟩ := ih s.resume h1
      refine ⟨n + 1, ?_⟩
      rw [Session.run_resume_succ, hn]
      simp [Session.resume, hp, Session.continueLines, runLines, hl, processLine, afterDelay]

/-- From a read that delivers a chunk, resuming leads to the next read with the chunk
processed. -/
theorem resume_through_chunk (s : Session) (chunk : JSString) (more : List JSString)
    (hp : s.phase = .awaitingRead) (ha : s.controller ∉ s.world.aborted)
    (hu : s.unread = chunk :: more) :
    ∃ n, s.run (List.replicate (n + 1) .resume) =
      { s with unread := more, stream := processChunk s.stream chunk } := by
  cases hr : runLines s.stream (splitLines chunk) with
  | mk st' next =>
    cases next with
    | none =>
      refine ⟨0, ?_⟩
      have := runLines_none _ _ _ hr
      simp only [Session.run, List.replicate, List.foldl_cons, List.foldl_nil, Session.step,
        Session.resume, hp, ha, if_false, hu, Session.continueLines, hr, processChunk, this]
    | some rest =>
      have h1 : s.resume = { s with unread := more, stream := st', phase := .awaitingDelay rest } := by
        simp [Session.resume, hp, ha, hu, Session.continueLines, hr]
      obtain ⟨n, hn⟩ := resume_through_lines rest
        { s with unread := more, stream := st', phase := .awaitingDelay rest } rfl
      refine ⟨n + 1, ?_⟩
      rw [Session.run_resume_succ, h1, hn]
      have := runLines_some _ _ _ _ hr
      simp only [processChunk, this]
      cases s
      simp_all

/-- Resuming a call until it returns gives the state of `handleStreamingResponse`: the
step-by-step reading of the loop agrees with its reading as one run. -/
theorem resume_to_return (chunks : List JSString) :
    ∀ s : Session, s.phase = .awaitingRead → s.controller ∉ s.world.aborted →
      s.unread = chunks →
      ∃ n, s.run (List.replicate n .resume) =
        { s with
          phase := .returned
          unread := []
          stream :=
            { endOfStream (chunks.foldl processChunk s.stream) s.ending with
              effects := (endOfStream (chunks.foldl processChunk s.stream) s.ending).effects ++
                [.renderMarkdown (chunks.foldl processChunk s.stream).content] } } := by
  induction chunks with
  | nil =>
    intro s hp ha hu
    refine ⟨1, ?_⟩
    simp [Session.run, Session.step, Session.resume, hp, ha, hu, Session.finish,
      endOfStream_content]
  | cons chunk more ih =>
    intro s hp ha hu
    obtain ⟨n, hn⟩ := resume_through_chunk s chunk more hp ha hu
    obtain ⟨m, hm⟩ := ih { s with unread := more, stream := processChunk s.stream chunk }
      hp ha rfl
    refine ⟨(n + 1) + m, ?_⟩
    rw [replicate_resume_add, Session.run_append, hn, hm]
    simp

/-- The step-by-step model agrees with `handleStreamingResponse`. -/
theorem Session.start_returns (body : BodyStream) (timestamp : Nat) (content : JSString)
    (controller : Nat) (abortMessage : JSString) (w : World) (ha : controller ∉ w.aborted) :
    ∃ n,
      ((Session.start body timestamp content controller abortMessage w).run
        (List.replicate n .resume)).phase = .returned ∧
      ((Session.start body timestamp content controller abortMessage w).run
        (List.replicate n .resume)).stream = handleStreamingResponse body timestamp content := by
  obtain ⟨n, hn⟩ := resume_to_return body.chunks
    (Session.start body timestamp content controller abortMessage w) rfl ha rfl
  refine ⟨n, ?_, ?_⟩
  · rw [hn]
  · rw [hn]
    simp [Session.start, handleStreamingResponse, endOfStream_content]

/-- The `try` block leaves the page and the aborted controllers alone, adds to the
transcript at most one message, an assistant message with the time stamp of the response,
and shows no notification. -/
theorem sendMessageTry_world (env : SendEnv) (w : World) :
    ∃ (added : List Effect) (bot : List ChatMessage),
      (sendMessageTry env w).1.effects = w.effects ++ added ∧
      shownErrors added = [] ∧
      (sendMessageTry env w).1.app =
        { w.app with chatHistory := w.app.chatHistory ++ bot } ∧
      bot.length ≤ 1 ∧
      (∀ m ∈ bot, m.role = .assistant ∧ m.timestamp = env.botTimestamp) ∧
      (sendMessageTry env w).1.ui = w.ui ∧
      (sendMessageTry env w).1.aborted = w.aborted := by
  unfold sendMessageTry
  cases hf : env.fetchResult with
  | error e => exact ⟨[], [], by simp, rfl, by simp, by simp, by simp, rfl, rfl⟩
  | ok response =>
    simp only []
    by_cases hok : response.ok = true
    · simp only [hok, Bool.not_true, Bool.false_eq_true, if_false]
      by_cases hs : (w.pushMessage ⟨.assistant, some (.string []), env.botTimestamp⟩).app.isStreaming = true
      · simp only [hs, if_true]
        cases hb : response.body with
        | none =>
          exact ⟨[.displayMessage ⟨.assistant, some (.string []), env.botTimestamp⟩],
            [⟨.assistant, some (.string []), env.botTimestamp⟩],
            by simp [World.emit, World.pushMessage], by simp [shownErrors],
            by simp [World.emit, World.pushMessage], by simp, by simp,
            by simp [World.emit, World.pushMessage], by simp [World.emit, World.pushMessage]⟩
        | some body =>
          refine ⟨(handleStreamingResponse body env.botTimestamp []).effects,
            [⟨.assistant, some (.string
              (handleStreamingResponse body env.botTimestamp []).content),
              env.botTimestamp⟩], ?_, ?_, ?_, by simp, by simp, ?_, ?_⟩
          · simp [setBotContent, World.pushMessage]
          · exact handleStreamingResponse_shownErrors _ _ _
          · simp [setBotContent, World.pushMessage, updateLast_append_singleton]
          · simp [setBotContent, World.pushMessage]
          · simp [setBotContent, World.pushMessage]
      · simp only [hs, Bool.false_eq_true, if_false]
        cases hj : responseJson response.body env.syntaxErrorMessage with
        | error e =>
          exact ⟨[], [⟨.assistant, some (.string []), env.botTimestamp⟩],
            by simp [World.pushMessage], rfl,
            by simp [World.pushMessage], by simp, by simp, by simp [World.pushMessage],
            by simp [World.pushMessage]⟩
        | ok data =>
          simp only []
          cases hr : readMessageContent data with
          | throw =>
            exact ⟨[], [⟨.assistant, some (.string []), env.botTimestamp⟩],
              by simp [World.pushMessage], rfl,
              by simp [World.pushMessage], by simp, by simp, by simp [World.pushMessage],
              by simp [World.pushMessage]⟩
          | normal content =>
            simp only []
            split
            · next c =>
              exact ⟨[.displayMessage ⟨.assistant, some (.string c), env.botTimestamp⟩],
                [⟨.assistant, some (.string c), env.botTimestamp⟩],
                by simp [World.emit, setBotContent, World.pushMessage], by simp [shownErrors],
                by simp [World.emit, setBotContent, World.pushMessage,
                  updateLast_append_singleton],
                by simp, by simp, by simp [World.emit, setBotContent, World.pushMessage],
                by simp [World.emit, setBotContent, World.pushMessage]⟩
            · exact ⟨[], [⟨.assistant, content, env.botTimestamp⟩],
                by simp [setBotContent, World.pushMessage], by simp [shownErrors],
                by simp [setBotContent, World.pushMessage, updateLast_append_singleton],
                by simp, by simp, by simp [setBotContent, World.pushMessage],
                by simp [setBotContent, World.pushMessage]⟩
    · have hok' : response.ok = false := by simpa using hok
      rw [hok']
      exact ⟨[], [], by simp, rfl, by simp, by simp, by simp, rfl, rfl⟩

/-- The `catch` block changes nothing but the effects, to which it adds its report. -/
theorem sendMessageCatch_world (w : World) (thrown : Option JSError) :
    (sendMessageCatch w thrown).app = w.app ∧ (sendMessageCatch w thrown).ui = w.ui ∧
    (sendMessageCatch w thrown).aborted = w.aborted ∧
    ∃ reported, (sendMessageCatch w thrown).effects = w.effects ++ reported ∧
      shownErrors reported = catchReport thrown ∧ assistantRenders reported = [] := by
  cases thrown with
  | none => exact ⟨rfl, rfl, rfl, [], by simp [sendMessageCatch], rfl, rfl⟩
  | some error =>
    by_cases h : error.name = utf16 "AbortError"
    · exact ⟨by simp [sendMessageCatch, h], by simp [sendMessageCatch, h],
        by simp [sendMessageCatch, h], [], by simp [sendMessageCatch, h],
        by simp [catchReport, h, shownErrors], rfl⟩
    · refine ⟨by simp [sendMessageCatch, h, World.emit], by simp [sendMessageCatch, h, World.emit],
        by simp [sendMessageCatch, h, World.emit],
        [.showError (utf16 "Error: " ++ error.message) (utf16 "error")],
        by simp [sendMessageCatch, h, World.emit],
        by simp [catchReport, h, shownErrors], by simp [assistantRenders]⟩

/-- An accepted `sendMessage` is its four stages one after the other. -/
theorem sendMessage_accepted (env : SendEnv) (w : World)
    (hinput : (trim w.ui.messageInput).isEmpty = false) (htyping : w.app.isTyping = false) :
    sendMessage env w =
      sendMessageFinally env
        (sendMessageCatch (sendMessageTry env (sendMessageStart env w)).1
          (sendMessageTry env (sendMessageStart env w)).2) := by
  simp [sendMessage, hinput, htyping]

/-- The notifications of an accepted `sendMessage` are the report of its `catch` block. -/
theorem shownErrors_newEffects (env : SendEnv) (w : World)
    (hinput : (trim w.ui.messageInput).isEmpty = false) (htyping : w.app.isTyping = false) :
    shownErrors (newEffects env w) = catchReport (caughtError env w) := by
  unfold newEffects caughtError
  rw [sendMessage_accepted env w hinput htyping]
  obtain ⟨-, -, -, saved, hsaved, hs⟩ := sendMessageFinally_world env
    (sendMessageCatch (sendMessageTry env (sendMessageStart env w)).1
      (sendMessageTry env (sendMessageStart env w)).2)
  obtain ⟨-, -, -, reported, hrep, hr, -⟩ := sendMessageCatch_world
    (sendMessageTry env (sendMessageStart env w)).1
    (sendMessageTry env (sendMessageStart env w)).2
  obtain ⟨added, bot, hadd, ha, -⟩ := sendMessageTry_world env (sendMessageStart env w)
  rw [hsaved, hrep, hadd, sendMessageStart_effects]
  simp only [List.append_assoc, List.drop_left, shownErrors_append, shownErrors_startEffects,
    ha, hr, shownErrors_saved saved hs, List.nil_append, List.append_nil]

/-- A `sendMessage` that its guard rejects returns at once. -/
theorem sendMessage_rejected (env : SendEnv) (w : World)
    (h : (trim w.ui.messageInput).isEmpty = true ∨ w.app.isTyping = true) :
    sendMessage env w = ⟨w, none⟩ := by
  unfold sendMessage
  rcases h with h | h <;> simp [h]

/-- The report of the `catch` block has at most one notification. -/
theorem catchReport_length (thrown : Option JSError) : (catchReport thrown).length ≤ 1 := by
  cases thrown with
  | none => simp [catchReport]
  | some error =>
    by_cases h : error.name = utf16 "AbortError" <;> simp [catchReport, h]

/-- The lines of a chunk show no notification. -/
theorem shownErrors_runLines (lines : List JSString) (st : StreamState) :
    shownErrors (runLines st lines).1.effects = shownErrors st.effects := by
  induction lines generalizing st with
  | nil => rfl
  | cons line rest ih =>
    unfold runLines
    cases hl : lineFragment line with
    | none => exact ih st
    | some newContent => simp [shownErrors_append, shownErrors]

/-- The `for` loop shows no notification. -/
theorem shownErrors_continueLines (s : Session) (lines : List JSString) :
    shownErrors (s.continueLines lines).stream.effects = shownErrors s.stream.effects := by
  have h := shownErrors_runLines lines s.stream
  unfold Session.continueLines
  rcases hr : runLines s.stream lines with ⟨st, _ | rest⟩ <;> rw [hr] at h <;> simpa using h

/-- The end of the call shows no notification. -/
theorem shownErrors_finish (s : Session) (ending : StreamEnd) :
    shownErrors (s.finish ending).stream.effects = shownErrors s.stream.effects := by
  have h := endOfStream_shownErrors s.stream ending
  simp only [Session.finish, shownErrors_append, h]
  simp [shownErrors]

/-- Neither a resumption nor a stop adds a notification to the effects of the call. -/
theorem shownErrors_step (s : Session) (a : Action) :
    shownErrors (s.step a).stream.effects = shownErrors s.stream.effects := by
  cases a with
  | stop => rfl
  | resume =>
    show shownErrors s.resume.stream.effects = _
    unfold Session.resume
    split
    · rfl
    · rw [shownErrors_continueLines]; simp [shownErrors_append, shownErrors]
    · split
      · exact shownErrors_finish _ _
      · split
        · rw [shownErrors_continueLines]
        · exact shownErrors_finish _ _

/-- No sequence of resumptions and stops adds a notification to the effects of the call. -/
theorem shownErrors_run (actions : List Action) (s : Session) :
    shownErrors (s.run actions).stream.effects = shownErrors s.stream.effects := by
  induction actions generalizing s with
  | nil => rfl
  | cons a rest ih => rw [Session.run_cons, ih, shownErrors_step]

/-- The world after an accepted `sendMessage`, assembled from its stages: the transcript
is that of the `try` block, the typing state is reset, and the effects are those of the four
stages in order. -/
theorem sendMessage_world (env : SendEnv) (w : World)
    (hinput : (trim w.ui.messageInput).isEmpty = false) (htyping : w.app.isTyping = false) :
    ∃ (added : List Effect) (bot : List ChatMessage) (reported saved : List Effect),
      (sendMessageTry env (sendMessageStart env w)).1.effects =
        (sendMessageStart env w).effects ++ added ∧
      shownErrors added = [] ∧
      bot.length ≤ 1 ∧
      (∀ m ∈ bot, m.role = .assistant ∧ m.timestamp = env.botTimestamp) ∧
      (sendMessageTry env (sendMessageStart env w)).1.app.chatHistory =
        w.app.chatHistory ++ [userMessage env w] ++ bot ∧
      shownErrors reported = catchReport (caughtError env w) ∧
      assistantRenders reported = [] ∧
      (∀ e ∈ saved, ∃ chatData, e = .saveChatToServer chatData) ∧
      (sendMessage env w).world.app.chatHistory =
        w.app.chatHistory ++ [userMessage env w] ++ bot ∧
      (sendMessage env w).world.app.isTyping = false ∧
      (sendMessage env w).world.app.isGenerating = false ∧
      (sendMessage env w).world.app.streamController = none ∧
      (sendMessage env w).world.ui.sendDisabled = false ∧
      newEffects env w = startEffects env w ++ added ++ reported ++ saved := by
  obtain ⟨happ, hui, -, saved, hsaved, hs⟩ := sendMessageFinally_world env
    (sendMessageCatch (sendMessageTry env (sendMessageStart env w)).1
      (sendMessageTry env (sendMessageStart env w)).2)
  obtain ⟨hcapp, -, -, reported, hrep, hr, hra⟩ := sendMessageCatch_world
    (sendMessageTry env (sendMessageStart env w)).1
    (sendMessageTry env (sendMessageStart env w)).2
  obtain ⟨added, bot, hadd, ha, htapp, hlen, hbot, -, -⟩ :=
    sendMessageTry_world env (sendMessageStart env w)
  have hhist : (sendMessageTry env (sendMessageStart env w)).1.app.chatHistory =
      w.app.chatHistory ++ [userMessage env w] ++ bot := by
    rw [htapp, sendMessageStart_app]; rfl
  refine ⟨added, bot, reported, saved, hadd, ha, hlen, hbot, hhist, hr, hra, hs, ?_, ?_, ?_, ?_,
    ?_, ?_⟩
  · rw [sendMessage_accepted env w hinput htyping, happ, hcapp]; exact hhist
  · rw [sendMessage_accepted env w hinput htyping, happ]
  · rw [sendMessage_accepted env w hinput htyping, happ]
  · rw [sendMessage_accepted env w hinput htyping, happ]
  · rw [sendMessage_accepted env w hinput htyping, hui]
  · unfold newEffects
    rw [sendMessage_accepted env w hinput htyping, hsaved, hrep, hadd,
      sendMessageStart_effects]
    simp only [List.append_assoc, List.drop_left]

/-- The final renders in two lists of effects. -/
theorem finalRenders_append (a b : List Effect) :
    finalRenders (a ++ b) = finalRenders a ++ finalRenders b := by
  simp [finalRenders, List.filterMap_append]

/-- Appending a fragment makes no final render. -/
theorem appendFragments_finalRenders (frags : List JSString) (st : StreamState) :
    finalRenders (frags.foldl appendFragment st).effects = finalRenders st.effects := by
  induction frags generalizing st with
  | nil => rfl
  | cons f rest ih =>
    rw [List.foldl_cons, ih]
    simp [appendFragment, finalRenders_append, finalRenders]

/-- The log of a rejected read is no final render. -/
theorem endOfStream_finalRenders (st : StreamState) (ending : StreamEnd) :
    finalRenders (endOfStream st ending).effects = finalRenders st.effects := by
  cases ending <;> simp [endOfStream, finalRenders, List.filterMap_append]

/-- The call makes its final render once, as its last effect. -/
theorem handleStreamingResponse_finalRenders (body : BodyStream) (timestamp : Nat)
    (content : JSString) :
    finalRenders (handleStreamingResponse body timestamp content).effects =
      [(handleStreamingResponse body timestamp content).content] ∧
    (handleStreamingResponse body timestamp content).effects.getLast? =
      some (.renderMarkdown (handleStreamingResponse body timestamp content).content) := by
  rw [handleStreamingResponse_eq]
  simp only []
  constructor
  · rw [finalRenders_append, endOfStream_finalRenders, appendFragments_finalRenders]
    simp [shownState, finalRenders]
  · simp

/-- The lines of a chunk make no final render, and the content they leave starts with the
content they found. -/
theorem runLines_finalRenders (lines : List JSString) (st : StreamState) :
    finalRenders (runLines st lines).1.effects = finalRenders st.effects ∧
    st.content <+: (runLines st lines).1.content := by
  induction lines generalizing st with
  | nil => exact ⟨rfl, List.prefix_refl _⟩
  | cons line rest ih =>
    unfold runLines
    cases hl : lineFragment line with
    | none => exact ih st
    | some newContent =>
      exact ⟨by simp [finalRenders_append, finalRenders], List.prefix_append _ _⟩

/-- The `for` loop makes no final render, does not return, and only appends to the content. -/
theorem continueLines_finalRenders (s : Session) (lines : List JSString) :
    finalRenders (s.continueLines lines).stream.effects = finalRenders s.stream.effects ∧
    (s.continueLines lines).phase ≠ .returned ∧
    s.stream.content <+: (s.continueLines lines).stream.content := by
  have h := runLines_finalRenders lines s.stream
  unfold Session.continueLines
  rcases hr : runLines s.stream lines with ⟨st, _ | rest⟩ <;> rw [hr] at h <;>
    exact ⟨by simpa using h.1, by simp, by simpa using h.2⟩

/-- The end of the call makes the final render, of the content, and returns. -/
theorem finish_finalRenders (s : Session) (ending : StreamEnd) :
    finalRenders (s.finish ending).stream.effects =
      finalRenders s.stream.effects ++ [s.stream.content] ∧
    (s.finish ending).phase = .returned ∧
    (s.finish ending).stream.content = s.stream.content := by
  have h := endOfStream_finalRenders s.stream ending
  refine ⟨?_, rfl, ?_⟩
  · simp only [Session.finish, finalRenders_append, h, endOfStream_content]
    simp [finalRenders]
  · simp [Session.finish, endOfStream_content]

/-- A resumption or a stop keeps the final render tied to the return. -/
theorem rendersOnReturn_step (s : Session) (a : Action) (h : s.RendersOnReturn) :
    (s.step a).RendersOnReturn := by
  cases a with
  | stop => exact h
  | resume =>
    show s.resume.RendersOnReturn
    unfold Session.RendersOnReturn at h ⊢
    unfold Session.resume
    split
    · exact h
    · next pending hp =>
      obtain ⟨h1, h2, -⟩ := continueLines_finalRenders
        { s with stream := { s.stream with effects := s.stream.effects ++ [.scrollToBottom] } }
        pending
      rw [h1, if_neg h2]
      simp only [finalRenders_append, h, hp]
      simp [finalRenders]
    · next hp =>
      have h0 : finalRenders s.stream.effects = [] := by simpa [hp] using h
      split
      · obtain ⟨h1, h2, h3⟩ := finish_finalRenders s
          (.failed ⟨utf16 "AbortError", s.abortMessage⟩)
        rw [h1, if_pos h2, h3, h0]; rfl
      · split
        · next chunk more hu =>
          obtain ⟨h1, h2, -⟩ := continueLines_finalRenders { s with unread := more }
            (splitLines chunk)
          rw [h1, if_neg h2]; exact h0
        · obtain ⟨h1, h2, h3⟩ := finish_finalRenders s s.ending
          rw [h1, if_pos h2, h3, h0]; rfl

/-- Any sequence of resumptions and stops keeps the final render tied to the return. -/
theorem rendersOnReturn_run (actions : List Action) (s : Session) (h : s.RendersOnReturn) :
    (s.run actions).RendersOnReturn := by
  induction actions generalizing s with
  | nil => exact h
  | cons a rest ih => rw [Session.run_cons]; exact ih _ (rendersOnReturn_step s a h)

/-- A resumption or a stop only appends to the content. -/
theorem content_prefix_step (s : Session) (a : Action) :
    s.stream.content <+: (s.step a).stream.content := by
  cases a with
  | stop => exact List.prefix_refl _
  | resume =>
    show _ <+: s.resume.stream.content
    unfold Session.resume
    split
    · exact List.prefix_refl _
    · next pending hp =>
      exact (continueLines_finalRenders
        { s with stream := { s.stream with effects := s.stream.effects ++ [.scrollToBottom] } }
        pending).2.2
    · split
      · rw [(finish_finalRenders s _).2.2]
      · split
        · next chunk more hu =>
          exact (continueLines_finalRenders { s with unread := more } (splitLines chunk)).2.2
        · rw [(finish_finalRenders s _).2.2]

/-- Any sequence of resumptions and stops only appends to the content. -/
theorem content_prefix_run (actions : List Action) (s : Session) :
    s.stream.content <+: (s.run actions).stream.content := by
  induction actions generalizing s with
  | nil => exact List.prefix_refl _
  | cons a rest ih =>
    rw [Session.run_cons]
    exact (content_prefix_step s a).trans (ih _)

/-- The `try` block on the single-shot path with an OK response whose JSON has been
parsed. -/
theorem sendMessageTry_singleShot (env : SendEnv) (w : World) (response : Response)
    (data : JsonValue) (hstream : w.app.isStreaming = false)
    (hfetch : env.fetchResult = .ok response) (hok : response.ok = true)
    (hjson : responseJson response.body env.syntaxErrorMessage = .ok data) :
    sendMessageTry env w =
      match readMessageContent data with
      | .throw =>
        (w.pushMessage ⟨.assistant, some (.string []), env.botTimestamp⟩,
          some ⟨utf16 "TypeError", env.typeErrorMessage⟩)
      | .normal (some (.string c)) =>
        ((setBotContent (some (.string c))
            (w.pushMessage ⟨.assistant, some (.string []), env.botTimestamp⟩)).emit
          (.displayMessage ⟨.assistant, some (.string c), env.botTimestamp⟩), none)
      | .normal content =>
        (setBotContent content
            (w.pushMessage ⟨.assistant, some (.string []), env.botTimestamp⟩),
          some ⟨utf16 "Error", env.renderErrorMessage⟩) := by
  simp only [sendMessageTry, hfetch, hok, World.pushMessage, hstream, hjson]
  cases hr : readMessageContent data with
  | throw => simp
  | normal content =>
    rcases content with _ | v
    · simp
    · cases v <;> simp

/-- The renders of the assistant message in an accepted `sendMessage` are those of its `try`
block. -/
theorem assistantRenders_newEffects (env : SendEnv) (w : World) (added : List Effect)
    (hinput : (trim w.ui.messageInput).isEmpty = false) (htyping : w.app.isTyping = false)
    (hadded : (sendMessageTry env (sendMessageStart env w)).1.effects =
      (sendMessageStart env w).effects ++ added) :
    assistantRenders (newEffects env w) = assistantRenders added := by
  obtain ⟨added', _, reported, saved, hadd, -, -, -, -, -, hrep, hsaved, -, -, -, -, -, hnew⟩ :=
    sendMessage_world env w hinput htyping
  have he : added = added' := List.append_cancel_left (hadded.symm.trans hadd)
  rw [hnew, ← he]
  simp only [assistantRenders_append, assistantRenders_startEffects, hrep,
    assistantRenders_saved saved hsaved, List.nil_append, List.append_nil]

/-- The `finally` block that does not throw, the transcript not being empty, adds to the
effects the request that saves the transcript. -/
theorem sendMessageFinally_saved (env : SendEnv) (w : World)
    (h : (sendMessageFinally env w).rejected = none) (hne : w.app.chatHistory ≠ []) :
    ∃ title, (sendMessageFinally env w).world.effects = w.effects ++
      [.saveChatToServer
        { id := w.app.currentChatId, title := title, messages := w.app.chatHistory,
          username := w.app.currentUser }] := by
  have hlen : 0 < w.app.chatHistory.length := List.length_pos.mpr hne
  unfold sendMessageFinally at h ⊢
  simp only [] at h ⊢
  unfold saveCurrentChat at h ⊢
  simp only [World.setController, World.setGenerating, setTypingState, hlen, if_true] at h ⊢
  split at h
  · next w2 hw =>
    split at hw
    · cases hw
    · next title ht =>
      cases hw
      exact ⟨title, by simp [ht, World.emit]⟩
  · cases h

/-- The loop only reads. -/
theorem readLoopCalls_eq (chunks : List JSString) :
    readLoopCalls chunks = List.replicate (chunks.length + 1) .read := by
  induction chunks with
  | nil => rfl
  | cons c more ih => simp [readLoopCalls, ih, List.replicate_succ]

/-- Reads leave the lock as it is. -/
theorem foldl_read_locked (n : Nat) (locked : Bool) :
    (List.replicate n ReaderCall.read).foldl
      (fun locked call =>
        match call with
        | .getReader => true
        | .releaseLock => false
        | _ => locked)
      locked = locked := by
  induction n with
  | zero => rfl
  | succ n ih => simpa [List.replicate_succ] using ih

/-- Replacing one element changes the count by that element. -/
theorem countP_set {α : Type} (p : α → Bool) (l : List α) (i : Nat) (a b : α)
    (h : l[i]? = some a) :
    (l.set i b).countP p + (if p a then 1 else 0) = l.countP p + (if p b then 1 else 0) := by
  induction l generalizing i with
  | nil => simp at h
  | cons x rest ih =>
    cases i with
    | zero =>
      simp only [List.getElem?_cons_zero, Option.some.injEq] at h
      subst h
      simp only [List.set_cons_zero, List.countP_cons]
      omega
    | succ n =>
      simp only [List.getElem?_cons_succ] at h
      have := ih n h
      simp only [List.set_cons_succ, List.countP_cons]
      omega

/-- An execution that ends is no longer in progress. -/
theorem finish_isActive (task : SendTask) (w : World) (thrown : Option JSError) :
    (task.finish w thrown).2.isActive = false := rfl

/-- An execution that goes on leaves the typing state as it is. -/
theorem settle_isTyping (task : SendTask) (w : World)
    (h : (task.settle w).2.isActive = true) :
    (task.settle w).1.app.isTyping = w.app.isTyping := by
  cases hp : task.phase with
  | awaitingFetch =>
    simp only [SendTask.settle, hp] at h ⊢
    unfold SendTask.afterFetch at h ⊢
    split at h
    · simp [finish_isActive] at h
    · next ha =>
      rw [if_neg ha]
      split at h
      · simp [finish_isActive] at h
      · next response hf =>
        simp only [hf]
        split at h
        · simp [finish_isActive] at h
        · next hok =>
          rw [if_neg hok]
          simp only [] at h ⊢
          split at h
          · next hs =>
            rw [if_pos hs]
            split at h
            · simp [finish_isActive] at h
            · next body hb => simp only [hb]; rfl
          · next hs => rw [if_neg hs]; rfl
  | awaitingJson body botIndex =>
    simp only [SendTask.settle, hp] at h ⊢
    exfalso
    unfold SendTask.afterJson at h
    split at h
    · simp [finish_isActive] at h
    · split at h
      · simp [finish_isActive] at h
      · split at h
        · simp [finish_isActive] at h
        · split at h <;> simp [finish_isActive] at h
  | streaming session botIndex =>
    simp only [SendTask.settle, hp] at h ⊢
    unfold SendTask.afterStream at h ⊢
    simp only [] at h ⊢
    split at h
    · simp [finish_isActive] at h
    · rfl
  | finished rejected =>
    simp only [SendTask.settle, hp]

/-- An execution that has ended is not changed by a settlement. -/
theorem settle_finished (task : SendTask) (w : World) (h : task.isActive = false) :
    task.settle w = (w, task) := by
  cases hp : task.phase with
  | finished rejected => simp only [SendTask.settle, hp]
  | awaitingFetch => simp [SendTask.isActive, hp] at h
  | awaitingJson body botIndex => simp [SendTask.isActive, hp] at h
  | streaming session botIndex => simp [SendTask.isActive, hp] at h

/-- An event other than a stop keeps the executions exclusive. -/
theorem exclusive_step (m : Machine) (e : Event) (hstop : e.isStop = false)
    (h : m.Exclusive) : (m.step e).Exclusive := by
  cases e with
  | stop => cases hstop
  | input value => exact h
  | send env abortMessage =>
    simp only [Machine.step]
    split
    · exact h
    · next hg =>
      have ht : m.world.app.isTyping = false := by
        cases hb : m.world.app.isTyping
        · rfl
        · simp [hb] at hg
      have h0 : m.activeCount = 0 := by
        rcases h with h | ⟨-, h⟩
        · exact h
        · rw [ht] at h; cases h
      right
      refine ⟨?_, by simp only [sendMessageStart_app]⟩
      unfold Machine.activeCount at h0 ⊢
      simp only [List.countP_append, h0]
      rfl
  | settle index =>
    simp only [Machine.step]
    cases hi : m.tasks[index]? with
    | none => exact h
    | some task =>
      simp only []
      cases ha : task.isActive with
      | false =>
        rw [settle_finished task m.world ha]
        have hs : m.tasks.set index task = m.tasks := by
          apply List.ext_getElem?
          intro n
          by_cases hn : index = n
          · subst hn
            rw [List.getElem?_set_self', hi]; simp
          · rw [List.getElem?_set_ne hn]
        simp only [hs]
        exact h
      | true =>
        have hc := countP_set SendTask.isActive m.tasks index task (task.settle m.world).2 hi
        rw [ha] at hc
        simp only [if_true] at hc
        have hpos : 0 < m.tasks.countP SendTask.isActive :=
          List.countP_pos_iff.mpr ⟨task, List.getElem?_mem hi, ha⟩
        have h1 : m.activeCount = 1 ∧ m.world.app.isTyping = true := by
          rcases h with h | h
          · unfold Machine.activeCount at h; omega
          · exact h
        unfold Machine.activeCount at h1
        cases hb : (task.settle m.world).2.isActive with
        | false =>
          left
          unfold Machine.activeCount
          rw [hb] at hc
          simp only [Bool.false_eq_true, if_false] at hc
          simp only []
          omega
        | true =>
          right
          unfold Machine.activeCount
          rw [hb] at hc
          simp only [if_true] at hc
          refine ⟨by simp only []; omega, ?_⟩
          simp only []
          rw [settle_isTyping task m.world hb]
          exact h1.2

/-- Without a stop, at most one execution of `sendMessage` is in progress at any time, and
the typing state is set while one is. -/
theorem exclusive_without_stop (events : List Event) (m : Machine)
    (hstop : events.all (fun e => !e.isStop) = true) (h : m.Exclusive) :
    (m.run events).Exclusive := by
  induction events generalizing m with
  | nil => exact h
  | cons e rest ih =>
    simp only [List.all_cons, Bool.and_eq_true, Bool.not_eq_true'] at hstop
    exact ih (m.step e) (by simpa using hstop.2) (exclusive_step m e hstop.1 h)

/-- The chat requests in two lists of effects. -/
theorem chatRequests_append (a b : List Effect) :
    chatRequests (a ++ b) = chatRequests a ++ chatRequests b := by
  simp [chatRequests, List.filterMap_append]

/-- Appending fragments issues no chat request. -/
theorem appendFragments_chatRequests (frags : List JSString) (st : StreamState) :
    chatRequests (frags.foldl appendFragment st).effects = chatRequests st.effects := by
  induction frags generalizing st with
  | nil => rfl
  | cons f rest ih =>
    rw [List.foldl_cons, ih]
    simp [appendFragment, chatRequests_append, chatRequests]

/-- The streaming call issues no chat request. -/
theorem handleStreamingResponse_chatRequests (body : BodyStream) (timestamp : Nat)
    (content : JSString) :
    chatRequests (handleStreamingResponse body timestamp content).effects = [] := by
  rw [handleStreamingResponse_eq]
  simp only []
  rw [chatRequests_append]
  have h : ∀ (st : StreamState) (ending : StreamEnd),
      chatRequests (endOfStream st ending).effects = chatRequests st.effects := by
    intro st ending
    cases ending <;> simp [endOfStream, chatRequests, List.filterMap_append]
  rw [h, appendFragments_chatRequests]
  simp [shownState, chatRequests]

/-- The `try` block after `fetch` has settled issues no chat request. -/
theorem sendMessageTry_chatRequests (env : SendEnv) (w : World) :
    ∃ added, (sendMessageTry env w).1.effects = w.effects ++ added ∧
      chatRequests added = [] := by
  unfold sendMessageTry
  cases hf : env.fetchResult with
  | error e => exact ⟨[], by simp, rfl⟩
  | ok response =>
    simp only []
    by_cases hok : response.ok = true
    · simp only [hok, Bool.not_true, Bool.false_eq_true, if_false]
      by_cases hs : (w.pushMessage ⟨.assistant, some (.string []), env.botTimestamp⟩).app.isStreaming = true
      · simp only [hs, if_true]
        cases hb : response.body with
        | none =>
          exact ⟨[.displayMessage ⟨.assistant, some (.string []), env.botTimestamp⟩],
            by simp [World.emit, World.pushMessage], by simp [chatRequests]⟩
        | some body =>
          exact ⟨(handleStreamingResponse body env.botTimestamp []).effects,
            by simp [setBotContent, World.pushMessage],
            handleStreamingResponse_chatRequests _ _ _⟩
      · simp only [hs, Bool.false_eq_true, if_false]
        cases hj : responseJson response.body env.syntaxErrorMessage with
        | error e => exact ⟨[], by simp [World.pushMessage], rfl⟩
        | ok data =>
          simp only []
          cases hr : readMessageContent data with
          | throw => exact ⟨[], by simp [World.pushMessage], rfl⟩
          | normal content =>
            simp only []
            split
            · next c =>
              exact ⟨[.displayMessage ⟨.assistant, some (.string c), env.botTimestamp⟩],
                by simp [World.emit, setBotContent, World.pushMessage], by simp [chatRequests]⟩
            · exact ⟨[], by simp [setBotContent, World.pushMessage], rfl⟩
    · have hok' : response.ok = false := by simpa using hok
      rw [hok']
      exact ⟨[], by simp, rfl⟩

/-- The `catch` block issues no chat request. -/
theorem sendMessageCatch_chatRequests (w : World) (thrown : Option JSError) :
    ∃ reported, (sendMessageCatch w thrown).effects = w.effects ++ reported ∧
      chatRequests reported = [] := by
  cases thrown with
  | none => exact ⟨[], by simp [sendMessageCatch], rfl⟩
  | some error =>
    by_cases h : error.name = utf16 "AbortError"
    · exact ⟨[], by simp [sendMessageCatch, h], rfl⟩
    · exact ⟨[.showError (utf16 "Error: " ++ error.message) (utf16 "error")],
        by simp [sendMessageCatch, h, World.emit], by simp [chatRequests]⟩

/-- Saving the chat issues no chat request. -/
theorem chatRequests_saved (saved : List Effect)
    (h : ∀ e ∈ saved, ∃ chatData, e = .saveChatToServer chatData) :
    chatRequests saved = [] := by
  induction saved with
  | nil => rfl
  | cons e rest ih =>
    obtain ⟨chatData, rfl⟩ := h e (by simp)
    have := ih (fun e he => h e (by simp [he]))
    simpa [chatRequests] using this

/-- The chat requests of an accepted `sendMessage` are those of its start. -/
theorem chatRequests_newEffects (env : SendEnv) (w : World)
    (hinput : (trim w.ui.messageInput).isEmpty = false) (htyping : w.app.isTyping = false) :
    chatRequests (newEffects env w) = chatRequests (startEffects env w) := by
  obtain ⟨-, -, -, saved, hsaved, hs⟩ := sendMessageFinally_world env
    (sendMessageCatch (sendMessageTry env (sendMessageStart env w)).1
      (sendMessageTry env (sendMessageStart env w)).2)
  obtain ⟨reported, hrep, hr⟩ := sendMessageCatch_chatRequests
    (sendMessageTry env (sendMessageStart env w)).1
    (sendMessageTry env (sendMessageStart env w)).2
  obtain ⟨added, hadd, ha⟩ := sendMessageTry_chatRequests env (sendMessageStart env w)
  unfold newEffects
  rw [sendMessage_accepted env w hinput htyping, hsaved, hrep, hadd, sendMessageStart_effects]
  simp only [List.append_assoc, List.drop_left, chatRequests_append, ha, hr,
    chatRequests_saved saved hs, List.append_nil]

/-- The response to the request sends no request. -/
theorem registerRequests_registerResponse (env : RegisterEnv) (username : JSString) :
    registerRequests (registerResponse env username) = [] := by
  unfold registerResponse
  cases env.fetchResult with
  | error error => rfl
  | ok response =>
    simp only []
    cases response.ok <;> cases response.json <;>
      simp [registerRequests, connectionError, List.filterMap_append]
    split <;> simp [connectionError]

/-- Effects without a render of the assistant message hold no final render. -/
theorem finalRenders_of_assistantRenders (effects : List Effect)
    (h : assistantRenders effects = []) : finalRenders effects = [] := by
  induction effects with
  | nil => rfl
  | cons e rest ih =>
    cases e <;> simp_all [assistantRenders, finalRenders, List.filter_cons]
    all_goals split at h <;> simp_all

/-- The final renders of an accepted `sendMessage` are those of its `try` block. -/
theorem finalRenders_newEffects (env : SendEnv) (w : World) (added : List Effect)
    (hinput : (trim w.ui.messageInput).isEmpty = false) (htyping : w.app.isTyping = false)
    (hadded : (sendMessageTry env (sendMessageStart env w)).1.effects =
      (sendMessageStart env w).effects ++ added) :
    finalRenders (newEffects env w) = finalRenders added := by
  obtain ⟨added', _, reported, saved, hadd, -, -, -, -, -, hrep, hsaved, -, -, -, -, -, hnew⟩ :=
    sendMessage_world env w hinput htyping
  have he : added = added' := List.append_cancel_left (hadded.symm.trans hadd)
  rw [hnew, ← he]
  simp only [finalRenders_append,
    finalRenders_of_assistantRenders _ (assistantRenders_startEffects env w),
    finalRenders_of_assistantRenders _ hrep,
    finalRenders_of_assistantRenders _ (assistantRenders_saved saved hsaved),
    List.nil_append, List.append_nil]

/-- Replacing an element keeps the length. -/
theorem updateAt_length {α : Type} (f : α → α) (i : Nat) (l : List α) :
    (updateAt f i l).length = l.length := by
  induction l generalizing i with
  | nil => cases i <;> rfl
  | cons a rest ih =>
    cases i with
    | zero => rfl
    | succ n => simp [updateAt, ih]

/-- The element replaced. -/
theorem updateAt_getElem?_self {α : Type} (f : α → α) (i : Nat) (l : List α) :
    (updateAt f i l)[i]? = l[i]?.map f := by
  induction l generalizing i with
  | nil => cases i <;> rfl
  | cons a rest ih =>
    cases i with
    | zero => simp [updateAt]
    | succ n => simpa [updateAt] using ih n

/-- The elements not replaced. -/
theorem updateAt_getElem?_ne {α : Type} (f : α → α) (i j : Nat) (l : List α) (h : j ≠ i) :
    (updateAt f i l)[j]? = l[j]? := by
  induction l generalizing i j with
  | nil => cases i <;> rfl
  | cons a rest ih =>
    cases i with
    | zero =>
      cases j with
      | zero => exact absurd rfl h
      | succ m => simp [updateAt]
    | succ n =>
      cases j with
      | zero => simp [updateAt]
      | succ m => simpa [updateAt] using ih n m (by omega)

/-- The `catch` and `finally` blocks leave the transcript, the chat id and the user as they
are. -/
theorem finish_app (task : SendTask) (w : World) (thrown : Option JSError) :
    (task.finish w thrown).1.app.chatHistory = w.app.chatHistory ∧
    (task.finish w thrown).1.app.currentChatId = w.app.currentChatId ∧
    (task.finish w thrown).1.app.currentUser = w.app.currentUser := by
  obtain ⟨happ, -⟩ := sendMessageFinally_world task.env (sendMessageCatch w thrown)
  obtain ⟨hcapp, -⟩ := sendMessageCatch_world w thrown
  simp only [SendTask.finish]
  rw [happ, hcapp]
  exact ⟨rfl, rfl, rfl⟩

/-- The execution that ends without a rejection, the transcript not being empty, has made as
its last effect the request that saves the transcript. -/
theorem finish_saved (task : SendTask) (w : World) (thrown : Option JSError)
    (h : (task.finish w thrown).2.phase = .finished none) (hne : w.app.chatHistory ≠ []) :
    ∃ title, (task.finish w thrown).1.effects.getLast? =
      some (.saveChatToServer
        { id := w.app.currentChatId, title := title, messages := w.app.chatHistory,
          username := w.app.currentUser }) := by
  obtain ⟨hcapp, -⟩ := sendMessageCatch_world w thrown
  have hrej : (sendMessageFinally task.env (sendMessageCatch w thrown)).rejected = none := by
    simp only [SendTask.finish] at h
    injection h
  obtain ⟨title, ht⟩ := sendMessageFinally_saved task.env (sendMessageCatch w thrown) hrej
    (by rw [hcapp]; exact hne)
  refine ⟨title, ?_⟩
  simp only [SendTask.finish]
  rw [ht, hcapp]
  simp

/-- The assignment to `botMessage.content`, the message object being in the transcript,
followed or not by the end of the execution: the message has the new content, no other
message has changed, and an execution that ends without a rejection has made as its last
effect the request that saves that transcript. -/
theorem setContentAt_finish (task : SendTask) (v : World) (botIndex : Nat) (content : JSValue)
    (hb : botIndex < v.app.chatHistory.length) :
    (v.setContentAt botIndex content).app.chatHistory[botIndex]?.map ChatMessage.content =
      some content ∧
    (∀ j, j ≠ botIndex →
      (v.setContentAt botIndex content).app.chatHistory[j]? = v.app.chatHistory[j]?) ∧
    (task.finish (v.setContentAt botIndex content) none).1.app.chatHistory =
      (v.setContentAt botIndex content).app.chatHistory ∧
    ((task.finish (v.setContentAt botIndex content) none).2.phase = .finished none →
      ∃ title, (task.finish (v.setContentAt botIndex content) none).1.effects.getLast? =
        some (.saveChatToServer
          { id := v.app.currentChatId
            title := title
            messages := (task.finish (v.setContentAt botIndex content) none).1.app.chatHistory
            username := v.app.currentUser })) := by
  have hset : (v.setContentAt botIndex content).app.chatHistory =
      updateAt (fun m => { m with content := content }) botIndex v.app.chatHistory := rfl
  have hlen := updateAt_length (fun m : ChatMessage => { m with content := content }) botIndex
    v.app.chatHistory
  obtain ⟨f1, -, -⟩ := finish_app task (v.setContentAt botIndex content) none
  refine ⟨?_, ?_, f1, ?_⟩
  · rw [hset, updateAt_getElem?_self]
    obtain ⟨m, hm⟩ : ∃ m, v.app.chatHistory[botIndex]? = some m :=
      ⟨_, List.getElem?_eq_getElem hb⟩
    rw [hm]; rfl
  · intro j hj
    rw [hset]; exact updateAt_getElem?_ne _ _ _ _ hj
  · intro hfin
    obtain ⟨title, ht⟩ := finish_saved task _ none hfin (by
      intro h0
      rw [hset] at h0
      rw [h0] at hlen
      simp at hlen
      omega)
    exact ⟨title, by rw [ht, f1]; rfl⟩

/-- A settlement inside `handleStreamingResponse`, the message object being in the
transcript: the content of the call has the earlier content as a prefix, the message object
has the new content and no other message has changed; the execution ends exactly when the
call returns, and when it ends without a rejection its last effect is the request that saves
the transcript holding that message. -/
theorem settle_streaming (task : SendTask) (w : World) (session : Session) (botIndex : Nat)
    (hp : task.phase = .streaming session botIndex)
    (hb : botIndex < w.app.chatHistory.length) :
    session.stream.content <+: (Session.resume { session with world := w }).stream.content ∧
    (task.settle w).1.app.chatHistory[botIndex]?.map ChatMessage.content =
      some (some (.string (Session.resume { session with world := w }).stream.content)) ∧
    (∀ j, j ≠ botIndex → (task.settle w).1.app.chatHistory[j]? = w.app.chatHistory[j]?) ∧
    ((task.settle w).2.isActive = false ↔
      (Session.resume { session with world := w }).phase = .returned) ∧
    ((task.settle w).2.phase = .finished none →
      ∃ title, (task.settle w).1.effects.getLast? =
        some (.saveChatToServer
          { id := w.app.currentChatId
            title := title
            messages := (task.settle w).1.app.chatHistory
            username := w.app.currentUser })) := by
  have hpre := content_prefix_step { session with world := w } .resume
  refine ⟨hpre, ?_⟩
  simp only [SendTask.settle, hp, SendTask.afterStream]
  cases hr : (Session.resume { session with world := w }).phase with
  | returned =>
    simp only []
    obtain ⟨g1, g2, g3, g4⟩ := setContentAt_finish task
      { w with effects := w.effects ++ List.drop session.stream.effects.length (Session.resume { session with world := w }).stream.effects }
      botIndex (some (.string (Session.resume { session with world := w }).stream.content)) hb
    refine ⟨?_, ?_, by simp [finish_isActive], g4⟩
    · rw [g3]; exact g1
    · intro j hj
      rw [g3]; exact g2 j hj
  | awaitingRead =>
    simp only []
    obtain ⟨g1, g2, -, -⟩ := setContentAt_finish task
      { w with effects := w.effects ++ List.drop session.stream.effects.length (Session.resume { session with world := w }).stream.effects }
      botIndex (some (.string (Session.resume { session with world := w }).stream.content)) hb
    exact ⟨g1, g2, by simp [SendTask.isActive], fun hfin => by cases hfin⟩
  | awaitingDelay pending =>
    simp only []
    obtain ⟨g1, g2, -, -⟩ := setContentAt_finish task
      { w with effects := w.effects ++ List.drop session.stream.effects.length (Session.resume { session with world := w }).stream.effects }
      botIndex (some (.string (Session.resume { session with world := w }).stream.content)) hb
    exact ⟨g1, g2, by simp [SendTask.isActive], fun hfin => by cases hfin⟩

/-- An execution that has ended holds no message object. -/
theorem finish_botIndex (task : SendTask) (w : World) (thrown : Option JSError) :
    (task.finish w thrown).2.botIndex? = none := rfl

/-- A settlement does not shorten the transcript, and the message object of the execution,
if it holds one afterwards, is in the transcript. -/
theorem settle_wellIndexed (task : SendTask) (w : World)
    (h : ∀ b, task.botIndex? = some b → b < w.app.chatHistory.length) :
    w.app.chatHistory.length ≤ (task.settle w).1.app.chatHistory.length ∧
    ∀ b, (task.settle w).2.botIndex? = some b →
      b < (task.settle w).1.app.chatHistory.length := by
  have hfin : ∀ (v : World) (thrown : Option JSError),
      w.app.chatHistory.length ≤ v.app.chatHistory.length →
      w.app.chatHistory.length ≤ (task.finish v thrown).1.app.chatHistory.length ∧
      ∀ b, (task.finish v thrown).2.botIndex? = some b →
        b < (task.finish v thrown).1.app.chatHistory.length := by
    intro v thrown hv
    refine ⟨by rw [(finish_app task v thrown).1]; exact hv, ?_⟩
    intro b hb
    rw [finish_botIndex] at hb
    cases hb
  cases hp : task.phase with
  | awaitingFetch =>
    simp only [SendTask.settle, hp, SendTask.afterFetch]
    split
    · exact hfin w _ (Nat.le_refl _)
    · split
      · exact hfin w _ (Nat.le_refl _)
      · split
        · exact hfin w _ (Nat.le_refl _)
        · split
          · split
            · exact hfin _ _ (by simp [World.emit, World.pushMessage])
            · refine ⟨by simp [World.pushMessage], ?_⟩
              intro b hb
              simp only [SendTask.botIndex?, Option.some.injEq] at hb
              subst hb
              simp [World.pushMessage]
          · refine ⟨by simp [World.pushMessage], ?_⟩
            intro b hb
            simp only [SendTask.botIndex?, Option.some.injEq] at hb
            subst hb
            simp [World.pushMessage]
  | awaitingJson body botIndex =>
    have hlen : ∀ content : JSValue,
        (w.setContentAt botIndex content).app.chatHistory.length =
          w.app.chatHistory.length := fun content => updateAt_length _ _ _
    simp only [SendTask.settle, hp, SendTask.afterJson]
    split
    · exact hfin w _ (Nat.le_refl _)
    · split
      · exact hfin w _ (Nat.le_refl _)
      · split
        · exact hfin w _ (Nat.le_refl _)
        · split
          · exact hfin _ _ (by simp only [World.emit]; rw [hlen])
          · exact hfin _ _ (by rw [hlen])
  | streaming session botIndex =>
    have hb := h botIndex (by simp [SendTask.botIndex?, hp])
    have hlen : ∀ (v : World) (content : JSValue),
        (v.setContentAt botIndex content).app.chatHistory.length =
          v.app.chatHistory.length := fun v content => updateAt_length _ _ _
    simp only [SendTask.settle, hp, SendTask.afterStream]
    split
    · exact hfin _ _ (by rw [hlen])
    · refine ⟨by rw [hlen], ?_⟩
      intro b hb'
      simp only [SendTask.botIndex?, Option.some.injEq] at hb'
      subst hb'
      rw [hlen]
      exact hb
  | finished rejected =>
    simp only [SendTask.settle, hp]
    exact ⟨Nat.le_refl _, fun b hb => h b hb⟩

/-- Stopping the generation leaves the transcript as it is. -/
theorem stopGeneration_chatHistory (w : World) :
    (UIManager.stopGeneration w).app.chatHistory = w.app.chatHistory := by
  unfold UIManager.stopGeneration AppState.stopGeneration
  cases h : w.app.streamController <;> simp [setTypingState, World.emit]

/-- Every event keeps the message objects of the executions in the transcript. -/
theorem wellIndexed_step (m : Machine) (e : Event) (h : m.WellIndexed) :
    (m.step e).WellIndexed := by
  cases e with
  | input value => exact h
  | stop =>
    intro task ht b hb
    have := h task ht b hb
    simp only [Machine.step]
    rw [stopGeneration_chatHistory]
    exact this
  | send env abortMessage =>
    simp only [Machine.step]
    split
    · exact h
    · intro task ht b hb
      simp only [List.mem_append, List.mem_singleton] at ht
      simp only [sendMessageStart_app, List.length_append, List.length_singleton]
      rcases ht with ht | rfl
      · exact Nat.lt_succ_of_lt (h task ht b hb)
      · simp [SendTask.botIndex?] at hb
  | settle index =>
    simp only [Machine.step]
    cases hi : m.tasks[index]? with
    | none => exact h
    | some task =>
      simp only []
      obtain ⟨hlen, hnew⟩ := settle_wellIndexed task m.world
        (fun b hb => h task (List.getElem?_mem hi) b hb)
      intro t ht b hb
      simp only []
      rcases List.mem_or_eq_of_mem_set ht with ht | rfl
      · exact Nat.lt_of_lt_of_le (h t ht b hb) hlen
      · exact hnew b hb

/-- In every run from a state without executions in progress, the message objects of the
executions are in the transcript. -/
theorem wellIndexed_run (events : List Event) (m : Machine) (h : m.WellIndexed) :
    (m.run events).WellIndexed := by
  induction events generalizing m with
  | nil => exact h
  | cons e rest ih => exact ih (m.step e) (wellIndexed_step m e h)

/-! ## Properties -/

/-- C1, counterexample: a frame cut inside its JSON text is lost. The frame
`data: {"choices":[{"delta":{"content":"He"}}]}` followed by a line feed gives the fragment
`He` when it arrives as one chunk and no fragment when it arrives cut after `"con`. -/
theorem C1_cut_inside_frame_loses_fragment :
    [utf16 "data: \x7b\"choices\":[\x7b\"delta\":\x7b\"con",
      utf16 "tent\":\"He\"\x7d\x7d]\x7d\n"].flatten
      = utf16 "data: \x7b\"choices\":[\x7b\"delta\":\x7b\"content\":\"He\"\x7d\x7d]\x7d\n" ∧
    extractedFragments [utf16 "data: \x7b\"choices\":[\x7b\"delta\":\x7b\"con",
      utf16 "tent\":\"He\"\x7d\x7d]\x7d\n"] = [] ∧
    extractedFragments
      [utf16 "data: \x7b\"choices\":[\x7b\"delta\":\x7b\"content\":\"He\"\x7d\x7d]\x7d\n"]
      = [utf16 "He"] ∧
    (handleStreamingResponse ⟨[utf16 "data: \x7b\"choices\":[\x7b\"delta\":\x7b\"con",
      utf16 "tent\":\"He\"\x7d\x7d]\x7d\n"], .done⟩ 0 []).content = [] ∧
    (handleStreamingResponse
      ⟨[utf16 "data: \x7b\"choices\":[\x7b\"delta\":\x7b\"content\":\"He\"\x7d\x7d]\x7d\n"],
        .done⟩ 0 []).content = utf16 "He" := by
  decide

/-- C1, amended: when every chunk but the last is empty or ends with a line feed, the
fragments extracted from the chunk sequence, and the texts of the incremental renders, are
those of the same text delivered as a single chunk. -/
theorem C1_fragments_when_cut_after_newlines (chunks : List JSString)
    (h : cutsAfterNewlines chunks = true) (ending : StreamEnd) (timestamp : Nat)
    (content : JSString) :
    extractedFragments chunks = extractedFragments [chunks.flatten] ∧
    realTimeRenders (handleStreamingResponse ⟨chunks, ending⟩ timestamp content).effects =
      realTimeRenders
        (handleStreamingResponse ⟨[chunks.flatten], ending⟩ timestamp content).effects := by
  have h1 : extractedFragments chunks = extractedFragments [chunks.flatten] := by
    rw [extractedFragments_flatten chunks h]
    simp [extractedFragments]
  exact ⟨h1, by rw [handleStreamingResponse_renders, handleStreamingResponse_renders, h1]⟩

/-- C1, witness: two frames, each in its own chunk. -/
theorem C1_fragments_when_cut_after_newlines_witness :
    cutsAfterNewlines
      [utf16 "data: \x7b\"choices\":[\x7b\"delta\":\x7b\"content\":\"He\"\x7d\x7d]\x7d\n",
       utf16 "data: \x7b\"choices\":[\x7b\"delta\":\x7b\"content\":\"llo\"\x7d\x7d]\x7d\n"]
      = true ∧
    extractedFragments
      [utf16 "data: \x7b\"choices\":[\x7b\"delta\":\x7b\"content\":\"He\"\x7d\x7d]\x7d\n",
       utf16 "data: \x7b\"choices\":[\x7b\"delta\":\x7b\"content\":\"llo\"\x7d\x7d]\x7d\n"]
      = [utf16 "He", utf16 "llo"] ∧
    extractedFragments
      [utf16 "data: \x7b\"choices\":[\x7b\"delta\":\x7b\"content\":\"He\"\x7d\x7d]\x7d\n",
       utf16 "data: \x7b\"choices\":[\x7b\"delta\":\x7b\"content\":\"llo\"\x7d\x7d]\x7d\n"]
      = extractedFragments
        [[utf16 "data: \x7b\"choices\":[\x7b\"delta\":\x7b\"content\":\"He\"\x7d\x7d]\x7d\n",
          utf16 "data: \x7b\"choices\":[\x7b\"delta\":\x7b\"content\":\"llo\"\x7d\x7d]\x7d\n"].flatten] :=
  ⟨by decide, by decide,
    (C1_fragments_when_cut_after_newlines _ (by decide) .done 0 []).1⟩

/-- C2, counterexample: the chunk `data: {"choices":[{"delta":{"content":"He"}}]}` does
not end with a line feed, yet its trailing piece is parsed when the chunk is processed: the
fragment `He` is appended and rendered, although no line feed is ever received. -/
theorem C2_trailing_piece_parsed_without_newline :
    endsWithNewline
      (utf16 "data: \x7b\"choices\":[\x7b\"delta\":\x7b\"content\":\"He\"\x7d\x7d]\x7d") = false ∧
    processChunk (shownState 0 [])
      (utf16 "data: \x7b\"choices\":[\x7b\"delta\":\x7b\"content\":\"He\"\x7d\x7d]\x7d") ≠
      (completeLines
        (utf16 "data: \x7b\"choices\":[\x7b\"delta\":\x7b\"content\":\"He\"\x7d\x7d]\x7d")).foldl
        processLine (shownState 0 []) ∧
    (handleStreamingResponse
      ⟨[utf16 "data: \x7b\"choices\":[\x7b\"delta\":\x7b\"content\":\"He\"\x7d\x7d]\x7d"],
        .done⟩ 0 []).effects =
      [.displayMessage ⟨.assistant, some (.string []), 0⟩,
       .renderMarkdownRealTime (utf16 "He"), .pacingDelay, .scrollToBottom,
       .renderMarkdown (utf16 "He")] := by
  decide

/-- C2, amended: no text is kept from one chunk to the next. Every piece of
`chunk.split('\n')`, the trailing piece without a line feed included, is processed as a
line when its chunk is processed, before anything of the next chunk, and the next chunk is
processed on its own text; so the final content is the initial content followed by the
fragments of the earlier chunks, of the complete lines of the chunk, of its trailing piece,
and of the later chunks taken by themselves. -/
theorem C2_no_buffer_between_chunks (before after : List JSString) (chunk : JSString)
    (st : StreamState) (ending : StreamEnd) (timestamp : Nat) (content : JSString) :
    (before ++ chunk :: after).foldl processChunk st =
      after.foldl processChunk
        (processLine ((completeLines chunk).foldl processLine (before.foldl processChunk st))
          (trailingPiece chunk)) ∧
    (handleStreamingResponse ⟨before ++ chunk :: after, ending⟩ timestamp content).content =
      content ++ (extractedFragments before).flatten ++
        ((completeLines chunk).filterMap lineFragment).flatten ++
        (lineFragment (trailingPiece chunk)).getD [] ++
        (extractedFragments after).flatten := by
  constructor
  · rw [List.foldl_append, List.foldl_cons]
    congr 1
    rw [processChunk, splitLines_eq_complete_trailing chunk, List.foldl_append]
    rfl
  · rw [handleStreamingResponse_content]
    simp only [extractedFragments_append, extractedFragments_cons,
      chunkFragments_eq_complete_trailing, List.flatten_append, List.append_assoc]
    cases lineFragment (trailingPiece chunk) <;> simp

/-- C3: the content of the assistant message at the final render is the initial content
followed by the extracted fragments in order; the final render is the last effect and is
given that content. -/
theorem C3_final_content_is_concatenation (body : BodyStream) (timestamp : Nat)
    (content : JSString) :
    (handleStreamingResponse body timestamp content).content =
      content ++ (extractedFragments body.chunks).flatten ∧
    (handleStreamingResponse body timestamp content).effects.getLast? =
      some (.renderMarkdown (content ++ (extractedFragments body.chunks).flatten)) ∧
    (handleStreamingResponse body timestamp []).content =
      (extractedFragments body.chunks).flatten := by
  refine ⟨handleStreamingResponse_content body timestamp content, ?_, ?_⟩
  · rw [← handleStreamingResponse_content body timestamp content]
    simp [handleStreamingResponse]
  · simpa using handleStreamingResponse_content body timestamp []

/-- C4: the incremental renders come one per extracted fragment, in the order of the
fragments, the render number `k` (from 0) carrying the initial content followed by the
first `k + 1` fragments; frames with contents `He` and `llo` give the renders `He`,
`Hello` and the final text `Hello`. -/
theorem C4_renders_follow_fragments (body : BodyStream) (timestamp : Nat)
    (content : JSString) :
    (realTimeRenders (handleStreamingResponse body timestamp content).effects).length =
      (extractedFragments body.chunks).length ∧
    realTimeRenders (handleStreamingResponse body timestamp content).effects =
      (List.range (extractedFragments body.chunks).length).map
        (fun k => content ++ ((extractedFragments body.chunks).take (k + 1)).flatten) ∧
    (handleStreamingResponse
      ⟨[utf16 "data: \x7b\"choices\":[\x7b\"delta\":\x7b\"content\":\"He\"\x7d\x7d]\x7d\n",
        utf16 "data: \x7b\"choices\":[\x7b\"delta\":\x7b\"content\":\"llo\"\x7d\x7d]\x7d\n"],
        .done⟩ 0 []).effects =
      [.displayMessage ⟨.assistant, some (.string []), 0⟩,
       .renderMarkdownRealTime (utf16 "He"), .pacingDelay, .scrollToBottom,
       .renderMarkdownRealTime (utf16 "Hello"), .pacingDelay, .scrollToBottom,
       .renderMarkdown (utf16 "Hello")] := by
  refine ⟨?_, ?_, by decide⟩
  · rw [handleStreamingResponse_renders, prefixTexts_length]
  · rw [handleStreamingResponse_renders, prefixTexts_eq_map]

/-- C5: a line that does not begin with `data: ` appends nothing and makes no effect,
wherever it stands in the chunk. -/
theorem C5_line_without_prefix_is_skipped (line : JSString)
    (h : startsWith dataPrefix line = false) (st : StreamState) (pre post : List JSString) :
    processLine st line = st ∧
    (processLine st line).effects = st.effects ∧
    (pre ++ line :: post).foldl processLine st = (pre ++ post).foldl processLine st := by
  have hl := lineFragment_of_not_prefix line h
  refine ⟨processLine_of_none st line hl, by rw [processLine_of_none st line hl], ?_⟩
  rw [List.foldl_append, List.foldl_append, List.foldl_cons, processLine_of_none _ line hl]

/-- C5, witness: a frame written `data:` without the space. -/
theorem C5_line_without_prefix_is_skipped_witness :
    startsWith dataPrefix
      (utf16 "data:\x7b\"choices\":[\x7b\"delta\":\x7b\"content\":\"He\"\x7d\x7d]\x7d") = false ∧
    processLine (shownState 0 [])
      (utf16 "data:\x7b\"choices\":[\x7b\"delta\":\x7b\"content\":\"He\"\x7d\x7d]\x7d") =
      shownState 0 [] :=
  ⟨by decide, (C5_line_without_prefix_is_skipped _ (by decide) (shownState 0 []) [] []).1⟩

/-- C6: a `data: ` line whose remainder is not valid JSON appends nothing and makes no
effect (in particular none that reports an error), and the remaining lines of the chunk
and all later chunks are processed as if the line had not been there. -/
theorem C6_malformed_frame_is_skipped (line : JSString)
    (hstarts : startsWith dataPrefix line = true)
    (hparse : JSON.parse (slice 6 line) = none)
    (chunk chunk' : JSString) (pre post : List JSString)
    (hs : splitLines chunk = pre ++ line :: post) (hs' : splitLines chunk' = pre ++ post)
    (st : StreamState) (before after : List JSString) (ending : StreamEnd) (timestamp : Nat)
    (content : JSString) :
    processLine st line = st ∧
    (pre ++ line :: post).foldl processLine st = (pre ++ post).foldl processLine st ∧
    handleStreamingResponse ⟨before ++ chunk :: after, ending⟩ timestamp content =
      handleStreamingResponse ⟨before ++ chunk' :: after, ending⟩ timestamp content := by
  have _ := hstarts
  have hl := lineFragment_of_parse_none line hparse
  refine ⟨processLine_of_none st line hl, foldl_processLine_skip line hl st pre post, ?_⟩
  apply handleStreamingResponse_congr
  rw [extractedFragments_append, extractedFragments_append, extractedFragments_cons,
    extractedFragments_cons, chunkFragments_congr chunk chunk' pre post line hl hs hs']

/-- C6, witness: a truncated frame between two good frames. -/
theorem C6_malformed_frame_is_skipped_witness :
    startsWith dataPrefix (utf16 "data: \x7b\"choices\":[\x7b\"del") = true ∧
    JSON.parse (slice 6 (utf16 "data: \x7b\"choices\":[\x7b\"del")) = none ∧
    handleStreamingResponse
      ⟨[] ++ (utf16 "data: \x7b\"choices\":[\x7b\"delta\":\x7b\"content\":\"He\"\x7d\x7d]\x7d\ndata: \x7b\"choices\":[\x7b\"del\ndata: \x7b\"choices\":[\x7b\"delta\":\x7b\"content\":\"llo\"\x7d\x7d]\x7d\n") :: [],
        .done⟩ 0 [] =
      handleStreamingResponse
      ⟨[] ++ (utf16 "data: \x7b\"choices\":[\x7b\"delta\":\x7b\"content\":\"He\"\x7d\x7d]\x7d\ndata: \x7b\"choices\":[\x7b\"delta\":\x7b\"content\":\"llo\"\x7d\x7d]\x7d\n") :: [],
        .done⟩ 0 [] :=
  ⟨by decide, by decide,
    (C6_malformed_frame_is_skipped (utf16 "data: \x7b\"choices\":[\x7b\"del") (by decide)
      (by decide) _ _
      [utf16 "data: \x7b\"choices\":[\x7b\"delta\":\x7b\"content\":\"He\"\x7d\x7d]\x7d"]
      [utf16 "data: \x7b\"choices\":[\x7b\"delta\":\x7b\"content\":\"llo\"\x7d\x7d]\x7d", []]
      (by decide) (by decide) (shownState 0 []) [] [] .done 0 []).2.2⟩

/-- C7: a `data: ` line whose remainder is valid JSON without a value at
`choices[0].delta.content` appends nothing and makes no effect; whatever is thrown while
the frame is inspected stays inside the handler of the line, and the loop goes on with the
lines that follow. -/
theorem C7_frame_without_content_is_skipped (line : JSString) (data : JsonValue)
    (hstarts : startsWith dataPrefix line = true)
    (hparse : JSON.parse (slice 6 line) = some data)
    (hlack : contentAt .delta data = none)
    (st : StreamState) (pre post : List JSString) :
    lineFragment line = none ∧
    processLine st line = st ∧
    runLines st (line :: post) = runLines st post ∧
    (pre ++ line :: post).foldl processLine st = (pre ++ post).foldl processLine st := by
  have _ := hstarts
  have hl := lineFragment_of_no_content line data hparse hlack
  exact ⟨hl, processLine_of_none st line hl, runLines_of_none st line post hl,
    foldl_processLine_skip line hl st pre post⟩

/-- C7, witness: the frames `null`, `5`, `{}`, `{"choices":[]}`, `{"choices":[{}]}` and
`{"choices":[{"delta":{}}]}`. -/
theorem C7_frame_without_content_is_skipped_witness :
    processLine (shownState 0 []) (utf16 "data: null") = shownState 0 [] ∧
    processLine (shownState 0 []) (utf16 "data: 5") = shownState 0 [] ∧
    processLine (shownState 0 []) (utf16 "data: \x7b\x7d") = shownState 0 [] ∧
    processLine (shownState 0 []) (utf16 "data: \x7b\"choices\":[]\x7d") = shownState 0 [] ∧
    processLine (shownState 0 []) (utf16 "data: \x7b\"choices\":[\x7b\x7d]\x7d")
      = shownState 0 [] ∧
    processLine (shownState 0 [])
      (utf16 "data: \x7b\"choices\":[\x7b\"delta\":\x7b\x7d\x7d]\x7d") = shownState 0 [] :=
  ⟨(C7_frame_without_content_is_skipped (utf16 "data: null") .null
      (by decide) (by decide) (by decide) (shownState 0 []) [] []).2.1,
   (C7_frame_without_content_is_skipped (utf16 "data: 5") (.number ⟨false, 5, 0⟩)
      (by decide) (by decide) (by decide) (shownState 0 []) [] []).2.1,
   (C7_frame_without_content_is_skipped (utf16 "data: \x7b\x7d") (.object [])
      (by decide) (by decide) (by decide) (shownState 0 []) [] []).2.1,
   (C7_frame_without_content_is_skipped (utf16 "data: \x7b\"choices\":[]\x7d")
      (.object [(PropertyName.choices.text, .array [])])
      (by decide) (by decide) (by decide) (shownState 0 []) [] []).2.1,
   (C7_frame_without_content_is_skipped (utf16 "data: \x7b\"choices\":[\x7b\x7d]\x7d")
      (.object [(PropertyName.choices.text, .array [.object []])])
      (by decide) (by decide) (by decide) (shownState 0 []) [] []).2.1,
   (C7_frame_without_content_is_skipped
      (utf16 "data: \x7b\"choices\":[\x7b\"delta\":\x7b\x7d\x7d]\x7d")
      (.object [(PropertyName.choices.text,
        .array [.object [(PropertyName.delta.text, .object [])]])])
      (by decide) (by decide) (by decide) (shownState 0 []) [] []).2.1⟩

/-- C8: on the single-shot path, with an OK response whose JSON has the text `c` at
`choices[0].message.content`, `sendMessage` leaves the assistant message with content `c`
at the end of the transcript, and of the effects that show the assistant message it makes
exactly one, the `displayMessage` of that message with content `c`: no incremental render
and no other render. -/
theorem C8_single_shot_displays_once (env : SendEnv) (w : World) (response : Response)
    (data : JsonValue) (c : JSString)
    (hinput : (trim w.ui.messageInput).isEmpty = false)
    (htyping : w.app.isTyping = false)
    (hstream : w.app.isStreaming = false)
    (hfetch : env.fetchResult = .ok response)
    (hok : response.ok = true)
    (hjson : responseJson response.body env.syntaxErrorMessage = .ok data)
    (hcontent : contentAt .message data = some (.string c)) :
    (sendMessage env w).world.app.chatHistory =
      w.app.chatHistory ++
        [⟨.user, some (.string (trim w.ui.messageInput)), env.userTimestamp⟩,
         ⟨.assistant, some (.string c), env.botTimestamp⟩] ∧
    assistantRenders ((sendMessage env w).world.effects.drop w.effects.length) =
      [.displayMessage ⟨.assistant, some (.string c), env.botTimestamp⟩] := by
  have hread := readMessageContent_of_contentAt data _ hcontent
  have hs : (sendMessageStart env w).app.isStreaming = false := by
    rw [sendMessageStart_app]; exact hstream
  have htry : sendMessageTry env (sendMessageStart env w) =
      ((setBotContent (some (.string c))
          ((sendMessageStart env w).pushMessage
            ⟨.assistant, some (.string []), env.botTimestamp⟩)).emit
          (.displayMessage ⟨.assistant, some (.string c), env.botTimestamp⟩), none) := by
    simp [sendMessageTry, hfetch, hok, hs, hjson, hread, World.pushMessage]
  unfold sendMessage
  simp only [hinput, htyping, Bool.or_self, Bool.false_eq_true, if_false]
  rw [htry]
  simp only [sendMessageCatch]
  obtain ⟨happ, -, -, saved, heff, hsaved⟩ := sendMessageFinally_world env
    ((setBotContent (some (.string c))
          ((sendMessageStart env w).pushMessage
            ⟨.assistant, some (.string []), env.botTimestamp⟩)).emit
          (.displayMessage ⟨.assistant, some (.string c), env.botTimestamp⟩))
  constructor
  · rw [happ]
    simp only [World.emit, setBotContent, World.pushMessage, sendMessageStart_app]
    rw [List.append_assoc, List.singleton_append, List.append_cons,
      updateLast_append_singleton]
    simp
  · rw [heff]
    simp only [World.emit, setBotContent, World.pushMessage, sendMessageStart_effects,
      List.append_assoc, List.drop_left, assistantRenders_append,
      assistantRenders_startEffects, assistantRenders_saved saved hsaved]
    simp [assistantRenders]

/-- C8, witness: the response `{"choices":[{"message":{"content":"Hi"}}]}`. -/
theorem C8_single_shot_displays_once_witness :
    (sendMessage singleShotEnv singleShotWorld).world.app.chatHistory =
      [⟨.user, some (.string (utf16 "Hi there")), 1⟩, ⟨.assistant, some (.string (utf16 "Hi")), 2⟩] ∧
    assistantRenders (sendMessage singleShotEnv singleShotWorld).world.effects =
      [.displayMessage ⟨.assistant, some (.string (utf16 "Hi")), 2⟩] :=
  C8_single_shot_displays_once singleShotEnv singleShotWorld
    { ok := true, status := 200,
      body := some ⟨[utf16 "\x7b\"choices\":[\x7b\"message\":\x7b\"content\":\"Hi\"\x7d\x7d]\x7d"],
        .done⟩ }
    (.object [(PropertyName.choices.text, .array [.object [(PropertyName.message.text,
      .object [(PropertyName.content.text, .string (utf16 "Hi"))])]])])
    (utf16 "Hi") (by decide) (by decide) (by decide) rfl (by decide) rfl (by decide)

/-- C9, counterexample: one chunk holds the frames `He`, `llo` and `!`. The user stops the
generation during the pacing delay that follows the render of `He`. When that delay has
elapsed the loop goes on: `llo` is appended and rendered, and after the next delay `!` is
appended and rendered as well. -/
theorem C9_frames_of_read_chunk_still_rendered :
    streamingWorld.app.streamController = some threeFrameSession.controller ∧
    (threeFrameSession.run [.resume]).stream.content = utf16 "He" ∧
    (threeFrameSession.run [.resume, .stop, .resume]).stream.content = utf16 "Hello" ∧
    (threeFrameSession.run [.resume, .stop, .resume, .resume]).stream.content =
      utf16 "Hello!" ∧
    realTimeRenders (threeFrameSession.run [.resume, .stop, .resume, .resume]).stream.effects =
      [utf16 "He", utf16 "Hello", utf16 "Hello!"] := by
  decide

/-- C9, amended: when the user stops the generation while `handleStreamingResponse` is
suspended (the controller of the request being the current one), no further chunk is read,
but the frames of the chunk already read are still processed: once the pending promises
have settled the call has returned, its content is the content at the stop followed by all
the fragments of the lines not yet visited, each of them rendered in turn, its last effect
is the final render of that content, and neither the call nor `stopGeneration` has shown
an error. -/
theorem C9_stop_ends_after_current_chunk (s : Session)
    (hcontroller : s.world.app.streamController = some s.controller)
    (hphase : s.phase ≠ .returned) (n : Nat) (hn : s.pendingFragments.length + 2 ≤ n) :
    (s.run (.stop :: List.replicate n .resume)).phase = .returned ∧
    (s.run (.stop :: List.replicate n .resume)).unread = s.unread ∧
    (s.run (.stop :: List.replicate n .resume)).stream.content =
      s.stream.content ++ s.pendingFragments.flatten ∧
    realTimeRenders (s.run (.stop :: List.replicate n .resume)).stream.effects =
      realTimeRenders s.stream.effects ++ prefixTexts s.stream.content s.pendingFragments ∧
    (s.run (.stop :: List.replicate n .resume)).stream.effects.getLast? =
      some (.renderMarkdown (s.stream.content ++ s.pendingFragments.flatten)) ∧
    shownErrors (s.run (.stop :: List.replicate n .resume)).stream.effects =
      shownErrors s.stream.effects ∧
    (s.run (.stop :: List.replicate n .resume)).world = AppState.stopGeneration s.world ∧
    shownErrors (s.run (.stop :: List.replicate n .resume)).world.effects =
      shownErrors s.world.effects := by
  have ha := stop_aborts s hcontroller
  rw [Session.run_cons]
  have hout : StoppedOutcome s.stop ((s.step .stop).run (List.replicate n .resume))
      s.pendingFragments := by
    cases hp : s.phase with
    | returned => exact absurd hp hphase
    | awaitingRead =>
      obtain ⟨m, rfl⟩ : ∃ m, n = m + 1 := ⟨n - 1, by omega⟩
      have h1 := resume_awaitingRead_aborted s.stop (by simpa [Session.stop] using hp) ha
      show StoppedOutcome s.stop (s.stop.run (List.replicate (m + 1) .resume)) _
      rw [Session.run_resume_succ, Session.run_resume_returned _ h1.1]
      simpa [Session.pendingFragments, hp] using h1
    | awaitingDelay pending =>
      have h1 := drain_pending pending s.stop (by simpa [Session.stop] using hp) ha n
        (by simpa [Session.pendingFragments, hp] using hn)
      simpa [Session.pendingFragments, hp] using h1
  obtain ⟨q1, q2, q3, q4, q5, q6, q7⟩ := hout
  refine ⟨q1, q2, q4, q5, ?_, q7, q3, ?_⟩
  · rw [q6, q4]; rfl
  · rw [q3]; exact shownErrors_stopGeneration s.world

/-- C9, witness: the stop of the counterexample, followed to the return of the call. -/
theorem C9_stop_ends_after_current_chunk_witness :
    ((threeFrameSession.run [.resume]).run (.stop :: List.replicate 4 .resume)).phase =
      .returned ∧
    ((threeFrameSession.run [.resume]).run (.stop :: List.replicate 4 .resume)).unread =
      [frameLine "?" ++ [newline]] ∧
    ((threeFrameSession.run [.resume]).run
      (.stop :: List.replicate 4 .resume)).stream.content = utf16 "Hello!" :=
  have h := C9_stop_ends_after_current_chunk (threeFrameSession.run [.resume])
    (by decide) (by decide) 4 (by decide)
  ⟨h.1, h.2.1.trans (by decide), h.2.2.1.trans (by decide)⟩

/-- C10, counterexample: the first read of the stream delivers the frame `He` and the
second read rejects with a `TypeError` whose message is `network error`. `sendMessage` logs
the error on the console, renders `He` a last time and saves the chat; it never calls
`showError`. -/
theorem C10_read_error_not_shown :
    (sendMessage
      { singleShotEnv with
        fetchResult := .ok
          { ok := true, status := 200,
            body := some ⟨[frameLine "He" ++ [newline]],
              .failed ⟨utf16 "TypeError", utf16 "network error"⟩⟩ } }
      { singleShotWorld with
        app := { singleShotWorld.app with isStreaming := true } }).world.effects =
      [.hideWelcomeScreen,
       .displayMessage ⟨.user, some (.string (utf16 "Hi there")), 1⟩,
       .autoResizeTextarea,
       .chatRequest
        { prompt := utf16 "Hi there", modelName := utf16 "orzion", stream := true, tools := [],
          username := none,
          chatHistory := [⟨.user, some (.string (utf16 "Hi there")), 1⟩] },
       .displayMessage ⟨.assistant, some (.string []), 2⟩,
       .renderMarkdownRealTime (utf16 "He"), .pacingDelay, .scrollToBottom,
       .consoleError ⟨utf16 "TypeError", utf16 "network error"⟩,
       .renderMarkdown (utf16 "He"),
       .saveChatToServer
        { id := none, title := utf16 "Hi there",
          messages := [⟨.user, some (.string (utf16 "Hi there")), 1⟩,
            ⟨.assistant, some (.string (utf16 "He")), 2⟩],
          username := none }] ∧
    shownErrors (sendMessage
      { singleShotEnv with
        fetchResult := .ok
          { ok := true, status := 200,
            body := some ⟨[frameLine "He" ++ [newline]],
              .failed ⟨utf16 "TypeError", utf16 "network error"⟩⟩ } }
      { singleShotWorld with
        app := { singleShotWorld.app with isStreaming := true } }).world.effects = [] := by
  decide

/-- C10, amended: an error raised by a read during the streaming loop, whatever its name,
ends the loop and the session, but it is not surfaced through `showError`:
`handleStreamingResponse` catches it, logs it with `console.error`, renders a last time the
text received so far and returns normally, so `sendMessage` shows no error, keeps the
partial text in the transcript and resets the typing state. -/
theorem C10_read_error_is_logged (env : SendEnv) (w : World) (response : Response)
    (body : BodyStream) (error : JSError)
    (hinput : (trim w.ui.messageInput).isEmpty = false)
    (htyping : w.app.isTyping = false)
    (hstream : w.app.isStreaming = true)
    (hfetch : env.fetchResult = .ok response)
    (hok : response.ok = true)
    (hbody : response.body = some body)
    (hend : body.ending = .failed error) :
    shownErrors ((sendMessage env w).world.effects.drop w.effects.length) = [] ∧
    Effect.consoleError error ∈ (sendMessage env w).world.effects ∧
    Effect.renderMarkdown (extractedFragments body.chunks).flatten ∈
      (sendMessage env w).world.effects ∧
    (sendMessage env w).world.app.chatHistory =
      w.app.chatHistory ++
        [⟨.user, some (.string (trim w.ui.messageInput)), env.userTimestamp⟩,
         ⟨.assistant, some (.string (extractedFragments body.chunks).flatten),
           env.botTimestamp⟩] ∧
    (sendMessage env w).world.app.isTyping = false ∧
    (sendMessage env w).world.app.isGenerating = false ∧
    (sendMessage env w).world.app.streamController = none := by
  have hs : (sendMessageStart env w).app.isStreaming = true := by
    rw [sendMessageStart_app]; exact hstream
  have hshape : body = ⟨body.chunks, .failed error⟩ := by
    cases hb : body with
    | mk chunks ending => simp [hb] at hend; simp [hend]
  unfold sendMessage
  simp only [hinput, htyping, Bool.or_self, Bool.false_eq_true, if_false]
  rw [sendMessageTry_streaming env _ response body hs hfetch hok hbody]
  simp only [sendMessageCatch]
  obtain ⟨happ, -, -, saved, heff, hsaved⟩ := sendMessageFinally_world env
    (setBotContent
        (some (.string (handleStreamingResponse body env.botTimestamp []).content))
        { (sendMessageStart env w).pushMessage ⟨.assistant, some (.string []), env.botTimestamp⟩ with
          effects := (sendMessageStart env w).effects ++
            (handleStreamingResponse body env.botTimestamp []).effects })
  have hcontent := handleStreamingResponse_content body env.botTimestamp []
  simp only [List.nil_append] at hcontent
  refine ⟨?_, ?_, ?_, ?_, ?_, ?_, ?_⟩
  · rw [heff]
    simp only [setBotContent, sendMessageStart_effects, List.append_assoc, List.drop_left,
      shownErrors_append, shownErrors_startEffects, handleStreamingResponse_shownErrors,
      shownErrors_saved saved hsaved, List.append_nil]
  · rw [heff, hshape]
    simp only [setBotContent, List.mem_append]
    exact Or.inl (Or.inr (handleStreamingResponse_consoleError _ _ _ _))
  · rw [heff]
    simp only [setBotContent, List.mem_append]
    refine Or.inl (Or.inr ?_)
    rw [← hcontent]
    simp [handleStreamingResponse]
  · rw [happ]
    simp only [setBotContent, World.pushMessage, sendMessageStart_app, hcontent]
    rw [List.append_assoc, List.singleton_append, List.append_cons,
      updateLast_append_singleton]
    simp
  · rw [happ]
  · rw [happ]
  · rw [happ]

/-- C10, witness: the failing stream of the counterexample. -/
theorem C10_read_error_is_logged_witness :
    shownErrors (sendMessage
      { singleShotEnv with
        fetchResult := .ok
          { ok := true, status := 200,
            body := some ⟨[frameLine "He" ++ [newline]],
              .failed ⟨utf16 "TypeError", utf16 "network error"⟩⟩ } }
      { singleShotWorld with
        app := { singleShotWorld.app with isStreaming := true } }).world.effects = [] ∧
    Effect.consoleError ⟨utf16 "TypeError", utf16 "network error"⟩ ∈ (sendMessage
      { singleShotEnv with
        fetchResult := .ok
          { ok := true, status := 200,
            body := some ⟨[frameLine "He" ++ [newline]],
              .failed ⟨utf16 "TypeError", utf16 "network error"⟩⟩ } }
      { singleShotWorld with
        app := { singleShotWorld.app with isStreaming := true } }).world.effects :=
  have h := C10_read_error_is_logged
    { singleShotEnv with
      fetchResult := .ok
        { ok := true, status := 200,
          body := some ⟨[frameLine "He" ++ [newline]],
            .failed ⟨utf16 "TypeError", utf16 "network error"⟩⟩ } }
    { singleShotWorld with app := { singleShotWorld.app with isStreaming := true } }
    { ok := true, status := 200,
      body := some ⟨[frameLine "He" ++ [newline]],
        .failed ⟨utf16 "TypeError", utf16 "network error"⟩⟩ }
    ⟨[frameLine "He" ++ [newline]], .failed ⟨utf16 "TypeError", utf16 "network error"⟩⟩
    ⟨utf16 "TypeError", utf16 "network error"⟩
    (by decide) (by decide) (by decide) rfl (by decide) rfl rfl
  ⟨h.1, h.2.1⟩

/-- C11: in every execution of `sendMessage` the `catch` block reports at most one error
with `showError`, and it reports none when the exception it receives is named
`AbortError`, in particular when `fetch` rejects because the request was aborted. On the
streaming path with an OK response that has a body no error is reported whatever happens to
the stream: a read that rejects, for an abort or for another reason, is caught inside
`handleStreamingResponse`. With an OK response that has no body the `TypeError` of
`response.body.getReader()`, which is no cancellation, is reported once. A streaming call
that is stopped and resumed in any order shows no notification. -/
theorem C11_error_reported_at_most_once (env : SendEnv) (w : World) :
    (shownErrors (newEffects env w)).length ≤ 1 ∧
    (∀ error, caughtError env w = some error → error.name = utf16 "AbortError" →
      shownErrors (newEffects env w) = []) ∧
    (∀ error, env.fetchResult = .error error → error.name = utf16 "AbortError" →
      shownErrors (newEffects env w) = []) ∧
    (∀ response body, env.fetchResult = .ok response → response.ok = true →
      w.app.isStreaming = true → response.body = some body →
      shownErrors (newEffects env w) = []) ∧
    (∀ response, (trim w.ui.messageInput).isEmpty = false → w.app.isTyping = false →
      env.fetchResult = .ok response → response.ok = true →
      w.app.isStreaming = true → response.body = none →
      shownErrors (newEffects env w) =
        [(utf16 "Error: " ++ env.typeErrorMessage, utf16 "error")]) ∧
    (∀ (s : Session) (actions : List Action),
      shownErrors (s.run actions).stream.effects = shownErrors s.stream.effects) := by
  by_cases hg : (trim w.ui.messageInput).isEmpty = true ∨ w.app.isTyping = true
  · have h0 : newEffects env w = [] := by
      unfold newEffects
      rw [sendMessage_rejected env w hg]
      simp
    rw [h0]
    refine ⟨by simp [shownErrors], fun _ _ _ => rfl, fun _ _ _ => rfl,
      fun _ _ _ _ _ _ => rfl, ?_, fun s actions => shownErrors_run actions s⟩
    intro response hinput htyping
    rcases hg with hg | hg
    · rw [hinput] at hg; cases hg
    · rw [htyping] at hg; cases hg
  · have hinput : (trim w.ui.messageInput).isEmpty = false := by
      cases h : (trim w.ui.messageInput).isEmpty <;> simp_all
    have htyping : w.app.isTyping = false := by
      cases h : w.app.isTyping <;> simp_all
    have hrep := shownErrors_newEffects env w hinput htyping
    rw [hrep]
    refine ⟨catchReport_length _, ?_, ?_, ?_, ?_, fun s actions => shownErrors_run actions s⟩
    · intro error hc hname
      rw [hc]; simp [catchReport, hname]
    · intro error hf hname
      have hc : caughtError env w = some error := by
        simp [caughtError, sendMessageTry, hf]
      rw [hc]; simp [catchReport, hname]
    · intro response body hf hok hs hbody
      have hs' : (sendMessageStart env w).app.isStreaming = true := by
        rw [sendMessageStart_app]; exact hs
      have hc : caughtError env w = none := by
        unfold caughtError
        rw [sendMessageTry_streaming env _ response body hs' hf hok hbody]
      rw [hc]; rfl
    · intro response _ _ hf hok hs hbody
      have hs' : (sendMessageStart env w).app.isStreaming = true := by
        rw [sendMessageStart_app]; exact hs
      have hc : caughtError env w = some ⟨utf16 "TypeError", env.typeErrorMessage⟩ := by
        unfold caughtError
        rw [sendMessageTry_bodiless env _ response hs' hf hok hbody]
      have hname : utf16 "TypeError" ≠ utf16 "AbortError" := by decide
      rw [hc]
      simp [catchReport, hname]

/-- C11, witness: the request of `singleShotEnv` is aborted while `fetch` is pending; the
same request, streaming, is aborted at its first read; and it is answered with status 204
and no body. -/
theorem C11_error_reported_at_most_once_witness :
    shownErrors (newEffects
      { singleShotEnv with
        fetchResult := .error ⟨utf16 "AbortError", utf16 "The user aborted a request."⟩ }
      singleShotWorld) = [] ∧
    shownErrors (newEffects
      { singleShotEnv with
        fetchResult := .ok
          { ok := true, status := 200,
            body := some ⟨[], .failed ⟨utf16 "AbortError", utf16 "The user aborted a request."⟩⟩ } }
      { singleShotWorld with app := { singleShotWorld.app with isStreaming := true } }) = [] ∧
    shownErrors (newEffects
      { singleShotEnv with fetchResult := .ok { ok := true, status := 204, body := none } }
      { singleShotWorld with app := { singleShotWorld.app with isStreaming := true } }) =
      [(utf16 "Error: Cannot read properties of undefined", utf16 "error")] :=
  ⟨(C11_error_reported_at_most_once
      { singleShotEnv with
        fetchResult := .error ⟨utf16 "AbortError", utf16 "The user aborted a request."⟩ }
      singleShotWorld).2.2.1 ⟨utf16 "AbortError", utf16 "The user aborted a request."⟩ rfl
      (by decide),
   (C11_error_reported_at_most_once
      { singleShotEnv with
        fetchResult := .ok
          { ok := true, status := 200,
            body := some ⟨[], .failed ⟨utf16 "AbortError", utf16 "The user aborted a request."⟩⟩ } }
      { singleShotWorld with app := { singleShotWorld.app with isStreaming := true } }).2.2.2.1
      { ok := true, status := 200,
        body := some ⟨[], .failed ⟨utf16 "AbortError", utf16 "The user aborted a request."⟩⟩ }
      ⟨[], .failed ⟨utf16 "AbortError", utf16 "The user aborted a request."⟩⟩
      rfl (by decide) (by decide) rfl,
   ((C11_error_reported_at_most_once
      { singleShotEnv with fetchResult := .ok { ok := true, status := 204, body := none } }
      { singleShotWorld with app := { singleShotWorld.app with isStreaming := true } }).2.2.2.2.1
      { ok := true, status := 204, body := none }
      (by decide) (by decide) rfl (by decide) (by decide) rfl).trans (by decide)⟩

/-- C12: when the response of the chat request is not OK, `sendMessage` reports
`Error: Error HTTP: <status>` exactly once, the transcript gains the user message and no
assistant message, the only effects after the request are that report and the saving of the
chat (so `handleStreamingResponse`, whose first act is to display the assistant message, is
not called), and the outcome is the same whatever the body of the response is: no byte of it
is read. -/
theorem C12_http_error_fails_before_body (env : SendEnv) (w : World) (response : Response)
    (hinput : (trim w.ui.messageInput).isEmpty = false)
    (htyping : w.app.isTyping = false)
    (hfetch : env.fetchResult = .ok response)
    (hok : response.ok = false) :
    shownErrors (newEffects env w) =
      [(utf16 "Error: Error HTTP: " ++ decimalDigits response.status, utf16 "error")] ∧
    (sendMessage env w).world.app.chatHistory = w.app.chatHistory ++ [userMessage env w] ∧
    (∃ saved, (∀ e ∈ saved, ∃ chatData, e = .saveChatToServer chatData) ∧
      newEffects env w = startEffects env w ++
        [.showError (utf16 "Error: Error HTTP: " ++ decimalDigits response.status)
          (utf16 "error")] ++ saved) ∧
    assistantRenders (newEffects env w) = [] ∧
    (∀ body, sendMessage { env with fetchResult := .ok { response with body := body } } w =
      sendMessage env w) := by
  have htry : ∀ env' : SendEnv, env'.fetchResult = .ok response →
      sendMessageTry env' (sendMessageStart env' w) =
        (sendMessageStart env' w, some (httpError response.status)) := by
    intro env' hf
    simp [sendMessageTry, hf, hok]
  have hmsg : utf16 "Error: " ++ (httpError response.status).message =
      utf16 "Error: Error HTTP: " ++ decimalDigits response.status := by
    show utf16 "Error: " ++ (utf16 "Error HTTP: " ++ decimalDigits response.status) = _
    rw [← List.append_assoc]; rfl
  have hname : (httpError response.status).name ≠ utf16 "AbortError" := by
    show utf16 "Error" ≠ utf16 "AbortError"
    decide
  have hcatch : sendMessageCatch (sendMessageStart env w) (some (httpError response.status)) =
      (sendMessageStart env w).emit
        (.showError (utf16 "Error: Error HTTP: " ++ decimalDigits response.status)
          (utf16 "error")) := by
    simp only [sendMessageCatch, hname, ne_eq, not_false_eq_true, if_true, hmsg]
  obtain ⟨happ, -, -, saved, hsaved, hs⟩ := sendMessageFinally_world env
    ((sendMessageStart env w).emit
        (.showError (utf16 "Error: Error HTTP: " ++ decimalDigits response.status)
          (utf16 "error")))
  have heff : newEffects env w = startEffects env w ++
        [.showError (utf16 "Error: Error HTTP: " ++ decimalDigits response.status)
          (utf16 "error")] ++ saved := by
    unfold newEffects
    rw [sendMessage_accepted env w hinput htyping, htry env hfetch, hcatch, hsaved]
    simp only [World.emit, sendMessageStart_effects, List.append_assoc, List.drop_left]
  refine ⟨?_, ?_, ⟨saved, hs, heff⟩, ?_, ?_⟩
  · rw [heff]
    simp only [shownErrors_append, shownErrors_startEffects, shownErrors_saved saved hs]
    simp [shownErrors]
  · rw [sendMessage_accepted env w hinput htyping, htry env hfetch, hcatch, happ]
    simp only [World.emit, sendMessageStart_app]
    rfl
  · rw [heff]
    simp only [assistantRenders_append, assistantRenders_startEffects,
      assistantRenders_saved saved hs]
    simp [assistantRenders]
  · intro body
    have hok' : ({ response with body := body } : Response).ok = false := hok
    unfold sendMessage
    simp only [sendMessageTry, sendMessageStart, hfetch, hok, hok', sendMessageFinally]
    rfl

/-- C12, witness: the response has status 500 and a body that is never read. -/
theorem C12_http_error_fails_before_body_witness :
    shownErrors (newEffects
      { singleShotEnv with
        fetchResult := .ok { ok := false, status := 500, body := some ⟨[utf16 "oops"], .done⟩ } }
      singleShotWorld) = [(utf16 "Error: Error HTTP: 500", utf16 "error")] ∧
    (sendMessage
      { singleShotEnv with
        fetchResult := .ok { ok := false, status := 500, body := some ⟨[utf16 "oops"], .done⟩ } }
      singleShotWorld).world.app.chatHistory =
      [⟨.user, some (.string (utf16 "Hi there")), 1⟩] :=
  have h := C12_http_error_fails_before_body
    { singleShotEnv with
      fetchResult := .ok { ok := false, status := 500, body := some ⟨[utf16 "oops"], .done⟩ } }
    singleShotWorld { ok := false, status := 500, body := some ⟨[utf16 "oops"], .done⟩ }
    (by decide) (by decide) rfl (by decide)
  ⟨h.1.trans (by decide), h.2.1.trans (by decide)⟩

/-- C17: when the trimmed input is empty or `isTyping` is true, `sendMessage` returns at
once: the application state, the page (the input field included), the aborted controllers
and the effects are what they were, so no request is issued, nothing is appended to the
transcript and nothing is displayed. While a request is in progress the typing state is set
and the send button disabled, so a further `sendMessage` is rejected in this way. -/
theorem C17_rejected_send_changes_nothing (env : SendEnv) (w : World)
    (h : (trim w.ui.messageInput).isEmpty = true ∨ w.app.isTyping = true) :
    sendMessage env w = ⟨w, none⟩ ∧
    newEffects env w = [] ∧
    (∀ (next : SendEnv) (v : World),
      (sendMessageStart next v).app.isTyping = true ∧
      (sendMessageStart next v).ui.sendDisabled = true ∧
      sendMessage env (sendMessageStart next v) = ⟨sendMessageStart next v, none⟩) := by
  have h0 := sendMessage_rejected env w h
  refine ⟨h0, ?_, ?_⟩
  · unfold newEffects; rw [h0]; simp
  · intro next v
    have ht : (sendMessageStart next v).app.isTyping = true := by
      rw [sendMessageStart_app]
    have hd : (sendMessageStart next v).ui.sendDisabled = true := by
      rw [sendMessageStart_ui]
    exact ⟨ht, hd, sendMessage_rejected env _ (Or.inr ht)⟩

/-- C17, witness: an input of white space only, and a send while the application is
typing. -/
theorem C17_rejected_send_changes_nothing_witness :
    sendMessage singleShotEnv
      { singleShotWorld with ui := { singleShotWorld.ui with messageInput := utf16 " \n\t " } } =
      ⟨{ singleShotWorld with
          ui := { singleShotWorld.ui with messageInput := utf16 " \n\t " } }, none⟩ ∧
    sendMessage singleShotEnv
      { singleShotWorld with app := { singleShotWorld.app with isTyping := true } } =
      ⟨{ singleShotWorld with app := { singleShotWorld.app with isTyping := true } }, none⟩ :=
  ⟨(C17_rejected_send_changes_nothing singleShotEnv
      { singleShotWorld with ui := { singleShotWorld.ui with messageInput := utf16 " \n\t " } }
      (Or.inl (by decide))).1,
   (C17_rejected_send_changes_nothing singleShotEnv
      { singleShotWorld with app := { singleShotWorld.app with isTyping := true } }
      (Or.inr (by decide))).1⟩

/-- C18: every execution of `sendMessage` that passes its guard ends, whatever the
settlement of `fetch`, the status and the body of the response, with `isTyping` false,
`isGenerating` false, the send button enabled and `streamController` null. -/
theorem C18_session_destroyed_at_end (env : SendEnv) (w : World)
    (hinput : (trim w.ui.messageInput).isEmpty = false)
    (htyping : w.app.isTyping = false) :
    (sendMessage env w).world.app.isTyping = false ∧
    (sendMessage env w).world.app.isGenerating = false ∧
    (sendMessage env w).world.ui.sendDisabled = false ∧
    (sendMessage env w).world.app.streamController = none := by
  obtain ⟨_, _, _, _, -, -, -, -, -, -, -, -, -, h1, h2, h3, h4, -⟩ :=
    sendMessage_world env w hinput htyping
  exact ⟨h1, h2, h4, h3⟩

/-- C18, witness: a success, an HTTP error, a rejected `fetch`, a malformed single-shot
response and a cancelled request. -/
theorem C18_session_destroyed_at_end_witness :
    (sendMessage singleShotEnv singleShotWorld).world.app.streamController = none ∧
    (sendMessage
      { singleShotEnv with
        fetchResult := .ok { ok := false, status := 404, body := some ⟨[], .done⟩ } }
      singleShotWorld).world.app.isTyping = false ∧
    (sendMessage
      { singleShotEnv with
        fetchResult := .error ⟨utf16 "TypeError", utf16 "Failed to fetch"⟩ }
      singleShotWorld).world.app.isGenerating = false ∧
    (sendMessage
      { singleShotEnv with
        fetchResult := .ok { ok := true, status := 200, body := some ⟨[utf16 "\x7b"], .done⟩ } }
      singleShotWorld).world.ui.sendDisabled = false ∧
    (sendMessage
      { singleShotEnv with
        fetchResult := .error ⟨utf16 "AbortError", utf16 "The user aborted a request."⟩ }
      singleShotWorld).world.app.streamController = none :=
  ⟨(C18_session_destroyed_at_end singleShotEnv singleShotWorld (by decide) (by decide)).2.2.2,
   (C18_session_destroyed_at_end _ singleShotWorld (by decide) (by decide)).1,
   (C18_session_destroyed_at_end _ singleShotWorld (by decide) (by decide)).2.1,
   (C18_session_destroyed_at_end _ singleShotWorld (by decide) (by decide)).2.2.1,
   (C18_session_destroyed_at_end _ singleShotWorld (by decide) (by decide)).2.2.2⟩

/-- The transcript under a call of `sendMessage` that runs to its end while nothing else
touches the state during its awaits. A rejected call leaves the transcript as it was. After
an accepted call it is the prior transcript, unchanged, followed by the new user message and
by at most one message, which is an assistant message carrying the time stamp of the
response: it is the message pushed with empty content, and only its content has been
assigned. During the call the transcript goes from the prior one to the prior one with the
user message, and from there to the final one. -/
theorem sendMessage_transcript_alone (env : SendEnv) (w : World) :
    (((trim w.ui.messageInput).isEmpty = true ∨ w.app.isTyping = true) →
      (sendMessage env w).world.app.chatHistory = w.app.chatHistory) ∧
    ((trim w.ui.messageInput).isEmpty = false → w.app.isTyping = false →
      (sendMessageStart env w).app.chatHistory = w.app.chatHistory ++ [userMessage env w] ∧
      ∃ bot : List ChatMessage, bot.length ≤ 1 ∧
        (∀ m ∈ bot, m = { (⟨.assistant, some (.string []), env.botTimestamp⟩ : ChatMessage) with
          content := m.content }) ∧
        (sendMessageTry env (sendMessageStart env w)).1.app.chatHistory =
          w.app.chatHistory ++ [userMessage env w] ++ bot ∧
        (sendMessage env w).world.app.chatHistory =
          w.app.chatHistory ++ [userMessage env w] ++ bot) := by
  constructor
  · intro h
    rw [sendMessage_rejected env w h]
  · intro hinput htyping
    obtain ⟨_, bot, _, _, -, -, hlen, hbot, htry, -, -, -, hfinal, -⟩ :=
      sendMessage_world env w hinput htyping
    refine ⟨by rw [sendMessageStart_app]; rfl, bot, hlen, ?_, htry, hfinal⟩
    intro m hm
    obtain ⟨h1, h2⟩ := hbot m hm
    cases m with
    | mk role content timestamp =>
      simp only at h1 h2
      simp [h1, h2]

/-- The transcript of a chat in progress after a single-shot exchange and after an HTTP
error, each call running alone. -/
theorem sendMessage_transcript_alone_example :
    (sendMessage singleShotEnv
      { singleShotWorld with
        app := { singleShotWorld.app with
          chatHistory := [⟨.user, some (.string (utf16 "a")), 0⟩,
            ⟨.assistant, some (.string (utf16 "b")), 0⟩] } }).world.app.chatHistory =
      [⟨.user, some (.string (utf16 "a")), 0⟩, ⟨.assistant, some (.string (utf16 "b")), 0⟩,
       ⟨.user, some (.string (utf16 "Hi there")), 1⟩,
       ⟨.assistant, some (.string (utf16 "Hi")), 2⟩] ∧
    ∃ bot : List ChatMessage, bot.length ≤ 1 ∧
      (sendMessage
        { singleShotEnv with
          fetchResult := .ok { ok := false, status := 404, body := some ⟨[], .done⟩ } }
        singleShotWorld).world.app.chatHistory =
        singleShotWorld.app.chatHistory ++
          [userMessage
            { singleShotEnv with
              fetchResult := .ok { ok := false, status := 404, body := some ⟨[], .done⟩ } }
            singleShotWorld] ++ bot :=
  ⟨by decide,
   have h := (sendMessage_transcript_alone
      { singleShotEnv with
        fetchResult := .ok { ok := false, status := 404, body := some ⟨[], .done⟩ } }
      singleShotWorld).2 (by decide) (by decide)
   h.2.elim fun bot hb => ⟨bot, hb.1, hb.2.2.2⟩⟩

/-- C13, counterexample: the single-shot exchange of `singleShotEnv` has ended, so
`streamController` is null and `isGenerating` and `isTyping` are false, and no notification
has been shown. `UIManager.stopGeneration`, the handler of the stop button, called in that
state shows the notification `Generación detenida por el usuario`. -/
theorem C13_stop_handler_notifies_after_end :
    endedWorld.app.streamController = none ∧
    endedWorld.app.isGenerating = false ∧
    endedWorld.app.isTyping = false ∧
    shownErrors endedWorld.effects = [] ∧
    shownErrors (UIManager.stopGeneration endedWorld).effects =
      [(utf16 "Generación detenida por el usuario", utf16 "info")] := by
  decide

/-- C13, amended: in a terminal state (`streamController` null, `isGenerating` false,
`isTyping` false) `AppState.stopGeneration` aborts nothing, leaves every field of the
application state unchanged and makes no effect; it puts the send button, the stop button and
the typing indicator in their idle state, so after a `sendMessage` that has ended it changes
nothing at all. `UIManager.stopGeneration` does the same and then, unconditionally, shows the
notification `Generación detenida por el usuario` of type `info`. -/
theorem C13_stop_after_end (w : World)
    (hcontroller : w.app.streamController = none)
    (hgenerating : w.app.isGenerating = false)
    (htyping : w.app.isTyping = false) :
    (AppState.stopGeneration w).app = w.app ∧
    (AppState.stopGeneration w).aborted = w.aborted ∧
    (AppState.stopGeneration w).effects = w.effects ∧
    (AppState.stopGeneration w).ui =
      { w.ui with
        sendDisabled := false
        stopButton := w.ui.stopButton.map fun _ => false
        typingIndicator := false } ∧
    (∀ (env : SendEnv) (v : World),
      (trim v.ui.messageInput).isEmpty = false → v.app.isTyping = false →
      AppState.stopGeneration (sendMessage env v).world = (sendMessage env v).world) ∧
    (UIManager.stopGeneration w).app = w.app ∧
    (UIManager.stopGeneration w).aborted = w.aborted ∧
    (UIManager.stopGeneration w).effects =
      w.effects ++ [.showError (utf16 "Generación detenida por el usuario") (utf16 "info")] := by
  have happ : (AppState.stopGeneration w).app = w.app := by
    cases w with
    | mk app ui aborted effects =>
      cases app
      simp only at hcontroller hgenerating htyping
      subst hcontroller hgenerating htyping
      rfl
  have hab : (AppState.stopGeneration w).aborted = w.aborted := by
    simp [AppState.stopGeneration, hcontroller, setTypingState]
  have heff : (AppState.stopGeneration w).effects = w.effects := by
    simp [AppState.stopGeneration, hcontroller, setTypingState]
  have hui : (AppState.stopGeneration w).ui =
      { w.ui with
        sendDisabled := false
        stopButton := w.ui.stopButton.map fun _ => false
        typingIndicator := false } := by
    simp [AppState.stopGeneration, hcontroller, setTypingState]
  refine ⟨happ, hab, heff, hui, ?_, ?_, ?_, ?_⟩
  · intro env v hinput hv
    rw [sendMessage_accepted env v hinput hv]
    obtain ⟨fapp, fui, -, -⟩ := sendMessageFinally_world env
      (sendMessageCatch (sendMessageTry env (sendMessageStart env v)).1
        (sendMessageTry env (sendMessageStart env v)).2)
    generalize (sendMessageFinally env
      (sendMessageCatch (sendMessageTry env (sendMessageStart env v)).1
        (sendMessageTry env (sendMessageStart env v)).2)).world = t at fapp fui
    generalize (sendMessageCatch (sendMessageTry env (sendMessageStart env v)).1
        (sendMessageTry env (sendMessageStart env v)).2) = u at fapp fui
    cases t with
    | mk app ui aborted effects =>
      simp only at fapp fui
      subst fapp fui
      simp only [AppState.stopGeneration, setTypingState]
      cases h : u.ui.stopButton <;> simp [h]
  · simp [UIManager.stopGeneration, World.emit, happ]
  · simp [UIManager.stopGeneration, World.emit, hab]
  · simp [UIManager.stopGeneration, World.emit, heff]

/-- C13, witness: the stop after the exchange of `singleShotEnv` has ended. -/
theorem C13_stop_after_end_witness :
    AppState.stopGeneration endedWorld = endedWorld ∧
    (UIManager.stopGeneration endedWorld).app = endedWorld.app ∧
    (UIManager.stopGeneration endedWorld).effects =
      endedWorld.effects ++
        [.showError (utf16 "Generación detenida por el usuario") (utf16 "info")] :=
  have h := C13_stop_after_end endedWorld (by decide) (by decide) (by decide)
  ⟨h.2.2.2.2.1 singleShotEnv singleShotWorld (by decide) (by decide), h.2.2.2.2.2.1,
    h.2.2.2.2.2.2.2⟩

/-- C20, counterexample: on a stream that delivers one chunk and ends, on one whose second
read rejects because the request was aborted, and on one whose first read rejects with a
network error, `handleStreamingResponse` gets the reader and reads; it never calls
`releaseLock` or `cancel`, and the body is still locked to the reader when the call
returns. -/
theorem C20_reader_still_locked_at_exit :
    readerCalls ⟨[frameLine "He" ++ [newline]], .done⟩ = [.getReader, .read, .read] ∧
    lockedAfter (readerCalls ⟨[frameLine "He" ++ [newline]], .done⟩) = true ∧
    readerCalls
      ⟨[frameLine "He" ++ [newline]],
        .failed ⟨utf16 "AbortError", utf16 "The user aborted a request."⟩⟩ =
      [.getReader, .read, .read] ∧
    lockedAfter (readerCalls
      ⟨[frameLine "He" ++ [newline]],
        .failed ⟨utf16 "AbortError", utf16 "The user aborted a request."⟩⟩) = true ∧
    readerCalls ⟨[], .failed ⟨utf16 "TypeError", utf16 "network error"⟩⟩ =
      [.getReader, .read] ∧
    lockedAfter (readerCalls ⟨[], .failed ⟨utf16 "TypeError", utf16 "network error"⟩⟩) =
      true := by
  decide

/-- C20, amended: on every stream, however it ends, `handleStreamingResponse` calls
`getReader` once, then `read` once for each chunk delivered and once more for the read that
reports the end or rejects; it calls neither `releaseLock` nor `cancel`, so the body is
still locked to the reader at every exit of the read loop. -/
theorem C20_reader_only_read (body : BodyStream) :
    readerCalls body = .getReader :: List.replicate (body.chunks.length + 1) .read ∧
    ReaderCall.releaseLock ∉ readerCalls body ∧
    ReaderCall.cancel ∉ readerCalls body ∧
    lockedAfter (readerCalls body) = true := by
  have h : readerCalls body = .getReader :: List.replicate (body.chunks.length + 1) .read := by
    rw [readerCalls, readLoopCalls_eq]
  refine ⟨h, ?_, ?_, ?_⟩
  · rw [h]; simp
  · rw [h]; simp
  · rw [h]
    simp only [lockedAfter, List.foldl_cons]
    exact foldl_read_locked _ true

/-- C16, evaluation of the failing interleaving. The first message is sent and its response
streams; during the pacing delay after the first fragment the user stops the generation,
which resets the typing state although the first execution of `sendMessage` is still
suspended. The guard therefore accepts the next message: two executions are in progress, the
second owning `streamController`. When the pending promises of the first have settled, its
`finally` block clears the typing state and `streamController` while the second still awaits
`fetch`: the send button is enabled, the stop button is hidden, a further stop aborts
nothing, and a third message is accepted as well. Without the stop the same events leave the
second message rejected, and each request run alone ends as `sendMessage` describes. -/
theorem C16_stopped_session_overlaps_next :
    (Machine.run ⟨idleStreamingWorld, []⟩ (overlapEvents.take 3)).active = [true] ∧
    (Machine.run ⟨idleStreamingWorld, []⟩ (overlapEvents.take 4)).active = [true] ∧
    (Machine.run ⟨idleStreamingWorld, []⟩ (overlapEvents.take 4)).world.app.isTyping = false ∧
    (Machine.run ⟨idleStreamingWorld, []⟩ overlapEvents).active = [true, true] ∧
    (Machine.run ⟨idleStreamingWorld, []⟩ overlapEvents).world.app.isTyping = true ∧
    (Machine.run ⟨idleStreamingWorld, []⟩ overlapEvents).world.app.streamController = some 1 ∧
    (Machine.run ⟨idleStreamingWorld, []⟩ (overlapEvents ++ drainEvents)).active =
      [false, true] ∧
    (Machine.run ⟨idleStreamingWorld, []⟩ (overlapEvents ++ drainEvents)).world.app.isTyping =
      false ∧
    (Machine.run ⟨idleStreamingWorld, []⟩
      (overlapEvents ++ drainEvents)).world.app.streamController = none ∧
    (Machine.run ⟨idleStreamingWorld, []⟩ (overlapEvents ++ drainEvents)).world.ui.sendDisabled =
      false ∧
    (Machine.run ⟨idleStreamingWorld, []⟩ (overlapEvents ++ drainEvents)).world.ui.stopButton =
      some false ∧
    (Machine.run ⟨idleStreamingWorld, []⟩
      (overlapEvents ++ drainEvents ++ [.stop])).world.aborted = [0] ∧
    (Machine.run ⟨idleStreamingWorld, []⟩
      (overlapEvents ++ drainEvents ++
        [.input (utf16 "once more"),
         .send secondEnv (utf16 "The user aborted a request.")])).active =
      [false, true, true] ∧
    (Machine.run ⟨idleStreamingWorld, []⟩
      (overlapEvents.take 3 ++ overlapEvents.drop 4)).active = [true] ∧
    (Machine.run ⟨idleStreamingWorld, []⟩
      (.send firstEnv (utf16 "The user aborted a request.") ::
        List.replicate 8 (.settle 0))).active = [false] ∧
    (Machine.run ⟨idleStreamingWorld, []⟩
      (.send firstEnv (utf16 "The user aborted a request.") ::
        List.replicate 8 (.settle 0))).world = (sendMessage firstEnv idleStreamingWorld).world ∧
    (Machine.run ⟨singleShotWorld, []⟩
      (.send singleShotEnv (utf16 "The user aborted a request.") ::
        List.replicate 2 (.settle 0))).active = [false] ∧
    (Machine.run ⟨singleShotWorld, []⟩
      (.send singleShotEnv (utf16 "The user aborted a request.") ::
        List.replicate 2 (.settle 0))).world =
      (sendMessage singleShotEnv singleShotWorld).world := by
  exact ⟨rfl, rfl, rfl, rfl, rfl, rfl, rfl, rfl, rfl, rfl, rfl, rfl, rfl, rfl, rfl, rfl, rfl, rfl⟩

/-- C21: an accepted `sendMessage` issues exactly one request to the chat endpoint, whatever
the outcome of the request. Its body has `prompt` equal to the trimmed input, `stream` equal
to `appState.isStreaming`, `tools` equal to `appState.activeTools`, and `chat_history` equal
to the transcript with the new user message appended, whose last element has the prompt as
its content. -/
theorem C21_one_request_with_prompt_and_history (env : SendEnv) (w : World)
    (hinput : (trim w.ui.messageInput).isEmpty = false)
    (htyping : w.app.isTyping = false) :
    chatRequests (newEffects env w) =
      [{ prompt := trim w.ui.messageInput
         modelName := w.ui.modelSelect
         stream := w.app.isStreaming
         tools := w.app.activeTools
         username := w.app.currentUser
         chatHistory := w.app.chatHistory ++ [userMessage env w] }] ∧
    (w.app.chatHistory ++ [userMessage env w] = (sendMessageStart env w).app.chatHistory) ∧
    ((w.app.chatHistory ++ [userMessage env w]).getLast?.map ChatMessage.content =
      some (some (.string (trim w.ui.messageInput)))) := by
  refine ⟨?_, ?_, ?_⟩
  · rw [chatRequests_newEffects env w hinput htyping]
    unfold startEffects
    by_cases h : w.ui.welcomeScreenShown = true <;> simp [h, chatRequests, userMessage]
  · rw [sendMessageStart_app]; rfl
  · simp [userMessage]

/-- C21, witness: the single-shot exchange of `singleShotEnv` and the same message answered
with status 500. -/
theorem C21_one_request_with_prompt_and_history_witness :
    chatRequests (newEffects singleShotEnv singleShotWorld) =
      [{ prompt := utf16 "Hi there", modelName := utf16 "orzion", stream := false, tools := [],
         username := none,
         chatHistory := [⟨.user, some (.string (utf16 "Hi there")), 1⟩] }] ∧
    (chatRequests (newEffects
      { singleShotEnv with
        fetchResult := .ok { ok := false, status := 500, body := some ⟨[], .done⟩ } }
      singleShotWorld)).length = 1 :=
  ⟨(C21_one_request_with_prompt_and_history singleShotEnv singleShotWorld
      (by decide) (by decide)).1.trans (by decide),
   by rw [(C21_one_request_with_prompt_and_history _ singleShotWorld
      (by decide) (by decide)).1]; rfl⟩

/-- C23, amended: on the chunk texts as decoded. When the texts that `decoder.decode` returns
for the reads are such that every one but the last is empty or ends with a line feed,
`handleStreamingResponse` extracts the same fragments, ends with the same content and makes
the same effects as when the concatenation of those texts arrives as one chunk. -/
theorem C23_cut_after_newlines_same_as_one_chunk (text : JSString) (chunks : List JSString)
    (hcut : chunks.flatten = text) (hlines : cutsAfterNewlines chunks = true)
    (ending : StreamEnd) (timestamp : Nat) (content : JSString) :
    extractedFragments chunks = extractedFragments [text] ∧
    (handleStreamingResponse ⟨chunks, ending⟩ timestamp content).content =
      (handleStreamingResponse ⟨[text], ending⟩ timestamp content).content ∧
    handleStreamingResponse ⟨chunks, ending⟩ timestamp content =
      handleStreamingResponse ⟨[text], ending⟩ timestamp content := by
  have h1 : extractedFragments chunks = extractedFragments [text] := by
    rw [extractedFragments_flatten chunks hlines, hcut]
    simp [extractedFragments]
  have h2 := handleStreamingResponse_congr chunks [text] h1 ending timestamp content
  exact ⟨h1, by rw [h2], h2⟩

/-- C23, witness: three decoded lines, one of them not a frame, cut after the first and after
the second line feed. -/
theorem C23_cut_after_newlines_same_as_one_chunk_witness :
    (handleStreamingResponse
      ⟨[frameLine "He" ++ [newline], utf16 ": ping\n", frameLine "llo" ++ [newline]], .done⟩
      0 []).content = utf16 "Hello" ∧
    (handleStreamingResponse
      ⟨[frameLine "He" ++ [newline] ++ utf16 ": ping\n" ++ (frameLine "llo" ++ [newline])],
        .done⟩ 0 []).content = utf16 "Hello" :=
  have h := C23_cut_after_newlines_same_as_one_chunk
    (frameLine "He" ++ [newline] ++ utf16 ": ping\n" ++ (frameLine "llo" ++ [newline]))
    [frameLine "He" ++ [newline], utf16 ": ping\n", frameLine "llo" ++ [newline]]
    (by decide) (by decide) .done 0 []
  ⟨by decide, h.2.1 ▸ (by decide)⟩

/-- C24: on the single-shot path, when the JSON of the OK response has been parsed and the
read of `choices[0].message.content` throws, `sendMessage` shows exactly one error, the
`TypeError` of the read, and displays no assistant message; the transcript ends with the
assistant message pushed before the read, its content still empty, and that transcript is
the one handed to `saveChatToServer` by `saveCurrentChat`. -/
theorem C24_extraction_error_leaves_empty_message (env : SendEnv) (w : World)
    (response : Response) (data : JsonValue)
    (hinput : (trim w.ui.messageInput).isEmpty = false)
    (htyping : w.app.isTyping = false)
    (hstream : w.app.isStreaming = false)
    (hfetch : env.fetchResult = .ok response)
    (hok : response.ok = true)
    (hjson : responseJson response.body env.syntaxErrorMessage = .ok data)
    (hthrow : readMessageContent data = .throw) :
    shownErrors (newEffects env w) =
      [(utf16 "Error: " ++ env.typeErrorMessage, utf16 "error")] ∧
    assistantRenders (newEffects env w) = [] ∧
    (sendMessage env w).world.app.chatHistory =
      w.app.chatHistory ++
        [userMessage env w, ⟨.assistant, some (.string []), env.botTimestamp⟩] ∧
    ((sendMessage env w).rejected = none →
      ∃ title, newEffects env w =
        startEffects env w ++
          [.showError (utf16 "Error: " ++ env.typeErrorMessage) (utf16 "error"),
           .saveChatToServer
            { id := w.app.currentChatId
              title := title
              messages := w.app.chatHistory ++
                [userMessage env w, ⟨.assistant, some (.string []), env.botTimestamp⟩]
              username := w.app.currentUser }]) := by
  have hs : (sendMessageStart env w).app.isStreaming = false := by
    rw [sendMessageStart_app]; exact hstream
  have htry := sendMessageTry_singleShot env (sendMessageStart env w) response data hs
    hfetch hok hjson
  rw [hthrow] at htry
  simp only [] at htry
  have hname : (⟨utf16 "TypeError", env.typeErrorMessage⟩ : JSError).name ≠
      utf16 "AbortError" := by
    show utf16 "TypeError" ≠ utf16 "AbortError"
    decide
  have hacc := sendMessage_accepted env w hinput htyping
  rw [htry] at hacc
  simp only [sendMessageCatch, hname, ne_eq, not_false_eq_true, if_true] at hacc
  obtain ⟨happ, -, -, saved, hsaved, hsv⟩ := sendMessageFinally_world env
    (((sendMessageStart env w).pushMessage
      ⟨.assistant, some (.string []), env.botTimestamp⟩).emit
      (.showError (utf16 "Error: " ++ env.typeErrorMessage) (utf16 "error")))
  have hhist : (((sendMessageStart env w).pushMessage
      ⟨.assistant, some (.string []), env.botTimestamp⟩).emit
      (.showError (utf16 "Error: " ++ env.typeErrorMessage) (utf16 "error"))).app.chatHistory =
      w.app.chatHistory ++
        [userMessage env w, ⟨.assistant, some (.string []), env.botTimestamp⟩] := by
    simp [World.emit, World.pushMessage, sendMessageStart_app, userMessage]
  have heff : newEffects env w = startEffects env w ++
      [.showError (utf16 "Error: " ++ env.typeErrorMessage) (utf16 "error")] ++ saved := by
    unfold newEffects
    rw [hacc, hsaved]
    simp only [World.emit, World.pushMessage, sendMessageStart_effects, List.append_assoc,
      List.drop_left]
  refine ⟨?_, ?_, ?_, ?_⟩
  · rw [heff]
    simp only [shownErrors_append, shownErrors_startEffects, shownErrors_saved saved hsv]
    simp [shownErrors]
  · rw [heff]
    simp only [assistantRenders_append, assistantRenders_startEffects,
      assistantRenders_saved saved hsv]
    simp [assistantRenders]
  · rw [hacc, happ]
    exact hhist
  · intro hrej
    rw [hacc] at hrej
    obtain ⟨title, ht⟩ := sendMessageFinally_saved env _ hrej (by rw [hhist]; simp)
    refine ⟨title, ?_⟩
    unfold newEffects
    rw [hacc, ht, hhist]
    simp [World.emit, World.pushMessage, sendMessageStart_effects, sendMessageStart_app]

/-- C24, witness: the responses `{}` and `{"choices":[]}`. -/
theorem C24_extraction_error_leaves_empty_message_witness :
    (sendMessage
      { singleShotEnv with
        fetchResult := .ok { ok := true, status := 200, body := some ⟨[utf16 "\x7b\x7d"], .done⟩ } }
      singleShotWorld).world.app.chatHistory =
      [⟨.user, some (.string (utf16 "Hi there")), 1⟩, ⟨.assistant, some (.string []), 2⟩] ∧
    shownErrors (newEffects
      { singleShotEnv with
        fetchResult := .ok
          { ok := true, status := 200, body := some ⟨[utf16 "\x7b\"choices\":[]\x7d"], .done⟩ } }
      singleShotWorld) =
      [(utf16 "Error: Cannot read properties of undefined", utf16 "error")] :=
  ⟨(C24_extraction_error_leaves_empty_message
      { singleShotEnv with
        fetchResult := .ok { ok := true, status := 200, body := some ⟨[utf16 "\x7b\x7d"], .done⟩ } }
      singleShotWorld
      { ok := true, status := 200, body := some ⟨[utf16 "\x7b\x7d"], .done⟩ } (.object [])
      (by decide) (by decide) (by decide) rfl (by decide) rfl (by decide)).2.2.1.trans
      (by decide),
   (C24_extraction_error_leaves_empty_message
      { singleShotEnv with
        fetchResult := .ok
          { ok := true, status := 200, body := some ⟨[utf16 "\x7b\"choices\":[]\x7d"], .done⟩ } }
      singleShotWorld
      { ok := true, status := 200, body := some ⟨[utf16 "\x7b\"choices\":[]\x7d"], .done⟩ }
      (.object [(PropertyName.choices.text, .array [])])
      (by decide) (by decide) (by decide) rfl (by decide) rfl (by decide)).1.trans
      (by decide)⟩

/-- C25: from any state `AppState.stopGeneration` aborts the current controller, if there is
one, and nothing else; it ends with `streamController` null, `isGenerating` false and
`isTyping` false, and leaves every other field of the application state as it was, among
them `chatHistory` with the content streamed so far, `currentChatId`, `currentUser`,
`isStreaming` and `activeTools`. The content of a streaming call that is stopped is left as
it is as well, and no effect is made. -/
theorem C25_stop_resets_session_only (w : World) :
    (AppState.stopGeneration w).aborted = w.app.streamController.toList ++ w.aborted ∧
    (AppState.stopGeneration w).app =
      { w.app with streamController := none, isGenerating := false, isTyping := false } ∧
    (AppState.stopGeneration w).app.streamController = none ∧
    (AppState.stopGeneration w).app.isGenerating = false ∧
    (AppState.stopGeneration w).app.isTyping = false ∧
    (AppState.stopGeneration w).app.chatHistory = w.app.chatHistory ∧
    (AppState.stopGeneration w).app.currentChatId = w.app.currentChatId ∧
    (AppState.stopGeneration w).app.currentUser = w.app.currentUser ∧
    (AppState.stopGeneration w).app.isStreaming = w.app.isStreaming ∧
    (AppState.stopGeneration w).app.activeTools = w.app.activeTools ∧
    (AppState.stopGeneration w).effects = w.effects ∧
    (∀ s : Session, s.stop.stream = s.stream) := by
  have happ : (AppState.stopGeneration w).app =
      { w.app with streamController := none, isGenerating := false, isTyping := false } := by
    unfold AppState.stopGeneration
    cases h : w.app.streamController <;> simp [setTypingState, h]
  refine ⟨?_, happ, ?_, ?_, ?_, ?_, ?_, ?_, ?_, ?_, ?_, fun s => rfl⟩
  · unfold AppState.stopGeneration
    cases h : w.app.streamController <;> simp [setTypingState]
  all_goals first
    | rw [happ]
    | (unfold AppState.stopGeneration
       cases h : w.app.streamController <;> simp [setTypingState])

/-- C26: `generateChatTitle` returns `Nuevo Chat` when the transcript is empty. When the
content of the first message is the text `c`, it returns `c` itself if `c` has at most 50
code units, and the first 50 code units of `c` followed by `...` if `c` is longer; the title
has at most 53 code units, and the first 50 code units of `c` (all of `c` when it is
shorter) are a prefix of `c` and of the title. -/
theorem C26_chat_title (app : AppState) :
    (app.chatHistory = [] → generateChatTitle app = .normal (utf16 "Nuevo Chat")) ∧
    (∀ (first : ChatMessage) (rest : List ChatMessage) (c : JSString),
      app.chatHistory = first :: rest → first.content = some (.string c) →
      ∃ title, generateChatTitle app = .normal title ∧
        (c.length ≤ 50 → title = c) ∧
        (50 < c.length → title = c.take 50 ++ utf16 "...") ∧
        title.length ≤ 53 ∧
        c.take 50 <+: c ∧ c.take 50 <+: title) := by
  constructor
  · intro h
    simp [generateChatTitle, h]
  · intro first rest c h hc
    refine ⟨c.take 50 ++ if 50 < c.length then utf16 "..." else [], ?_, ?_, ?_, ?_, ?_, ?_⟩
    · simp [generateChatTitle, h, hc]
    · intro hle
      rw [if_neg (by omega), List.append_nil, List.take_of_length_le hle]
    · intro hlt
      rw [if_pos hlt]
    · have h3 : (utf16 "...").length = 3 := by decide
      split
      · simp only [List.length_append, List.length_take, h3]; omega
      · simp only [List.length_append, List.length_take, List.length_nil]; omega
    · exact List.take_prefix _ _
    · exact List.prefix_append _ _

/-- C26, witness: an empty transcript, a short first message and one of 60 code units. -/
theorem C26_chat_title_witness :
    generateChatTitle singleShotWorld.app = .normal (utf16 "Nuevo Chat") ∧
    generateChatTitle (sendMessage singleShotEnv singleShotWorld).world.app =
      .normal (utf16 "Hi there") ∧
    generateChatTitle
      { singleShotWorld.app with
        chatHistory := [⟨.user, some (.string (List.replicate 60 97)), 0⟩] } =
      .normal (List.replicate 50 97 ++ utf16 "...") :=
  ⟨(C26_chat_title singleShotWorld.app).1 (by decide),
   ((C26_chat_title (sendMessage singleShotEnv singleShotWorld).world.app).2
      ⟨.user, some (.string (utf16 "Hi there")), 1⟩
      [⟨.assistant, some (.string (utf16 "Hi")), 2⟩] (utf16 "Hi there")
      (by decide) rfl).elim fun title ht => ht.1.trans (by rw [ht.2.1 (by decide)]),
   ((C26_chat_title
      { singleShotWorld.app with
        chatHistory := [⟨.user, some (.string (List.replicate 60 97)), 0⟩] }).2
      ⟨.user, some (.string (List.replicate 60 97)), 0⟩ [] (List.replicate 60 97)
      rfl rfl).elim fun title ht => ht.1.trans (by rw [ht.2.2.1 (by decide)]; decide)⟩

/-- C22: `handleRegister` sends a registration request exactly when the trimmed user name
and the password are both non-empty, the trimmed user name has at least 3 code units and the
password at least 4; the request then carries the trimmed user name and the password, and it
is the only one. Otherwise the only effect after `preventDefault` is one validation message,
chosen in the order missing field, short user name, short password; nothing is sent and the
user is not set. -/
theorem C22_register_validation (env : RegisterEnv) (usernameValue passwordValue : JSString) :
    (((trim usernameValue).isEmpty = true ∨ passwordValue.isEmpty = true) →
      handleRegister env usernameValue passwordValue =
        [.preventDefault,
         .showError (.string (utf16 "Por favor complete todos los campos"))]) ∧
    ((trim usernameValue).isEmpty = false → passwordValue.isEmpty = false →
      (trim usernameValue).length < 3 →
      handleRegister env usernameValue passwordValue =
        [.preventDefault,
         .showError (.string (utf16 "El username debe tener al menos 3 caracteres"))]) ∧
    (passwordValue.isEmpty = false → 3 ≤ (trim usernameValue).length →
      passwordValue.length < 4 →
      handleRegister env usernameValue passwordValue =
        [.preventDefault,
         .showError (.string (utf16 "La contraseña debe tener al menos 4 caracteres"))]) ∧
    (3 ≤ (trim usernameValue).length → 4 ≤ passwordValue.length →
      registerRequests (handleRegister env usernameValue passwordValue) =
        [(trim usernameValue, passwordValue)]) ∧
    (¬(3 ≤ (trim usernameValue).length ∧ 4 ≤ passwordValue.length) →
      registerRequests (handleRegister env usernameValue passwordValue) = [] ∧
      usersSet (handleRegister env usernameValue passwordValue) = []) ∧
    ((∃ username password,
        AuthEffect.registerRequest username password ∈
          handleRegister env usernameValue passwordValue) ↔
      (trim usernameValue).isEmpty = false ∧ passwordValue.isEmpty = false ∧
        3 ≤ (trim usernameValue).length ∧ 4 ≤ passwordValue.length) := by
  have hempty : ∀ l : JSString, l.isEmpty = true ↔ l.length = 0 := by
    intro l; cases l <;> simp
  have h1 : ((trim usernameValue).isEmpty = true ∨ passwordValue.isEmpty = true) →
      handleRegister env usernameValue passwordValue =
        [.preventDefault,
         .showError (.string (utf16 "Por favor complete todos los campos"))] := by
    intro h
    unfold handleRegister
    rcases h with h | h <;> simp [h]
  have h2 : (trim usernameValue).isEmpty = false → passwordValue.isEmpty = false →
      (trim usernameValue).length < 3 →
      handleRegister env usernameValue passwordValue =
        [.preventDefault,
         .showError (.string (utf16 "El username debe tener al menos 3 caracteres"))] := by
    intro hu hp hlen
    unfold handleRegister
    simp [hu, hp, hlen]
  have h3 : passwordValue.isEmpty = false → 3 ≤ (trim usernameValue).length →
      passwordValue.length < 4 →
      handleRegister env usernameValue passwordValue =
        [.preventDefault,
         .showError (.string (utf16 "La contraseña debe tener al menos 4 caracteres"))] := by
    intro hp hu hlen
    have hu' : (trim usernameValue).isEmpty = false := by
      cases h : (trim usernameValue).isEmpty
      · rfl
      · rw [(hempty _).mp h] at hu; omega
    unfold handleRegister
    simp [hu', hp, hlen, Nat.not_lt.mpr hu]
  have h4 : 3 ≤ (trim usernameValue).length → 4 ≤ passwordValue.length →
      handleRegister env usernameValue passwordValue =
        [.preventDefault,
         .consoleLog (utf16 "Intentando registro para usuario:") (.text (trim usernameValue)),
         .registerRequest (trim usernameValue) passwordValue] ++
          registerResponse env (trim usernameValue) := by
    intro hu hp
    have hu' : (trim usernameValue).isEmpty = false := by
      cases h : (trim usernameValue).isEmpty
      · rfl
      · rw [(hempty _).mp h] at hu; omega
    have hp' : passwordValue.isEmpty = false := by
      cases h : passwordValue.isEmpty
      · rfl
      · rw [(hempty _).mp h] at hp; omega
    unfold handleRegister
    simp [hu', hp', Nat.not_lt.mpr hu, Nat.not_lt.mpr hp]
  have h5 : ¬(3 ≤ (trim usernameValue).length ∧ 4 ≤ passwordValue.length) →
      ∃ message, handleRegister env usernameValue passwordValue =
        [.preventDefault, .showError message] := by
    intro hn
    by_cases hu : (trim usernameValue).isEmpty = true
    · exact ⟨_, h1 (Or.inl hu)⟩
    · by_cases hp : passwordValue.isEmpty = true
      · exact ⟨_, h1 (Or.inr hp)⟩
      · have hu' : (trim usernameValue).isEmpty = false := by simpa using hu
        have hp' : passwordValue.isEmpty = false := by simpa using hp
        by_cases hl : (trim usernameValue).length < 3
        · exact ⟨_, h2 hu' hp' hl⟩
        · exact ⟨_, h3 hp' (by omega) (by omega)⟩
  refine ⟨h1, h2, h3, ?_, ?_, ?_⟩
  · intro hu hp
    rw [h4 hu hp]
    have hr := registerRequests_registerResponse env (trim usernameValue)
    unfold registerRequests at hr ⊢
    rw [List.filterMap_append, hr]
    rfl
  · intro hn
    obtain ⟨message, hm⟩ := h5 hn
    rw [hm]
    exact ⟨rfl, rfl⟩
  · constructor
    · rintro ⟨username, password, hmem⟩
      by_contra hn
      have hn' : ¬(3 ≤ (trim usernameValue).length ∧ 4 ≤ passwordValue.length) := by
        intro hv
        apply hn
        refine ⟨?_, ?_, hv.1, hv.2⟩
        · cases h : (trim usernameValue).isEmpty
          · rfl
          · have := (hempty _).mp h; omega
        · cases h : passwordValue.isEmpty
          · rfl
          · have := (hempty _).mp h; omega
      obtain ⟨message, hm⟩ := h5 hn'
      rw [hm] at hmem
      simp at hmem
    · rintro ⟨-, -, hu, hp⟩
      exact ⟨trim usernameValue, passwordValue, by rw [h4 hu hp]; simp⟩

/-- C22, witness: a user name of two code units after trimming, a password of three, an
empty user name, and a valid pair. -/
theorem C22_register_validation_witness :
    handleRegister acceptingEnv (utf16 "  ab ") (utf16 "secret") =
      [.preventDefault,
       .showError (.string (utf16 "El username debe tener al menos 3 caracteres"))] ∧
    handleRegister acceptingEnv (utf16 " abc ") (utf16 "sec") =
      [.preventDefault,
       .showError (.string (utf16 "La contraseña debe tener al menos 4 caracteres"))] ∧
    handleRegister acceptingEnv (utf16 "   ") (utf16 "sec") =
      [.preventDefault,
       .showError (.string (utf16 "Por favor complete todos los campos"))] ∧
    registerRequests (handleRegister acceptingEnv (utf16 " abc ") (utf16 "secr")) =
      [(utf16 "abc", utf16 "secr")] :=
  ⟨(C22_register_validation acceptingEnv (utf16 "  ab ") (utf16 "secret")).2.1
      (by decide) (by decide) (by decide),
   (C22_register_validation acceptingEnv (utf16 " abc ") (utf16 "sec")).2.2.1
      (by decide) (by decide) (by decide),
   (C22_register_validation acceptingEnv (utf16 "   ") (utf16 "sec")).1
      (Or.inl (by decide)),
   (C22_register_validation acceptingEnv (utf16 " abc ") (utf16 "secr")).2.2.2.1
      (by decide) (by decide)⟩

/-- C27: for every user agent text, window size and touch capability the detector is
given one of the four device types, which are distinct. The type is `tablet` exactly when
`isTablet` holds, whether or not `isMobile` holds; `mobile` exactly when `isMobile` holds and
`isTablet` does not; `desktop` exactly when `isDesktop` holds, which requires that neither
`isMobile` nor `isTablet` holds and that the window is wider than 1024; and `unknown` in
the remaining case. `isDesktop` is never true together with `isMobile` or `isTablet`. -/
theorem C27_device_type_classification (env : DeviceEnv) :
    (DeviceDetector.new env).deviceType ∈
      [utf16 "mobile", utf16 "tablet", utf16 "desktop", utf16 "unknown"] ∧
    [utf16 "mobile", utf16 "tablet", utf16 "desktop", utf16 "unknown"].Nodup ∧
    ((DeviceDetector.new env).isTablet = true →
      (DeviceDetector.new env).deviceType = utf16 "tablet") ∧
    ((DeviceDetector.new env).deviceType = utf16 "tablet" ↔
      (DeviceDetector.new env).isTablet = true) ∧
    ((DeviceDetector.new env).deviceType = utf16 "mobile" ↔
      ((DeviceDetector.new env).isMobile = true ∧
        (DeviceDetector.new env).isTablet = false)) ∧
    ((DeviceDetector.new env).deviceType = utf16 "desktop" ↔
      (DeviceDetector.new env).isDesktop = true) ∧
    ((DeviceDetector.new env).deviceType = utf16 "desktop" →
      (DeviceDetector.new env).isMobile = false ∧
        (DeviceDetector.new env).isTablet = false ∧ 1024 < env.innerWidth) ∧
    ((DeviceDetector.new env).deviceType = utf16 "unknown" ↔
      ((DeviceDetector.new env).isMobile = false ∧
        (DeviceDetector.new env).isTablet = false ∧
        (DeviceDetector.new env).isDesktop = false)) ∧
    ¬((DeviceDetector.new env).isDesktop = true ∧
      ((DeviceDetector.new env).isMobile = true ∨
        (DeviceDetector.new env).isTablet = true)) := by
  have hd : detectDesktop env =
      (!detectMobile env && !detectTablet env && decide (env.innerWidth > 1024)) := rfl
  have hne : utf16 "mobile" ≠ utf16 "tablet" ∧ utf16 "mobile" ≠ utf16 "desktop" ∧
      utf16 "mobile" ≠ utf16 "unknown" ∧ utf16 "tablet" ≠ utf16 "desktop" ∧
      utf16 "tablet" ≠ utf16 "unknown" ∧ utf16 "desktop" ≠ utf16 "unknown" := by decide
  obtain ⟨n1, n2, n3, n4, n5, n6⟩ := hne
  simp only [DeviceDetector.new, getDeviceType]
  rw [hd]
  refine ⟨?_, by decide, ?_⟩
  · cases detectMobile env <;> cases detectTablet env <;>
      by_cases hw : env.innerWidth > 1024 <;> simp [hw]
  · cases detectMobile env <;> cases detectTablet env <;>
      by_cases hw : env.innerWidth > 1024 <;>
      simp [hw, n1, n2, n3, n4, n5, n6, n1.symm, n2.symm, n3.symm, n4.symm, n5.symm, n6.symm]

/-- C27, witness: an iPad (mobile and tablet), an iPhone, a desktop browser in a wide
window, and the same browser in a window of width 900 without touch. -/
theorem C27_device_type_classification_witness :
    (DeviceDetector.new
      ⟨utf16 "Mozilla/5.0 (iPad; CPU OS 16_0 like Mac OS X)", 820, 1180, true⟩).isMobile =
      true ∧
    (DeviceDetector.new
      ⟨utf16 "Mozilla/5.0 (iPad; CPU OS 16_0 like Mac OS X)", 820, 1180, true⟩).deviceType =
      utf16 "tablet" ∧
    (DeviceDetector.new
      ⟨utf16 "Mozilla/5.0 (iPhone; CPU iPhone OS 16_0 like Mac OS X)", 390, 844,
        true⟩).deviceType = utf16 "mobile" ∧
    (DeviceDetector.new
      ⟨utf16 "Mozilla/5.0 (X11; Linux x86_64; rv:109.0) Gecko/20100101 Firefox/115.0", 1920,
        1080, false⟩).deviceType = utf16 "desktop" ∧
    (DeviceDetector.new
      ⟨utf16 "Mozilla/5.0 (X11; Linux x86_64; rv:109.0) Gecko/20100101 Firefox/115.0", 900,
        700, false⟩).deviceType = utf16 "unknown" :=
  ⟨by decide,
   (C27_device_type_classification
      ⟨utf16 "Mozilla/5.0 (iPad; CPU OS 16_0 like Mac OS X)", 820, 1180, true⟩).2.2.1
      (by decide),
   (C27_device_type_classification
      ⟨utf16 "Mozilla/5.0 (iPhone; CPU iPhone OS 16_0 like Mac OS X)", 390, 844,
        true⟩).2.2.2.2.1.mpr ⟨by decide, by decide⟩,
   (C27_device_type_classification
      ⟨utf16 "Mozilla/5.0 (X11; Linux x86_64; rv:109.0) Gecko/20100101 Firefox/115.0", 1920,
        1080, false⟩).2.2.2.2.2.1.mpr (by decide),
   (C27_device_type_classification
      ⟨utf16 "Mozilla/5.0 (X11; Linux x86_64; rv:109.0) Gecko/20100101 Firefox/115.0", 900,
        700, false⟩).2.2.2.2.2.2.2.1.mpr ⟨by decide, by decide, by decide⟩⟩

/-- C14, counterexample: streaming is on and the chat request is answered with status 204,
an OK response without a body. `handleStreamingResponse` is called and displays the empty
assistant message, then `response.body.getReader()` throws before the read loop: the final
`renderMarkdown` is never made, and `sendMessage` reports the `TypeError`. -/
theorem C14_bodiless_reply_never_completes :
    newEffects bodilessEnv idleStreamingWorld =
      [.displayMessage ⟨.user, some (.string (utf16 "Hi there")), 1⟩,
       .autoResizeTextarea,
       .chatRequest
        { prompt := utf16 "Hi there", modelName := utf16 "orzion", stream := true, tools := [],
          username := none,
          chatHistory := [⟨.user, some (.string (utf16 "Hi there")), 1⟩] },
       .displayMessage ⟨.assistant, some (.string []), 2⟩,
       .showError (utf16 "Error: Cannot read properties of null (reading 'getReader')")
        (utf16 "error"),
       .saveChatToServer
        { id := none, title := utf16 "Hi there",
          messages := [⟨.user, some (.string (utf16 "Hi there")), 1⟩,
            ⟨.assistant, some (.string []), 2⟩],
          username := none }] ∧
    finalRenders (newEffects bodilessEnv idleStreamingWorld) = [] := by
  decide

/-- C14, amended: on the streaming path, when the OK response has a body, the final
`renderMarkdown` of the assistant message is made exactly once, as the last effect of
`handleStreamingResponse`, with the final content, after the incremental renders of the
fragments of every chunk of the stream (this is so whether the loop ends at the end of the
stream or with a rejected read), and it is the only final render of `sendMessage`. Step by
step, under any sequence of resumptions and stops, the final render has been made, once,
exactly when the call has returned. When the OK response has no body the call displays the
empty message and throws at `response.body.getReader()`: no final render is made and the
`TypeError` is reported. On the single-shot path with an OK response the assistant message
is displayed at most once: once, with the extracted text, when the JSON has been parsed and
holds a text at `choices[0].message.content`, and not at all when `response.json()`
rejects. -/
theorem C14_completion_once_with_body :
    (∀ (body : BodyStream) (timestamp : Nat) (content : JSString),
      finalRenders (handleStreamingResponse body timestamp content).effects =
        [(handleStreamingResponse body timestamp content).content] ∧
      (handleStreamingResponse body timestamp content).effects.getLast? =
        some (.renderMarkdown (handleStreamingResponse body timestamp content).content) ∧
      realTimeRenders (handleStreamingResponse body timestamp content).effects =
        prefixTexts content (extractedFragments body.chunks)) ∧
    (∀ (body : BodyStream) (timestamp : Nat) (content : JSString) (controller : Nat)
        (abortMessage : JSString) (w : World) (actions : List Action),
      finalRenders
          ((Session.start body timestamp content controller abortMessage w).run
            actions).stream.effects =
        if ((Session.start body timestamp content controller abortMessage w).run
            actions).phase = .returned
        then [((Session.start body timestamp content controller abortMessage w).run
            actions).stream.content]
        else []) ∧
    (∀ (env : SendEnv) (w : World) (response : Response),
      (trim w.ui.messageInput).isEmpty = false → w.app.isTyping = false →
      w.app.isStreaming = true → env.fetchResult = .ok response → response.ok = true →
      (∀ body : BodyStream, response.body = some body →
        finalRenders (newEffects env w) =
          [(handleStreamingResponse body env.botTimestamp []).content]) ∧
      (response.body = none →
        finalRenders (newEffects env w) = [] ∧
        assistantRenders (newEffects env w) =
          [.displayMessage ⟨.assistant, some (.string []), env.botTimestamp⟩] ∧
        shownErrors (newEffects env w) =
          [(utf16 "Error: " ++ env.typeErrorMessage, utf16 "error")])) ∧
    (∀ (env : SendEnv) (w : World) (response : Response),
      (trim w.ui.messageInput).isEmpty = false → w.app.isTyping = false →
      w.app.isStreaming = false → env.fetchResult = .ok response → response.ok = true →
      (assistantRenders (newEffects env w)).length ≤ 1 ∧
      (∀ (data : JsonValue) (c : JSString),
        responseJson response.body env.syntaxErrorMessage = .ok data →
        readMessageContent data = .normal (some (.string c)) →
        assistantRenders (newEffects env w) =
          [.displayMessage ⟨.assistant, some (.string c), env.botTimestamp⟩]) ∧
      (∀ error : JSError, responseJson response.body env.syntaxErrorMessage = .error error →
        assistantRenders (newEffects env w) = [])) := by
  refine ⟨?_, ?_, ?_, ?_⟩
  · intro body timestamp content
    exact ⟨(handleStreamingResponse_finalRenders body timestamp content).1,
      (handleStreamingResponse_finalRenders body timestamp content).2,
      handleStreamingResponse_renders body timestamp content⟩
  · intro body timestamp content controller abortMessage w actions
    exact rendersOnReturn_run actions _ rfl
  · intro env w response hinput htyping hstream hfetch hok
    have hs : (sendMessageStart env w).app.isStreaming = true := by
      rw [sendMessageStart_app]; exact hstream
    constructor
    · intro body hbody
      have htry := sendMessageTry_streaming env _ response body hs hfetch hok hbody
      rw [finalRenders_newEffects env w
        (handleStreamingResponse body env.botTimestamp []).effects hinput htyping
        (by rw [htry]; simp [setBotContent, World.pushMessage])]
      exact (handleStreamingResponse_finalRenders body env.botTimestamp []).1
    · intro hbody
      have htry := sendMessageTry_bodiless env _ response hs hfetch hok hbody
      have hadd : (sendMessageTry env (sendMessageStart env w)).1.effects =
          (sendMessageStart env w).effects ++
            [.displayMessage ⟨.assistant, some (.string []), env.botTimestamp⟩] := by
        rw [htry]; simp [World.emit, World.pushMessage]
      refine ⟨?_, ?_, ?_⟩
      · rw [finalRenders_newEffects env w _ hinput htyping hadd]; rfl
      · rw [assistantRenders_newEffects env w _ hinput htyping hadd]
        simp [assistantRenders]
      · rw [shownErrors_newEffects env w hinput htyping]
        have hc : caughtError env w = some ⟨utf16 "TypeError", env.typeErrorMessage⟩ := by
          unfold caughtError
          rw [htry]
        have hname : utf16 "TypeError" ≠ utf16 "AbortError" := by decide
        rw [hc]
        simp [catchReport, hname]
  · intro env w response hinput htyping hstream hfetch hok
    have hs : (sendMessageStart env w).app.isStreaming = false := by
      rw [sendMessageStart_app]; exact hstream
    cases hj : responseJson response.body env.syntaxErrorMessage with
    | error e =>
      have htry : sendMessageTry env (sendMessageStart env w) =
          ((sendMessageStart env w).pushMessage ⟨.assistant, some (.string []), env.botTimestamp⟩,
            some e) := by
        simp [sendMessageTry, hfetch, hok, hs, hj, World.pushMessage]
      have h0 := assistantRenders_newEffects env w [] hinput htyping
        (by rw [htry]; simp [World.pushMessage])
      rw [h0]
      exact ⟨by simp [assistantRenders], fun _ _ h => (by cases h), fun _ _ => rfl⟩
    | ok data =>
      have htry := sendMessageTry_singleShot env (sendMessageStart env w) response data hs
        hfetch hok hj
      cases hr : readMessageContent data with
      | throw =>
        rw [hr] at htry
        have h0 := assistantRenders_newEffects env w [] hinput htyping
          (by rw [htry]; simp [World.pushMessage])
        rw [h0]
        exact ⟨by simp [assistantRenders], fun _ _ hd h => (by cases hd; rw [hr] at h; cases h), fun _ h => (by cases h)⟩
      | normal content =>
        rw [hr] at htry
        by_cases hc : ∃ c, content = some (.string c)
        · obtain ⟨c, rfl⟩ := hc
          have h0 := assistantRenders_newEffects env w
            [.displayMessage ⟨.assistant, some (.string c), env.botTimestamp⟩] hinput htyping
            (by rw [htry]; simp [World.pushMessage, World.emit, setBotContent])
          rw [h0]
          refine ⟨by simp [assistantRenders], ?_, fun _ h => (by cases h)⟩
          intro data' c' hd hc'
          cases hd
          rw [hr] at hc'
          cases hc'
          simp [assistantRenders]
        · have htry' : sendMessageTry env (sendMessageStart env w) =
              (setBotContent content
                ((sendMessageStart env w).pushMessage
                  ⟨.assistant, some (.string []), env.botTimestamp⟩),
                some ⟨utf16 "Error", env.renderErrorMessage⟩) := by
            rw [htry]
            rcases content with _ | v
            · rfl
            · cases v <;> first | rfl | exact absurd ⟨_, rfl⟩ hc
          have h0 := assistantRenders_newEffects env w [] hinput htyping
            (by rw [htry']; simp [World.pushMessage, setBotContent])
          rw [h0]
          refine ⟨by simp [assistantRenders], ?_, fun _ h => (by cases h)⟩
          intro data' c' hd hc'
          cases hd
          rw [hr] at hc'
          cases hc'
          exact absurd ⟨c', rfl⟩ hc

/-- C14, witness: the stream of `threeFrameSession`, run as a whole and stopped after its
first fragment, a streaming exchange of the frames `He` and `llo`, the reply without a body,
and the single-shot response of `singleShotEnv`. -/
theorem C14_completion_once_with_body_witness :
    finalRenders
      (handleStreamingResponse
        ⟨[frameLine "He" ++ [newline] ++ frameLine "llo" ++ [newline]], .done⟩ 2 []).effects =
      [utf16 "Hello"] ∧
    finalRenders (threeFrameSession.run [.resume, .stop, .resume, .resume]).stream.effects =
      [] ∧
    finalRenders
        (threeFrameSession.run [.resume, .stop, .resume, .resume, .resume, .resume]).stream.effects =
      [utf16 "Hello!"] ∧
    finalRenders (newEffects
      { singleShotEnv with
        fetchResult := .ok
          { ok := true, status := 200,
            body := some ⟨[frameLine "He" ++ [newline], frameLine "llo" ++ [newline]], .done⟩ } }
      idleStreamingWorld) = [utf16 "Hello"] ∧
    finalRenders (newEffects bodilessEnv idleStreamingWorld) = [] ∧
    assistantRenders (newEffects singleShotEnv singleShotWorld) =
      [.displayMessage ⟨.assistant, some (.string (utf16 "Hi")), 2⟩] :=
  ⟨(C14_completion_once_with_body.1 _ 2 []).1.trans (by decide),
   (C14_completion_once_with_body.2.1 _ 2 [] 0 (utf16 "The user aborted a request.")
      streamingWorld [.resume, .stop, .resume, .resume]).trans (by decide),
   (C14_completion_once_with_body.2.1 _ 2 [] 0 (utf16 "The user aborted a request.")
      streamingWorld [.resume, .stop, .resume, .resume, .resume, .resume]).trans (by decide),
   ((C14_completion_once_with_body.2.2.1
      { singleShotEnv with
        fetchResult := .ok
          { ok := true, status := 200,
            body := some ⟨[frameLine "He" ++ [newline], frameLine "llo" ++ [newline]], .done⟩ } }
      idleStreamingWorld
      { ok := true, status := 200,
        body := some ⟨[frameLine "He" ++ [newline], frameLine "llo" ++ [newline]], .done⟩ }
      (by decide) (by decide) (by decide) rfl (by decide)).1
      ⟨[frameLine "He" ++ [newline], frameLine "llo" ++ [newline]], .done⟩ rfl).trans
      (by decide),
   ((C14_completion_once_with_body.2.2.1 bodilessEnv idleStreamingWorld
      { ok := true, status := 204, body := none }
      (by decide) (by decide) (by decide) rfl (by decide)).2 rfl).1,
   (C14_completion_once_with_body.2.2.2 singleShotEnv singleShotWorld
      { ok := true, status := 200,
        body := some ⟨[utf16 "\x7b\"choices\":[\x7b\"message\":\x7b\"content\":\"Hi\"\x7d\x7d]\x7d"],
          .done⟩ }
      (by decide) (by decide) (by decide) rfl (by decide)).2.1
      (.object [(PropertyName.choices.text, .array [.object [(PropertyName.message.text,
        .object [(PropertyName.content.text, .string (utf16 "Hi"))])]])])
      (utf16 "Hi") rfl (by decide)⟩

/-- C15: while `handleStreamingResponse` runs, each resumption and each stop leaves the
content of the assistant message with the earlier content as a prefix, so its length never
decreases, and so does every further sequence of them. A call that is not stopped returns
with the content of the call run as a whole. After a streaming `sendMessage` during which
nothing else runs, the last message of the transcript is the assistant message with that
final content (the empty text when the response has no body and the call throws before its
loop), and the chat that the `finally` block saves, when saving does not throw, holds that
transcript. In every run of sends, settlements and stops, interleaved in any way, a
settlement inside `handleStreamingResponse` leaves the earlier content as a prefix of the
new one and assigns the new content to the message object, which is in the transcript,
changing no other message; the execution ends exactly when the call returns, and then the
request that saves the chat, made when saving does not throw, carries the transcript
holding the message with its final content. -/
theorem C15_content_grows_and_is_persisted :
    (∀ (s : Session) (a : Action),
      s.stream.content <+: (s.step a).stream.content ∧
      s.stream.content.length ≤ (s.step a).stream.content.length) ∧
    (∀ (s : Session) (actions more : List Action),
      (s.run actions).stream.content <+: (s.run (actions ++ more)).stream.content) ∧
    (∀ (body : BodyStream) (timestamp controller : Nat) (abortMessage : JSString) (v : World),
      controller ∉ v.aborted →
      ∃ n,
        ((Session.start body timestamp [] controller abortMessage v).run
          (List.replicate n .resume)).phase = .returned ∧
        ((Session.start body timestamp [] controller abortMessage v).run
          (List.replicate n .resume)).stream.content =
          (handleStreamingResponse body timestamp []).content) ∧
    (∀ (env : SendEnv) (w : World) (response : Response) (body : BodyStream),
      (trim w.ui.messageInput).isEmpty = false → w.app.isTyping = false →
      w.app.isStreaming = true → env.fetchResult = .ok response → response.ok = true →
      response.body = some body →
      (sendMessage env w).world.app.chatHistory =
        w.app.chatHistory ++
          [userMessage env w,
           ⟨.assistant,
             some (.string (handleStreamingResponse body env.botTimestamp []).content),
             env.botTimestamp⟩] ∧
      ((sendMessage env w).rejected = none →
        ∃ title, newEffects env w =
          startEffects env w ++
            (handleStreamingResponse body env.botTimestamp []).effects ++
            [.saveChatToServer
              { id := w.app.currentChatId
                title := title
                messages := (sendMessage env w).world.app.chatHistory
                username := w.app.currentUser }])) ∧
    (∀ (env : SendEnv) (w : World) (response : Response),
      (trim w.ui.messageInput).isEmpty = false → w.app.isTyping = false →
      w.app.isStreaming = true → env.fetchResult = .ok response → response.ok = true →
      response.body = none →
      (sendMessage env w).world.app.chatHistory =
        w.app.chatHistory ++
          [userMessage env w, ⟨.assistant, some (.string []), env.botTimestamp⟩] ∧
      ((sendMessage env w).rejected = none →
        ∃ title, newEffects env w =
          startEffects env w ++
            [.displayMessage ⟨.assistant, some (.string []), env.botTimestamp⟩,
             .showError (utf16 "Error: " ++ env.typeErrorMessage) (utf16 "error"),
             .saveChatToServer
              { id := w.app.currentChatId
                title := title
                messages := (sendMessage env w).world.app.chatHistory
                username := w.app.currentUser }])) ∧
    (∀ (w : World) (events : List Event) (index : Nat) (task : SendTask) (session : Session)
        (botIndex : Nat),
      (Machine.run ⟨w, []⟩ events).tasks[index]? = some task →
      task.phase = .streaming session botIndex →
      botIndex < (Machine.run ⟨w, []⟩ events).world.app.chatHistory.length ∧
      session.stream.content <+:
        (Session.resume
          { session with world := (Machine.run ⟨w, []⟩ events).world }).stream.content ∧
      (task.settle (Machine.run ⟨w, []⟩ events).world).1.app.chatHistory[botIndex]?.map
          ChatMessage.content =
        some (some (.string
          (Session.resume
            { session with world := (Machine.run ⟨w, []⟩ events).world }).stream.content)) ∧
      (∀ j, j ≠ botIndex →
        (task.settle (Machine.run ⟨w, []⟩ events).world).1.app.chatHistory[j]? =
          (Machine.run ⟨w, []⟩ events).world.app.chatHistory[j]?) ∧
      ((task.settle (Machine.run ⟨w, []⟩ events).world).2.isActive = false ↔
        (Session.resume
          { session with world := (Machine.run ⟨w, []⟩ events).world }).phase = .returned) ∧
      ((task.settle (Machine.run ⟨w, []⟩ events).world).2.phase = .finished none →
        ∃ title,
          (task.settle (Machine.run ⟨w, []⟩ events).world).1.effects.getLast? =
            some (.saveChatToServer
              { id := (Machine.run ⟨w, []⟩ events).world.app.currentChatId
                title := title
                messages :=
                  (task.settle (Machine.run ⟨w, []⟩ events).world).1.app.chatHistory
                username := (Machine.run ⟨w, []⟩ events).world.app.currentUser }))) := by
  refine ⟨?_, ?_, ?_, ?_, ?_, ?_⟩
  · intro s a
    exact ⟨content_prefix_step s a, (content_prefix_step s a).length_le⟩
  · intro s actions more
    rw [Session.run_append]
    exact content_prefix_run more _
  · intro body timestamp controller abortMessage v ha
    obtain ⟨n, h1, h2⟩ := Session.start_returns body timestamp [] controller abortMessage v ha
    exact ⟨n, h1, by rw [h2]⟩
  · intro env w response body hinput htyping hstream hfetch hok hbody
    have hs : (sendMessageStart env w).app.isStreaming = true := by
      rw [sendMessageStart_app]; exact hstream
    have htry := sendMessageTry_streaming env _ response body hs hfetch hok hbody
    have hacc := sendMessage_accepted env w hinput htyping
    rw [htry] at hacc
    simp only [sendMessageCatch] at hacc
    obtain ⟨happ, -, -, -⟩ := sendMessageFinally_world env
      (setBotContent
        (some (.string (handleStreamingResponse body env.botTimestamp []).content))
        { (sendMessageStart env w).pushMessage ⟨.assistant, some (.string []), env.botTimestamp⟩ with
          effects := (sendMessageStart env w).effects ++
            (handleStreamingResponse body env.botTimestamp []).effects })
    have hhist : (sendMessage env w).world.app.chatHistory =
        w.app.chatHistory ++
          [userMessage env w,
           ⟨.assistant,
             some (.string (handleStreamingResponse body env.botTimestamp []).content),
             env.botTimestamp⟩] := by
      rw [hacc, happ]
      simp only [setBotContent, World.pushMessage, sendMessageStart_app]
      rw [List.append_assoc, List.singleton_append, List.append_cons,
        updateLast_append_singleton]
      simp [userMessage]
    refine ⟨hhist, ?_⟩
    intro hrej
    rw [hacc] at hrej
    obtain ⟨title, ht⟩ := sendMessageFinally_saved env _ hrej (by
      simp only [setBotContent, World.pushMessage, sendMessageStart_app]
      rw [List.append_assoc, List.singleton_append, List.append_cons,
        updateLast_append_singleton]
      simp)
    refine ⟨title, ?_⟩
    unfold newEffects
    rw [hhist]
    rw [hacc, ht]
    simp only [setBotContent, World.pushMessage, sendMessageStart_app, sendMessageStart_effects,
      List.append_assoc, List.drop_left]
    rw [List.singleton_append, List.append_cons w.app.chatHistory, updateLast_append_singleton]
    simp [userMessage]
  · intro env w response hinput htyping hstream hfetch hok hbody
    have hs : (sendMessageStart env w).app.isStreaming = true := by
      rw [sendMessageStart_app]; exact hstream
    have htry := sendMessageTry_bodiless env _ response hs hfetch hok hbody
    have hname : (⟨utf16 "TypeError", env.typeErrorMessage⟩ : JSError).name ≠
        utf16 "AbortError" := by
      show utf16 "TypeError" ≠ utf16 "AbortError"
      decide
    have hacc := sendMessage_accepted env w hinput htyping
    rw [htry] at hacc
    simp only [sendMessageCatch, hname, ne_eq, not_false_eq_true, if_true] at hacc
    obtain ⟨happ, -, -, -⟩ := sendMessageFinally_world env
      ((((sendMessageStart env w).pushMessage
        ⟨.assistant, some (.string []), env.botTimestamp⟩).emit
        (.displayMessage ⟨.assistant, some (.string []), env.botTimestamp⟩)).emit
        (.showError (utf16 "Error: " ++ env.typeErrorMessage) (utf16 "error")))
    have hhist : ((((sendMessageStart env w).pushMessage
        ⟨.assistant, some (.string []), env.botTimestamp⟩).emit
        (.displayMessage ⟨.assistant, some (.string []), env.botTimestamp⟩)).emit
        (.showError (utf16 "Error: " ++ env.typeErrorMessage)
          (utf16 "error"))).app.chatHistory =
        w.app.chatHistory ++
          [userMessage env w, ⟨.assistant, some (.string []), env.botTimestamp⟩] := by
      simp [World.emit, World.pushMessage, sendMessageStart_app, userMessage]
    have hfinal : (sendMessage env w).world.app.chatHistory =
        w.app.chatHistory ++
          [userMessage env w, ⟨.assistant, some (.string []), env.botTimestamp⟩] := by
      rw [hacc, happ]; exact hhist
    refine ⟨hfinal, ?_⟩
    intro hrej
    rw [hacc] at hrej
    obtain ⟨title, ht⟩ := sendMessageFinally_saved env _ hrej (by rw [hhist]; simp)
    refine ⟨title, ?_⟩
    rw [hfinal]
    unfold newEffects
    rw [hacc, ht, hhist]
    simp [World.emit, World.pushMessage, sendMessageStart_effects, sendMessageStart_app]
  · intro w events index task session botIndex htask hp
    have hwell := wellIndexed_run events ⟨w, []⟩ (by intro t ht; cases ht)
    have hb := hwell task (List.getElem?_mem htask) botIndex (by simp [SendTask.botIndex?, hp])
    exact ⟨hb, settle_streaming task _ session botIndex hp hb⟩

/-- C15, witness: the content grows from `He` to `Hello` over a stop; the streaming exchange
of the frames `He` and `llo` leaves `Hello` in the transcript that is saved; a reply without
a body leaves the empty message; and in the run `overlapEvents`, where a second message has
been sent after a stop, the next settlement of the first call gives its message, the second
of three, the content `Hello`. -/
theorem C15_content_grows_and_is_persisted_witness :
    utf16 "He" <+: utf16 "Hello" ∧
    (sendMessage
      { singleShotEnv with
        fetchResult := .ok
          { ok := true, status := 200,
            body := some ⟨[frameLine "He" ++ [newline], frameLine "llo" ++ [newline]], .done⟩ } }
      { singleShotWorld with
        app := { singleShotWorld.app with isStreaming := true } }).world.app.chatHistory =
      [⟨.user, some (.string (utf16 "Hi there")), 1⟩,
       ⟨.assistant, some (.string (utf16 "Hello")), 2⟩] ∧
    (sendMessage bodilessEnv idleStreamingWorld).world.app.chatHistory =
      [⟨.user, some (.string (utf16 "Hi there")), 1⟩, ⟨.assistant, some (.string []), 2⟩] ∧
    (Machine.run ⟨idleStreamingWorld, []⟩ overlapEvents).world.app.chatHistory.length = 3 ∧
    (overlapTask.settle
        (Machine.run ⟨idleStreamingWorld, []⟩ overlapEvents).world).1.app.chatHistory[1]?.map
      ChatMessage.content = some (some (.string (utf16 "Hello"))) :=
  have hm := C15_content_grows_and_is_persisted.2.2.2.2.2 idleStreamingWorld overlapEvents 0 overlapTask
    overlapSession 1 rfl rfl
  ⟨(show (threeFrameSession.run [.resume]).stream.content = utf16 "He" from by decide) ▸
    (show (threeFrameSession.run ([.resume] ++ [.stop, .resume])).stream.content =
      utf16 "Hello" from by decide) ▸
    C15_content_grows_and_is_persisted.2.1 threeFrameSession [.resume] [.stop, .resume],
   ((C15_content_grows_and_is_persisted.2.2.2.1
      { singleShotEnv with
        fetchResult := .ok
          { ok := true, status := 200,
            body := some ⟨[frameLine "He" ++ [newline], frameLine "llo" ++ [newline]], .done⟩ } }
      { singleShotWorld with app := { singleShotWorld.app with isStreaming := true } }
      { ok := true, status := 200,
        body := some ⟨[frameLine "He" ++ [newline], frameLine "llo" ++ [newline]], .done⟩ }
      ⟨[frameLine "He" ++ [newline], frameLine "llo" ++ [newline]], .done⟩
      (by decide) (by decide) (by decide) rfl (by decide) rfl).1).trans (by decide),
   ((C15_content_grows_and_is_persisted.2.2.2.2.1 bodilessEnv idleStreamingWorld
      { ok := true, status := 204, body := none }
      (by decide) (by decide) (by decide) rfl (by decide) rfl).1).trans (by decide),
   rfl,
   hm.2.2.1.trans rfl⟩

/-- C23, counterexample: the bytes of the response are the frame `He`, a line feed, a byte
order mark, the frame `llo` and a line feed (the frames are ASCII, so their bytes are their
code units). Cut immediately after the first line feed, the second read is decoded by its own
call of `decoder.decode`, which drops the byte order mark that starts it: the fragments are
`He` and `llo` and the content is `Hello`. Delivered as one chunk, the byte order mark stays
in the text as U+FEFF at the start of the second line, which therefore does not start with
`data: `: the only fragment is `He`, and so is the content. -/
theorem C23_byte_order_mark_after_cut :
    (frameLine "He" ++ [newline]).getLast? = some 10 ∧
    (decodedBody
      [frameLine "He" ++ [newline], byteOrderMark ++ frameLine "llo" ++ [newline]]
      .done).chunks =
      [frameLine "He" ++ [newline], frameLine "llo" ++ [newline]] ∧
    (decodedBody
      [frameLine "He" ++ [newline] ++ (byteOrderMark ++ frameLine "llo" ++ [newline])]
      .done).chunks =
      [frameLine "He" ++ [newline] ++ ([65279] ++ frameLine "llo" ++ [newline])] ∧
    extractedFragments
      (decodedBody
        [frameLine "He" ++ [newline], byteOrderMark ++ frameLine "llo" ++ [newline]]
        .done).chunks = [utf16 "He", utf16 "llo"] ∧
    extractedFragments
      (decodedBody
        [frameLine "He" ++ [newline] ++ (byteOrderMark ++ frameLine "llo" ++ [newline])]
        .done).chunks = [utf16 "He"] ∧
    (handleStreamingResponse
      (decodedBody
        [frameLine "He" ++ [newline], byteOrderMark ++ frameLine "llo" ++ [newline]]
        .done) 0 []).content = utf16 "Hello" ∧
    (handleStreamingResponse
      (decodedBody
        [frameLine "He" ++ [newline] ++ (byteOrderMark ++ frameLine "llo" ++ [newline])]
        .done) 0 []).content = utf16 "He" := by
  refine ⟨?_, ?_, ?_, ?_, ?_, ?_, ?_⟩
  · rfl
  · rfl
  · decide
  · rfl
  · rfl
  · rfl
  · rfl

/-- C19, evaluation of the failing run. In the run `overlapEvents` the first call has been
stopped during a pacing delay and a second message has been sent: the transcript holds the
user message, the assistant message of the first call with content `He`, and the second
user message. The first call is still running: its next settlements assign `Hello` and
`Hello!` to its message, which is not the last of the transcript, and when it has ended the
transcript is not the prior one followed by its user message and its assistant message. -/
theorem C19_stopped_call_mutates_inner_message :
    (Machine.run ⟨idleStreamingWorld, []⟩ overlapEvents).world.app.chatHistory =
      [⟨.user, some (.string (utf16 "Hi there")), 1⟩,
       ⟨.assistant, some (.string (utf16 "He")), 2⟩,
       ⟨.user, some (.string (utf16 "again")), 3⟩] ∧
    (Machine.run ⟨idleStreamingWorld, []⟩ overlapEvents).active = [true, true] ∧
    (Machine.run ⟨idleStreamingWorld, []⟩
      (overlapEvents ++ [.settle 0])).world.app.chatHistory =
      [⟨.user, some (.string (utf16 "Hi there")), 1⟩,
       ⟨.assistant, some (.string (utf16 "Hello")), 2⟩,
       ⟨.user, some (.string (utf16 "again")), 3⟩] ∧
    (Machine.run ⟨idleStreamingWorld, []⟩
      (overlapEvents ++ drainEvents)).world.app.chatHistory =
      [⟨.user, some (.string (utf16 "Hi there")), 1⟩,
       ⟨.assistant, some (.string (utf16 "Hello!")), 2⟩,
       ⟨.user, some (.string (utf16 "again")), 3⟩] ∧
    (Machine.run ⟨idleStreamingWorld, []⟩ (overlapEvents ++ drainEvents)).active =
      [false, true] ∧
    (sendMessage firstEnv idleStreamingWorld).world.app.chatHistory =
      [⟨.user, some (.string (utf16 "Hi there")), 1⟩,
       ⟨.assistant, some (.string (utf16 "Hello!?")), 2⟩] := by
  exact ⟨rfl, rfl, rfl, rfl, rfl, rfl⟩

end Orzion
